import Mathlib

/-!
# Verification of the PQoS API facade (`lib/api.c`)

Shallow embedding of the exported operations of `lib/api.c` (intel-cmt-cat):
the global lock, the initialisation check, argument validation, the
contiguity validator and the dispatch to the hardware / OS backends.

Machine integers are natural numbers or integers; `uint64_t` values are
reduced modulo `2^64` where they enter a function.  Loops that the C code
runs without a bound take a fuel argument and return `none` when the fuel
runs out.
-/

namespace Pqos

/-! ## Constants -/

/-- Value marking monitoring group structure as "valid" (`api.c`, line 53). -/
def GROUP_VALID_MARKER : Int := 0x00DEAD00

/-- Modelled from the spec: return code OK of `pqos.h`. -/
def PQOS_RETVAL_OK : Int := 0

/-- Modelled from the spec: return code ERROR of `pqos.h` (generic / backend
failure, including "capability not built"). -/
def PQOS_RETVAL_ERROR : Int := 1

/-- Modelled from the spec: return code PARAM of `pqos.h` (invalid argument). -/
def PQOS_RETVAL_PARAM : Int := 2

/-- Modelled from the spec: return code INIT of `pqos.h` (library not yet
initialised). -/
def PQOS_RETVAL_INIT : Int := 4

/-! ## Contiguity validator -/

/-- First loop of `is_contiguous`:
`while ((bitmask & 1) == 0) bitmask >>= 1;`.  `none` when the fuel runs out. -/
def shift_zeros : Nat → Nat → Option Nat
  | 0, _ => none
  | fuel + 1, bitmask =>
    if bitmask &&& 1 = 0 then shift_zeros fuel (bitmask >>> 1) else some bitmask

/-- Second loop of `is_contiguous`:
`while ((bitmask & 1) != 0) bitmask >>= 1;`.  `none` when the fuel runs out. -/
def shift_ones : Nat → Nat → Option Nat
  | 0, _ => none
  | fuel + 1, bitmask =>
    if bitmask &&& 1 ≠ 0 then shift_ones fuel (bitmask >>> 1) else some bitmask

/-- The function `is_contiguous(uint64_t bitmask)` of `api.c`.  The parameter is
a `uint64_t`, so the argument is taken modulo `2^64`; each of the two loops
gets `fuel` iterations. -/
def is_contiguous (fuel : Nat) (bitmask : Nat) : Option Int :=
  let bitmask := bitmask % 2 ^ 64
  if bitmask = 0 then some 0
  else
    match shift_zeros fuel bitmask with
    | none => none
    | some bitmask =>
      match shift_ones fuel bitmask with
      | none => none
      | some bitmask => some (if bitmask ≠ 0 then 0 else 1)

/-! ## Data model -/

/-- Addresses of caller-owned objects the facade only hands on. -/
abbrev Ptr := Nat

/-- The null pointer. -/
def NULL : Ptr := 0

/-- Modelled from the spec: the code / data mask pair `u.s` of `struct pqos_l3ca`
(declared in `pqos.h`). -/
structure pqos_l3ca_s where
  data_mask : Nat
  code_mask : Nat

/-- Modelled from the spec: the member `u` of `struct pqos_l3ca`; its members
are kept side by side, so nothing is assumed about how they overlap. -/
structure pqos_l3ca_u where
  ways_mask : Nat
  s : pqos_l3ca_s

/-- Modelled from the spec: `struct pqos_l3ca`, an L3 class of service with a
class id, the CDP flag and the capacity mask(s). -/
structure pqos_l3ca where
  class_id : Nat
  cdp : Int
  u : pqos_l3ca_u

/-- Modelled from the spec: `struct pqos_l2ca`, an L2 class of service. -/
structure pqos_l2ca where
  class_id : Nat
  ways_mask : Nat

/-- Modelled from the spec: `struct pqos_mon_data`, the caller-allocated
monitoring group: validity marker, event mask, caller context, counters, the
process-id target, the core-set target and backend-private bookkeeping. -/
structure pqos_mon_data where
  valid : Int
  event : Nat
  context : Ptr
  values : Nat
  pid : Int
  cores : Ptr
  num_cores : Nat
  priv : Nat

/-- Memory holding the monitoring groups, by address. -/
abbrev Mem := Ptr → pqos_mon_data

/-- Result of `memset(group, 0, sizeof(*group))`. -/
def pqos_mon_data.zero : pqos_mon_data :=
  { valid := 0, event := 0, context := NULL, values := 0, pid := 0,
    cores := NULL, num_cores := 0, priv := 0 }

/-- Store `g` at address `p`. -/
def Mem.write (m : Mem) (p : Ptr) (g : pqos_mon_data) : Mem :=
  fun q => if q = p then g else m q

/-- Modelled from the spec: `enum pqos_cdp_config` of `pqos.h`, requirement ANY. -/
def PQOS_REQUIRE_CDP_ANY : Int := 0

/-- Modelled from the spec: `enum pqos_cdp_config` of `pqos.h`, requirement OFF. -/
def PQOS_REQUIRE_CDP_OFF : Int := 1

/-- Modelled from the spec: `enum pqos_cdp_config` of `pqos.h`, requirement ON. -/
def PQOS_REQUIRE_CDP_ON : Int := 2

/-- Modelled from the spec: event flag "L3 occupancy" of `enum pqos_mon_event`. -/
def PQOS_MON_EVENT_L3_OCCUP : Nat := 1

/-- Modelled from the spec: event flag "local memory bandwidth". -/
def PQOS_MON_EVENT_LMEM_BW : Nat := 2

/-- Modelled from the spec: event flag "total memory bandwidth". -/
def PQOS_MON_EVENT_TMEM_BW : Nat := 4

/-- Modelled from the spec: event flag "remote memory bandwidth". -/
def PQOS_MON_EVENT_RMEM_BW : Nat := 8

/-- Modelled from the spec: auxiliary event flag "LLC misses". -/
def PQOS_PERF_EVENT_LLC_MISS : Nat := 0x4000

/-- Modelled from the spec: auxiliary event flag "instructions per cycle". -/
def PQOS_PERF_EVENT_IPC : Nat := 0x8000

/-- Bitwise complement `~x` at the 32-bit width of `enum pqos_mon_event`. -/
def lnot32 (x : Nat) : Nat := (2 ^ 32 - 1) ^^^ (x % 2 ^ 32)

/-- The backend operations the facade can invoke, with the arguments handed
over.  Constant tables are carried by value, other pointers by address. -/
inductive Call where
  | hw_alloc_assoc_set (lcore class_id : Nat)
  | os_alloc_assoc_set (lcore class_id : Nat)
  | hw_alloc_assoc_get (lcore : Nat) (class_id : Ptr)
  | os_alloc_assoc_get (lcore : Nat) (class_id : Ptr)
  | hw_alloc_assign (technology : Nat) (core_array : Ptr) (core_num : Nat) (class_id : Ptr)
  | os_alloc_assign (technology : Nat) (core_array : Ptr) (core_num : Nat) (class_id : Ptr)
  | hw_alloc_release (core_array : Ptr) (core_num : Nat)
  | os_alloc_release (core_array : Ptr) (core_num : Nat)
  | hw_alloc_reset (l3_cdp_cfg : Int)
  | os_alloc_reset (l3_cdp_cfg : Int)
  | hw_l3ca_set (socket num_cos : Nat) (ca : Option (Nat → pqos_l3ca))
  | os_l3ca_set (socket num_cos : Nat) (ca : Option (Nat → pqos_l3ca))
  | hw_l3ca_get (socket max_num_ca : Nat) (num_ca ca : Ptr)
  | os_l3ca_get (socket max_num_ca : Nat) (num_ca ca : Ptr)
  | hw_l2ca_set (l2id num_cos : Nat) (ca : Option (Nat → pqos_l2ca))
  | os_l2ca_set (l2id num_cos : Nat) (ca : Option (Nat → pqos_l2ca))
  | hw_l2ca_get (l2id max_num_ca : Nat) (num_ca ca : Ptr)
  | os_l2ca_get (l2id max_num_ca : Nat) (num_ca ca : Ptr)
  | hw_mba_set (socket num_cos : Nat) (requested actual : Ptr)
  | hw_mba_get (socket max_num_cos : Nat) (num_cos mba_tab : Ptr)
  | hw_mon_reset
  | hw_mon_assoc_get (lcore : Nat) (rmid : Ptr)
  | hw_mon_start (num_cores : Nat) (cores : Ptr) (event : Nat) (context group : Ptr)
  | os_mon_start (num_cores : Nat) (cores : Ptr) (event : Nat) (context group : Ptr)
  | hw_mon_stop (group : Ptr)
  | os_mon_stop (group : Ptr)
  | hw_mon_poll (groups : Option (Nat → Ptr)) (num_groups : Nat)
  | os_mon_poll (groups : Option (Nat → Ptr)) (num_groups : Nat)
  | pqos_pid_start (group : Ptr)
  | os_mon_start_pid (group : Ptr)

/-- What a call of the facade does, in order. -/
inductive Event where
  /-- Call of `_pqos_api_lock()`. -/
  | lock
  /-- Call of `_pqos_api_unlock()`. -/
  | unlock
  /-- Call of `_pqos_check_init(expect)`. -/
  | check_init (expect : Int)
  /-- Call of `pqos_cap_use_msr()`. -/
  | use_msr
  /-- Call of `LOG_ERROR(msg, args...)`. -/
  | log_error (msg : String) (args : List Int)
  /-- Call of a backend operation, with the group memory it finds. -/
  | call (c : Call) (mem : Mem)

/-- The collaborators of the facade: initialisation state, the answer of the
backend selector, the build configuration and the backends. -/
structure World where
  /-- Whether the library has been initialised. -/
  m_init_done : Bool
  /-- Answer of `pqos_cap_use_msr()`: `true` for the hardware backend. -/
  use_msr : Bool
  /-- Whether the build defines `PQOS_NO_PID_API`. -/
  no_pid_api : Bool
  /-- Return code of a backend operation and the group memory it leaves. -/
  backend : Call → Mem → Int × Mem

/-- State a call of the facade works on. -/
structure St where
  /-- Whether the global API lock is held. -/
  lock_held : Bool
  /-- The actions taken so far. -/
  trace : List Event
  /-- The monitoring groups. -/
  mem : Mem

/-- Computations of the facade: they read the collaborators, update the state
and hand back a value.  The result `none` stands for a call that never returns
(a lock that is never granted, a loop out of fuel) or whose behaviour is
undefined. -/
def M (α : Type) : Type := World → St → Option (α × St)

instance : Monad M where
  pure a := fun _ st => some (a, st)
  bind x f := fun w st =>
    match x w st with
    | none => none
    | some r => f r.1 w r.2

/-! ## Collaborators -/

/-- Modelled from the spec: `_pqos_api_lock()`, which acquires the single
process-wide exclusive lock; a call blocks until the lock is available, so it
never returns when the lock is already held. -/
def _pqos_api_lock : M Unit := fun _ st =>
  if st.lock_held then none
  else some ((), { st with lock_held := true, trace := st.trace ++ [Event.lock] })

/-- Modelled from the spec: `_pqos_api_unlock()`, which releases the lock. -/
def _pqos_api_unlock : M Unit := fun _ st =>
  some ((), { st with lock_held := false, trace := st.trace ++ [Event.unlock] })

/-- Modelled from the spec: `_pqos_check_init(expect)`, the initialisation check
of the gate: the INIT error when the library is not initialised, OK otherwise. -/
def _pqos_check_init (expect : Int) : M Int := fun w st =>
  some (if w.m_init_done then PQOS_RETVAL_OK else PQOS_RETVAL_INIT,
        { st with trace := st.trace ++ [Event.check_init expect] })

/-- Modelled from the spec: `pqos_cap_use_msr()`, the backend selector. -/
def pqos_cap_use_msr : M Bool := fun w st =>
  some (w.use_msr, { st with trace := st.trace ++ [Event.use_msr] })

/-- Whether the build defines `PQOS_NO_PID_API`. -/
def PQOS_NO_PID_API : M Bool := fun w st => some (w.no_pid_api, st)

/-- The diagnostic sink `LOG_ERROR`. -/
def LOG_ERROR (msg : String) (args : List Int) : M Unit := fun _ st =>
  some ((), { st with trace := st.trace ++ [Event.log_error msg args] })

/-- Invoke a backend operation: it is recorded with the memory it finds, its
return code is handed back and the group memory is what it leaves. -/
def backend (c : Call) : M Int := fun w st =>
  some ((w.backend c st.mem).1,
        { st with trace := st.trace ++ [Event.call c st.mem], mem := (w.backend c st.mem).2 })

/-- Value of a loop that runs on fuel; out of fuel, the call never returns. -/
def run_loop {α : Type} (o : Option α) : M α := fun _ st =>
  match o with
  | some a => some (a, st)
  | none => none

/-- Read through a pointer to a constant table; reading through a null pointer
is undefined. -/
def deref {α : Type} (p : Option α) : M α := fun _ st =>
  match p with
  | some a => some (a, st)
  | none => none

/-- Read the group stored at `p`. -/
def load (p : Ptr) : M pqos_mon_data := fun _ st => some (st.mem p, st)

/-- Overwrite the group stored at `p`. -/
def store (p : Ptr) (g : pqos_mon_data) : M Unit := fun _ st =>
  some ((), { st with mem := st.mem.write p g })

/-! ## Allocation technology -/

/-- The operation `pqos_alloc_assoc_set` of `api.c`. -/
def pqos_alloc_assoc_set (lcore class_id : Nat) : M Int := do
  _pqos_api_lock
  let ret ← _pqos_check_init 1
  if ret ≠ PQOS_RETVAL_OK then
    _pqos_api_unlock
    return ret
  let ret ← if (← pqos_cap_use_msr) then backend (Call.hw_alloc_assoc_set lcore class_id)
            else backend (Call.os_alloc_assoc_set lcore class_id)
  _pqos_api_unlock
  return ret

/-- The operation `pqos_alloc_assoc_get` of `api.c`. -/
def pqos_alloc_assoc_get (lcore : Nat) (class_id : Ptr) : M Int := do
  _pqos_api_lock
  let ret ← _pqos_check_init 1
  if ret ≠ PQOS_RETVAL_OK then
    _pqos_api_unlock
    return ret
  let ret ← if (← pqos_cap_use_msr) then backend (Call.hw_alloc_assoc_get lcore class_id)
            else backend (Call.os_alloc_assoc_get lcore class_id)
  _pqos_api_unlock
  return ret

/-- The operation `pqos_alloc_assign` of `api.c`. -/
def pqos_alloc_assign (technology : Nat) (core_array : Ptr) (core_num : Nat)
    (class_id : Ptr) : M Int := do
  if core_num = 0 ∨ core_array = NULL ∨ class_id = NULL ∨ technology = 0 then
    return PQOS_RETVAL_PARAM
  _pqos_api_lock
  let ret ← _pqos_check_init 1
  if ret ≠ PQOS_RETVAL_OK then
    _pqos_api_unlock
    return ret
  let ret ← if (← pqos_cap_use_msr) then
              backend (Call.hw_alloc_assign technology core_array core_num class_id)
            else backend (Call.os_alloc_assign technology core_array core_num class_id)
  _pqos_api_unlock
  return ret

/-- The operation `pqos_alloc_release` of `api.c`. -/
def pqos_alloc_release (core_array : Ptr) (core_num : Nat) : M Int := do
  if core_num = 0 ∨ core_array = NULL then
    return PQOS_RETVAL_PARAM
  _pqos_api_lock
  let ret ← _pqos_check_init 1
  if ret ≠ PQOS_RETVAL_OK then
    _pqos_api_unlock
    return ret
  let ret ← if (← pqos_cap_use_msr) then backend (Call.hw_alloc_release core_array core_num)
            else backend (Call.os_alloc_release core_array core_num)
  _pqos_api_unlock
  return ret

/-- The operation `pqos_alloc_reset` of `api.c`. -/
def pqos_alloc_reset (l3_cdp_cfg : Int) : M Int := do
  if l3_cdp_cfg ≠ PQOS_REQUIRE_CDP_ON ∧ l3_cdp_cfg ≠ PQOS_REQUIRE_CDP_OFF ∧
      l3_cdp_cfg ≠ PQOS_REQUIRE_CDP_ANY then
    LOG_ERROR "Unrecognized L3 CDP configuration setting %d!\n" [l3_cdp_cfg]
    return PQOS_RETVAL_PARAM
  _pqos_api_lock
  let ret ← _pqos_check_init 1
  if ret ≠ PQOS_RETVAL_OK then
    _pqos_api_unlock
    return ret
  let ret ← if (← pqos_cap_use_msr) then backend (Call.hw_alloc_reset l3_cdp_cfg)
            else backend (Call.os_alloc_reset l3_cdp_cfg)
  _pqos_api_unlock
  return ret

/-! ## L3 cache allocation -/

/-- The loop `for (i = 0; i < num_cos; i++)` of `pqos_l3ca_set`, with `n`
iterations left from index `i` on.  The value is `some ret` when the loop body
returns `ret` from the operation, and `none` when the loop runs to its end. -/
def pqos_l3ca_set_loop (fuel : Nat) (ca : Nat → pqos_l3ca) : Nat → Nat → M (Option Int)
  | 0, _ => pure none
  | n + 1, i => do
    let is_contig : Int ←
      if (ca i).cdp ≠ 0 then do
        let data ← run_loop (is_contiguous fuel (ca i).u.s.data_mask)
        if data ≠ 0 then do
          let code ← run_loop (is_contiguous fuel (ca i).u.s.code_mask)
          pure (if code ≠ 0 then 1 else 0)
        else pure 0
      else run_loop (is_contiguous fuel (ca i).u.ways_mask)
    if is_contig = 0 then
      LOG_ERROR "L3 COS%u bit mask is not contiguous!\n" [(ca i).class_id]
      _pqos_api_unlock
      return some PQOS_RETVAL_PARAM
    pqos_l3ca_set_loop fuel ca n (i + 1)

/-- The operation `pqos_l3ca_set` of `api.c`; `fuel` bounds the loops of
`is_contiguous`. -/
def pqos_l3ca_set (fuel : Nat) (socket num_cos : Nat) (ca : Option (Nat → pqos_l3ca)) :
    M Int := do
  if ca.isNone ∨ num_cos = 0 then
    return PQOS_RETVAL_PARAM
  _pqos_api_lock
  let ret ← _pqos_check_init 1
  if ret ≠ PQOS_RETVAL_OK then
    _pqos_api_unlock
    return ret
  let tab ← deref ca
  match ← pqos_l3ca_set_loop fuel tab num_cos 0 with
  | some ret => return ret
  | none =>
    let ret ← if (← pqos_cap_use_msr) then backend (Call.hw_l3ca_set socket num_cos ca)
              else backend (Call.os_l3ca_set socket num_cos ca)
    _pqos_api_unlock
    return ret

/-- The operation `pqos_l3ca_get` of `api.c`. -/
def pqos_l3ca_get (socket max_num_ca : Nat) (num_ca ca : Ptr) : M Int := do
  if num_ca = NULL ∨ ca = NULL ∨ max_num_ca = 0 then
    return PQOS_RETVAL_PARAM
  _pqos_api_lock
  let ret ← _pqos_check_init 1
  if ret ≠ PQOS_RETVAL_OK then
    _pqos_api_unlock
    return ret
  let ret ← if (← pqos_cap_use_msr) then backend (Call.hw_l3ca_get socket max_num_ca num_ca ca)
            else backend (Call.os_l3ca_get socket max_num_ca num_ca ca)
  _pqos_api_unlock
  return ret

/-! ## L2 cache allocation -/

/-- The loop `for (i = 0; i < num_cos; i++)` of `pqos_l2ca_set`, with `n`
iterations left from index `i` on; the value is as for the L3 loop. -/
def pqos_l2ca_set_loop (fuel : Nat) (ca : Nat → pqos_l2ca) : Nat → Nat → M (Option Int)
  | 0, _ => pure none
  | n + 1, i => do
    let is_contig ← run_loop (is_contiguous fuel (ca i).ways_mask)
    if is_contig = 0 then
      LOG_ERROR "L2 COS%u bit mask is not contiguous!\n" [(ca i).class_id]
      _pqos_api_unlock
      return some PQOS_RETVAL_PARAM
    pqos_l2ca_set_loop fuel ca n (i + 1)

/-- The operation `pqos_l2ca_set` of `api.c`; `fuel` bounds the loops of
`is_contiguous`. -/
def pqos_l2ca_set (fuel : Nat) (l2id num_cos : Nat) (ca : Option (Nat → pqos_l2ca)) :
    M Int := do
  if ca.isNone ∨ num_cos = 0 then
    return PQOS_RETVAL_PARAM
  _pqos_api_lock
  let ret ← _pqos_check_init 1
  if ret ≠ PQOS_RETVAL_OK then
    _pqos_api_unlock
    return ret
  let tab ← deref ca
  match ← pqos_l2ca_set_loop fuel tab num_cos 0 with
  | some ret => return ret
  | none =>
    let ret ← if (← pqos_cap_use_msr) then backend (Call.hw_l2ca_set l2id num_cos ca)
              else backend (Call.os_l2ca_set l2id num_cos ca)
    _pqos_api_unlock
    return ret

/-- The operation `pqos_l2ca_get` of `api.c`. -/
def pqos_l2ca_get (l2id max_num_ca : Nat) (num_ca ca : Ptr) : M Int := do
  if num_ca = NULL ∨ ca = NULL ∨ max_num_ca = 0 then
    return PQOS_RETVAL_PARAM
  _pqos_api_lock
  let ret ← _pqos_check_init 1
  if ret ≠ PQOS_RETVAL_OK then
    _pqos_api_unlock
    return ret
  let ret ← if (← pqos_cap_use_msr) then backend (Call.hw_l2ca_get l2id max_num_ca num_ca ca)
            else backend (Call.os_l2ca_get l2id max_num_ca num_ca ca)
  _pqos_api_unlock
  return ret

/-! ## Memory bandwidth allocation -/

/-- The operation `pqos_mba_set` of `api.c`. -/
def pqos_mba_set (socket num_cos : Nat) (requested actual : Ptr) : M Int := do
  _pqos_api_lock
  let ret ← _pqos_check_init 1
  if ret ≠ PQOS_RETVAL_OK then
    _pqos_api_unlock
    return ret
  let ret ← backend (Call.hw_mba_set socket num_cos requested actual)
  _pqos_api_unlock
  return ret

/-- The operation `pqos_mba_get` of `api.c`. -/
def pqos_mba_get (socket max_num_cos : Nat) (num_cos mba_tab : Ptr) : M Int := do
  _pqos_api_lock
  let ret ← _pqos_check_init 1
  if ret ≠ PQOS_RETVAL_OK then
    _pqos_api_unlock
    return ret
  let ret ← backend (Call.hw_mba_get socket max_num_cos num_cos mba_tab)
  _pqos_api_unlock
  return ret

/-! ## Monitoring -/

/-- The operation `pqos_mon_reset` of `api.c`. -/
def pqos_mon_reset : M Int := do
  _pqos_api_lock
  let ret ← _pqos_check_init 1
  if ret ≠ PQOS_RETVAL_OK then
    _pqos_api_unlock
    return ret
  let ret ← backend Call.hw_mon_reset
  _pqos_api_unlock
  return ret

/-- The operation `pqos_mon_assoc_get` of `api.c`. -/
def pqos_mon_assoc_get (lcore : Nat) (rmid : Ptr) : M Int := do
  _pqos_api_lock
  let ret ← _pqos_check_init 1
  if ret ≠ PQOS_RETVAL_OK then
    _pqos_api_unlock
    return ret
  let ret ← backend (Call.hw_mon_assoc_get lcore rmid)
  _pqos_api_unlock
  return ret

/-- The operation `pqos_mon_start` of `api.c`. -/
def pqos_mon_start (num_cores : Nat) (cores : Ptr) (event : Nat) (context group : Ptr) :
    M Int := do
  if group = NULL ∨ cores = NULL ∨ num_cores = 0 ∨ event = 0 then
    return PQOS_RETVAL_PARAM
  if (← load group).valid = GROUP_VALID_MARKER then
    return PQOS_RETVAL_PARAM
  if event &&& lnot32 (PQOS_MON_EVENT_L3_OCCUP ||| PQOS_MON_EVENT_LMEM_BW |||
      PQOS_MON_EVENT_TMEM_BW ||| PQOS_MON_EVENT_RMEM_BW |||
      PQOS_PERF_EVENT_IPC ||| PQOS_PERF_EVENT_LLC_MISS) ≠ 0 then
    return PQOS_RETVAL_PARAM
  if event &&& (PQOS_MON_EVENT_L3_OCCUP ||| PQOS_MON_EVENT_LMEM_BW |||
      PQOS_MON_EVENT_TMEM_BW ||| PQOS_MON_EVENT_RMEM_BW) = 0 ∧
      event &&& (PQOS_PERF_EVENT_IPC ||| PQOS_PERF_EVENT_LLC_MISS) ≠ 0 then
    return PQOS_RETVAL_PARAM
  _pqos_api_lock
  let ret ← _pqos_check_init 1
  if ret ≠ PQOS_RETVAL_OK then
    _pqos_api_unlock
    return ret
  let ret ← if (← pqos_cap_use_msr) then
              backend (Call.hw_mon_start num_cores cores event context group)
            else backend (Call.os_mon_start num_cores cores event context group)
  _pqos_api_unlock
  return ret

/-- The operation `pqos_mon_stop` of `api.c`. -/
def pqos_mon_stop (group : Ptr) : M Int := do
  if group = NULL then
    return PQOS_RETVAL_PARAM
  if (← load group).valid ≠ GROUP_VALID_MARKER then
    return PQOS_RETVAL_PARAM
  _pqos_api_lock
  let ret ← _pqos_check_init 1
  if ret ≠ PQOS_RETVAL_OK then
    _pqos_api_unlock
    return ret
  let ret ← if (← pqos_cap_use_msr) then backend (Call.hw_mon_stop group)
            else backend (Call.os_mon_stop group)
  _pqos_api_unlock
  return ret

/-- The loop `for (i = 0; i < num_groups; i++)` of `pqos_mon_poll`, with `n`
iterations left from index `i` on.  The value is `some ret` when the loop body
returns `ret` from the operation, and `none` when the loop runs to its end. -/
def pqos_mon_poll_loop (groups : Nat → Ptr) : Nat → Nat → M (Option Int)
  | 0, _ => pure none
  | n + 1, i => do
    if groups i = NULL then
      return some PQOS_RETVAL_PARAM
    if (← load (groups i)).valid ≠ GROUP_VALID_MARKER then
      return some PQOS_RETVAL_PARAM
    pqos_mon_poll_loop groups n (i + 1)

/-- The operation `pqos_mon_poll` of `api.c`.  The test
`groups == NULL || num_groups == 0 || *groups == NULL` is evaluated left to
right, `*groups` being read only when the first two disjuncts fail. -/
def pqos_mon_poll (groups : Option (Nat → Ptr)) (num_groups : Nat) : M Int := do
  if groups.isNone ∨ num_groups = 0 then
    return PQOS_RETVAL_PARAM
  let tab ← deref groups
  if tab 0 = NULL then
    return PQOS_RETVAL_PARAM
  match ← pqos_mon_poll_loop tab num_groups 0 with
  | some ret => return ret
  | none =>
    _pqos_api_lock
    let ret ← _pqos_check_init 1
    if ret ≠ PQOS_RETVAL_OK then
      _pqos_api_unlock
      return ret
    let ret ← if (← pqos_cap_use_msr) then backend (Call.hw_mon_poll groups num_groups)
              else backend (Call.os_mon_poll groups num_groups)
    _pqos_api_unlock
    return ret

/-- The operation `pqos_mon_start_pid` of `api.c`. -/
def pqos_mon_start_pid (pid : Int) (event : Nat) (context group : Ptr) : M Int := do
  if group = NULL ∨ event = 0 ∨ pid < 0 then
    return PQOS_RETVAL_PARAM
  if (← load group).valid = GROUP_VALID_MARKER then
    return PQOS_RETVAL_PARAM
  if event &&& lnot32 (PQOS_MON_EVENT_L3_OCCUP ||| PQOS_MON_EVENT_LMEM_BW |||
      PQOS_MON_EVENT_TMEM_BW ||| PQOS_MON_EVENT_RMEM_BW |||
      PQOS_PERF_EVENT_IPC ||| PQOS_PERF_EVENT_LLC_MISS) ≠ 0 then
    return PQOS_RETVAL_PARAM
  if event &&& (PQOS_MON_EVENT_L3_OCCUP ||| PQOS_MON_EVENT_LMEM_BW |||
      PQOS_MON_EVENT_TMEM_BW ||| PQOS_MON_EVENT_RMEM_BW) = 0 ∧
      event &&& (PQOS_PERF_EVENT_IPC ||| PQOS_PERF_EVENT_LLC_MISS) ≠ 0 then
    return PQOS_RETVAL_PARAM
  _pqos_api_lock
  let ret ← _pqos_check_init 1
  if ret ≠ PQOS_RETVAL_OK then
    _pqos_api_unlock
    return ret
  store group pqos_mon_data.zero
  store group { (← load group) with event := event }
  store group { (← load group) with pid := pid }
  store group { (← load group) with context := context }
  let mut ret := ret
  if (← pqos_cap_use_msr) then
    if (← PQOS_NO_PID_API) then
      LOG_ERROR "PID monitoring API not built\n" []
      return PQOS_RETVAL_ERROR
    else
      ret ← backend (Call.pqos_pid_start group)
  else
    ret ← backend (Call.os_mon_start_pid group)
  if ret = PQOS_RETVAL_OK then
    store group { (← load group) with valid := GROUP_VALID_MARKER }
  _pqos_api_unlock
  return ret

/-- Outcome of a call of the facade started with the lock free and an empty
trace: the returned value and the final state, if the call returns. -/
def run {α : Type} (x : M α) (w : World) (mem : Mem) : Option (α × St) :=
  x w { lock_held := false, trace := [], mem := mem }

/-! ## Specification-side notions -/

/-- The mask is one block of `k ≥ 1` ones shifted left by `j` places, inside
64 bits: `m = (2^k - 1) * 2^j` with `j + k ≤ 64`. -/
def single_run (m : Nat) : Prop :=
  ∃ k j, 1 ≤ k ∧ j + k ≤ 64 ∧ m = (2 ^ k - 1) * 2 ^ j

/-- The set bits of the mask are exactly the positions `j, ..., j + k - 1` for
some `k ≥ 1` with `j + k ≤ 64`: one maximal run of consecutive ones. -/
def one_run_of_bits (m : Nat) : Prop :=
  ∃ k j, 1 ≤ k ∧ j + k ≤ 64 ∧ ∀ i, m.testBit i = true ↔ j ≤ i ∧ i < j + k

/-- Which collaborator a backend operation belongs to. -/
inductive Side where
  | hw
  | os
  | pid
  deriving DecidableEq

/-- The collaborator of a backend operation: the hardware backend (`hw_*`), the
OS backend (`os_*`) or the process-id hardware monitoring path
(`pqos_pid_start`). -/
def Call.side : Call → Side
  | Call.hw_alloc_assoc_set _ _ => Side.hw
  | Call.os_alloc_assoc_set _ _ => Side.os
  | Call.hw_alloc_assoc_get _ _ => Side.hw
  | Call.os_alloc_assoc_get _ _ => Side.os
  | Call.hw_alloc_assign _ _ _ _ => Side.hw
  | Call.os_alloc_assign _ _ _ _ => Side.os
  | Call.hw_alloc_release _ _ => Side.hw
  | Call.os_alloc_release _ _ => Side.os
  | Call.hw_alloc_reset _ => Side.hw
  | Call.os_alloc_reset _ => Side.os
  | Call.hw_l3ca_set _ _ _ => Side.hw
  | Call.os_l3ca_set _ _ _ => Side.os
  | Call.hw_l3ca_get _ _ _ _ => Side.hw
  | Call.os_l3ca_get _ _ _ _ => Side.os
  | Call.hw_l2ca_set _ _ _ => Side.hw
  | Call.os_l2ca_set _ _ _ => Side.os
  | Call.hw_l2ca_get _ _ _ _ => Side.hw
  | Call.os_l2ca_get _ _ _ _ => Side.os
  | Call.hw_mba_set _ _ _ _ => Side.hw
  | Call.hw_mba_get _ _ _ _ => Side.hw
  | Call.hw_mon_reset => Side.hw
  | Call.hw_mon_assoc_get _ _ => Side.hw
  | Call.hw_mon_start _ _ _ _ _ => Side.hw
  | Call.os_mon_start _ _ _ _ _ => Side.os
  | Call.hw_mon_stop _ => Side.hw
  | Call.os_mon_stop _ => Side.os
  | Call.hw_mon_poll _ _ => Side.hw
  | Call.os_mon_poll _ _ => Side.os
  | Call.pqos_pid_start _ => Side.pid
  | Call.os_mon_start_pid _ => Side.os

/-- The action is a backend operation. -/
def Event.is_call : Event → Bool
  | Event.call _ _ => true
  | _ => false

/-- The action is a backend operation of the given collaborator. -/
def Event.is_call_of (s : Side) : Event → Bool
  | Event.call c _ => decide (c.side = s)
  | _ => false

/-- The action is a query of the backend selector. -/
def Event.is_use_msr : Event → Bool
  | Event.use_msr => true
  | _ => false

/-- The action is an acquisition of the lock. -/
def Event.is_lock : Event → Bool
  | Event.lock => true
  | _ => false

/-- The action is a release of the lock. -/
def Event.is_unlock : Event → Bool
  | Event.unlock => true
  | _ => false

/-- The action is the initialisation check. -/
def Event.is_check_init : Event → Bool
  | Event.check_init _ => true
  | _ => false

/-- The action is a diagnostic. -/
def Event.is_log : Event → Bool
  | Event.log_error _ _ => true
  | _ => false

/-- The exported operations of `api.c`, each with its arguments. -/
inductive Request where
  | alloc_assoc_set (lcore class_id : Nat)
  | alloc_assoc_get (lcore : Nat) (class_id : Ptr)
  | alloc_assign (technology : Nat) (core_array : Ptr) (core_num : Nat) (class_id : Ptr)
  | alloc_release (core_array : Ptr) (core_num : Nat)
  | alloc_reset (l3_cdp_cfg : Int)
  | l3ca_set (socket num_cos : Nat) (ca : Option (Nat → pqos_l3ca))
  | l3ca_get (socket max_num_ca : Nat) (num_ca ca : Ptr)
  | l2ca_set (l2id num_cos : Nat) (ca : Option (Nat → pqos_l2ca))
  | l2ca_get (l2id max_num_ca : Nat) (num_ca ca : Ptr)
  | mba_set (socket num_cos : Nat) (requested actual : Ptr)
  | mba_get (socket max_num_cos : Nat) (num_cos mba_tab : Ptr)
  | mon_reset
  | mon_assoc_get (lcore : Nat) (rmid : Ptr)
  | mon_start (num_cores : Nat) (cores : Ptr) (event : Nat) (context group : Ptr)
  | mon_stop (group : Ptr)
  | mon_poll (groups : Option (Nat → Ptr)) (num_groups : Nat)
  | mon_start_pid (pid : Int) (event : Nat) (context group : Ptr)

/-- The exported operation a request stands for; `fuel` bounds the loops of
`is_contiguous`. -/
def Request.exec (fuel : Nat) : Request → M Int
  | Request.alloc_assoc_set lcore class_id => pqos_alloc_assoc_set lcore class_id
  | Request.alloc_assoc_get lcore class_id => pqos_alloc_assoc_get lcore class_id
  | Request.alloc_assign technology core_array core_num class_id =>
    pqos_alloc_assign technology core_array core_num class_id
  | Request.alloc_release core_array core_num => pqos_alloc_release core_array core_num
  | Request.alloc_reset l3_cdp_cfg => pqos_alloc_reset l3_cdp_cfg
  | Request.l3ca_set socket num_cos ca => pqos_l3ca_set fuel socket num_cos ca
  | Request.l3ca_get socket max_num_ca num_ca ca => pqos_l3ca_get socket max_num_ca num_ca ca
  | Request.l2ca_set l2id num_cos ca => pqos_l2ca_set fuel l2id num_cos ca
  | Request.l2ca_get l2id max_num_ca num_ca ca => pqos_l2ca_get l2id max_num_ca num_ca ca
  | Request.mba_set socket num_cos requested actual =>
    pqos_mba_set socket num_cos requested actual
  | Request.mba_get socket max_num_cos num_cos mba_tab =>
    pqos_mba_get socket max_num_cos num_cos mba_tab
  | Request.mon_reset => pqos_mon_reset
  | Request.mon_assoc_get lcore rmid => pqos_mon_assoc_get lcore rmid
  | Request.mon_start num_cores cores event context group =>
    pqos_mon_start num_cores cores event context group
  | Request.mon_stop group => pqos_mon_stop group
  | Request.mon_poll groups num_groups => pqos_mon_poll groups num_groups
  | Request.mon_start_pid pid event context group =>
    pqos_mon_start_pid pid event context group

/-- An entry of an L3 table passes the contiguity check: with the CDP flag set,
both its code mask and its data mask are contiguous; without it, its ways mask
is contiguous. -/
def l3ca_entry_ok (fuel : Nat) (e : pqos_l3ca) : Prop :=
  if e.cdp ≠ 0 then
    is_contiguous fuel e.u.s.code_mask = some 1 ∧ is_contiguous fuel e.u.s.data_mask = some 1
  else is_contiguous fuel e.u.ways_mask = some 1

/-- An entry of an L2 table passes the contiguity check: its ways mask is
contiguous. -/
def l2ca_entry_ok (fuel : Nat) (e : pqos_l2ca) : Prop :=
  is_contiguous fuel e.ways_mask = some 1

instance (fuel : Nat) (e : pqos_l3ca) : Decidable (l3ca_entry_ok fuel e) := by
  unfold l3ca_entry_ok; infer_instance

instance (fuel : Nat) (e : pqos_l2ca) : Decidable (l2ca_entry_ok fuel e) := by
  unfold l2ca_entry_ok; infer_instance

/-- The event mask fails the validation of `pqos_mon_start` and
`pqos_mon_start_pid`: a bit outside the six known flags, or auxiliary flags
without a primary flag. -/
def mon_event_invalid (event : Nat) : Prop :=
  event &&& lnot32 (PQOS_MON_EVENT_L3_OCCUP ||| PQOS_MON_EVENT_LMEM_BW |||
      PQOS_MON_EVENT_TMEM_BW ||| PQOS_MON_EVENT_RMEM_BW |||
      PQOS_PERF_EVENT_IPC ||| PQOS_PERF_EVENT_LLC_MISS) ≠ 0 ∨
  (event &&& (PQOS_MON_EVENT_L3_OCCUP ||| PQOS_MON_EVENT_LMEM_BW |||
      PQOS_MON_EVENT_TMEM_BW ||| PQOS_MON_EVENT_RMEM_BW) = 0 ∧
    event &&& (PQOS_PERF_EVENT_IPC ||| PQOS_PERF_EVENT_LLC_MISS) ≠ 0)

instance (event : Nat) : Decidable (mon_event_invalid event) := by
  unfold mon_event_invalid; infer_instance

/-- Outcome of a call rejected before the gate: PARAM, nothing done. -/
def rejected (mem : Mem) : Option (Int × St) :=
  some (PQOS_RETVAL_PARAM, { lock_held := false, trace := [], mem := mem })

/-- Outcome of a call stopped by the initialisation check: the INIT error
after lock, check and unlock. -/
def not_initialised (mem : Mem) : Option (Int × St) :=
  some (PQOS_RETVAL_INIT,
    { lock_held := false, trace := [Event.lock, Event.check_init 1, Event.unlock], mem := mem })

/-- Outcome of a call that passes the gate, queries the selector and hands
over to the backend operation `c`. -/
def dispatched (w : World) (mem : Mem) (c : Call) : Option (Int × St) :=
  some ((w.backend c mem).1,
    { lock_held := false,
      trace := [Event.lock, Event.check_init 1, Event.use_msr, Event.call c mem, Event.unlock],
      mem := (w.backend c mem).2 })

/-- Outcome of a call that passes the gate and hands over to the backend
operation `c` without a query of the selector. -/
def forwarded (w : World) (mem : Mem) (c : Call) : Option (Int × St) :=
  some ((w.backend c mem).1,
    { lock_held := false,
      trace := [Event.lock, Event.check_init 1, Event.call c mem, Event.unlock],
      mem := (w.backend c mem).2 })

/-- Outcome of `pqos_l3ca_set` / `pqos_l2ca_set` stopped by the contiguity
check at an entry of class id `class_id`. -/
def not_contiguous (mem : Mem) (msg : String) (class_id : Nat) : Option (Int × St) :=
  some (PQOS_RETVAL_PARAM,
    { lock_held := false,
      trace := [Event.lock, Event.check_init 1, Event.log_error msg [(class_id : Int)],
        Event.unlock],
      mem := mem })

/-- The group at `group` as `pqos_mon_start_pid` prepares it before dispatch:
cleared, then event, pid and context filled in. -/
def pid_prepared (mem : Mem) (pid : Int) (event : Nat) (context group : Ptr) : Mem :=
  mem.write group { pqos_mon_data.zero with event := event, pid := pid, context := context }

/-- Outcome of `pqos_mon_start_pid` handing the prepared memory `m1` over to
the backend operation `c`: the marker is written when the backend returns OK. -/
def pid_dispatched (w : World) (m1 : Mem) (c : Call) (group : Ptr) : Option (Int × St) :=
  if (w.backend c m1).1 = PQOS_RETVAL_OK then
    some ((w.backend c m1).1,
      { lock_held := false,
        trace := [Event.lock, Event.check_init 1, Event.use_msr, Event.call c m1, Event.unlock],
        mem := (w.backend c m1).2.write group
                 { (w.backend c m1).2 group with valid := GROUP_VALID_MARKER } })
  else
    some ((w.backend c m1).1,
      { lock_held := false,
        trace := [Event.lock, Event.check_init 1, Event.use_msr, Event.call c m1, Event.unlock],
        mem := (w.backend c m1).2 })

/-- Outcome of `pqos_mon_start_pid` on the hardware path when the build
defines `PQOS_NO_PID_API`. -/
def pid_not_built (m1 : Mem) : Option (Int × St) :=
  some (PQOS_RETVAL_ERROR,
    { lock_held := true,
      trace := [Event.lock, Event.check_init 1, Event.use_msr,
        Event.log_error "PID monitoring API not built\n" []],
      mem := m1 })

/-- The mask contains no bit outside the universe of the six known flags: every
set bit of the mask is a bit of one of them. -/
def event_in_universe (event : Nat) : Prop :=
  ∀ i, event.testBit i = true →
    ∃ f ∈ [PQOS_MON_EVENT_L3_OCCUP, PQOS_MON_EVENT_LMEM_BW, PQOS_MON_EVENT_TMEM_BW,
      PQOS_MON_EVENT_RMEM_BW, PQOS_PERF_EVENT_IPC, PQOS_PERF_EVENT_LLC_MISS], f.testBit i = true

/-- The mask contains at least one primary flag (occupancy or a bandwidth
flag). -/
def event_has_primary (event : Nat) : Prop :=
  ∃ f ∈ [PQOS_MON_EVENT_L3_OCCUP, PQOS_MON_EVENT_LMEM_BW, PQOS_MON_EVENT_TMEM_BW,
      PQOS_MON_EVENT_RMEM_BW], event &&& f ≠ 0


/-- A world for the worked examples: initialised, hardware backend selected,
process-id path built, backends that return OK and touch nothing. -/
def example_world : World :=
  { m_init_done := true, use_msr := true, no_pid_api := false, backend := fun _ m => (0, m) }

/-- Group memory for the worked examples: the groups at addresses 1 and 3 are
Active, every other group is cleared. -/
def example_mem : Mem := fun p =>
  if p = 1 ∨ p = 3 then { pqos_mon_data.zero with valid := GROUP_VALID_MARKER }
  else pqos_mon_data.zero

/-- An L3 table for the worked examples: entry 1 has the mask `0b1010`, every
other entry the mask `0b0110`; no entry uses CDP. -/
def example_l3_table : Nat → pqos_l3ca := fun i =>
  { class_id := i, cdp := 0,
    u := { ways_mask := if i = 1 then 0b1010 else 0b0110, s := { data_mask := 0, code_mask := 0 } } }

/-- An L2 table for the worked examples: entry 1 has the mask `0b1010`, every
other entry the mask `0b0110`. -/
def example_l2_table : Nat → pqos_l2ca := fun i =>
  { class_id := i, ways_mask := if i = 1 then 0b1010 else 0b0110 }

/-- A batch of group references for the worked examples: the groups at
addresses 1, 2 and 3 (and address 1 from index 3 on). -/
def example_batch : Nat → Ptr := fun i => if i = 1 then 2 else if i = 2 then 3 else 1

/-- The arguments of the request fail the validation that the operation itself
performs before the gate (`mem` is the group memory the call finds). -/
def Request.rejected_before_gate (mem : Mem) : Request → Prop
  | Request.alloc_assoc_set _ _ => False
  | Request.alloc_assoc_get _ _ => False
  | Request.alloc_assign technology core_array core_num class_id =>
    core_num = 0 ∨ core_array = NULL ∨ class_id = NULL ∨ technology = 0
  | Request.alloc_release core_array core_num => core_num = 0 ∨ core_array = NULL
  | Request.alloc_reset l3_cdp_cfg =>
    l3_cdp_cfg ≠ PQOS_REQUIRE_CDP_ON ∧ l3_cdp_cfg ≠ PQOS_REQUIRE_CDP_OFF ∧
      l3_cdp_cfg ≠ PQOS_REQUIRE_CDP_ANY
  | Request.l3ca_set _ num_cos ca => ca = none ∨ num_cos = 0
  | Request.l3ca_get _ max_num_ca num_ca ca => num_ca = NULL ∨ ca = NULL ∨ max_num_ca = 0
  | Request.l2ca_set _ num_cos ca => ca = none ∨ num_cos = 0
  | Request.l2ca_get _ max_num_ca num_ca ca => num_ca = NULL ∨ ca = NULL ∨ max_num_ca = 0
  | Request.mba_set _ _ _ _ => False
  | Request.mba_get _ _ _ _ => False
  | Request.mon_reset => False
  | Request.mon_assoc_get _ _ => False
  | Request.mon_start num_cores cores event _ group =>
    (group = NULL ∨ cores = NULL ∨ num_cores = 0 ∨ event = 0) ∨
      (mem group).valid = GROUP_VALID_MARKER ∨ mon_event_invalid event
  | Request.mon_stop group => group = NULL ∨ (mem group).valid ≠ GROUP_VALID_MARKER
  | Request.mon_poll groups num_groups =>
    match groups with
    | none => True
    | some tab =>
      num_groups = 0 ∨
        ∃ k, k < num_groups ∧ (tab k = NULL ∨ (mem (tab k)).valid ≠ GROUP_VALID_MARKER)
  | Request.mon_start_pid pid event _ group =>
    (group = NULL ∨ event = 0 ∨ pid < 0) ∨
      (mem group).valid = GROUP_VALID_MARKER ∨ mon_event_invalid event

/-- Outcome of a request rejected before the gate: PARAM, the lock untouched,
the memory as before and nothing but diagnostics in the trace. -/
def rejected_with_log (mem : Mem) (o : Option (Int × St)) : Prop :=
  ∃ t : List Event, t.all Event.is_log = true ∧
    o = some (PQOS_RETVAL_PARAM, { lock_held := false, trace := t, mem := mem })

/-- The call returns with the lock free, having released it as often as it
acquired it. -/
def lock_balanced (o : Option (Int × St)) : Prop :=
  ∃ r st, o = some (r, st) ∧ st.lock_held = false ∧
    st.trace.countP Event.is_lock = st.trace.countP Event.is_unlock

/-- A world for the worked examples: library not initialised. -/
def example_uninit_world : World :=
  { m_init_done := false, use_msr := true, no_pid_api := false, backend := fun _ m => (0, m) }

/-- A world for the worked examples: initialised, hardware backend selected,
built with `PQOS_NO_PID_API`. -/
def example_no_pid_world : World :=
  { m_init_done := true, use_msr := true, no_pid_api := true, backend := fun _ m => (0, m) }

/-- A world for the worked examples: initialised, OS backend selected. -/
def example_os_world : World :=
  { m_init_done := true, use_msr := false, no_pid_api := false, backend := fun _ m => (0, m) }

/-- The shapes the outcome of a call of the facade can take: rejected before
the gate, stopped by the initialisation check, handed over to one backend
operation with or without a query of the selector, stopped by the contiguity
check, or one of the two outcomes of `pqos_mon_start_pid` after the gate. -/
def facade_outcome (w : World) (mem : Mem) (o : Option (Int × St)) : Prop :=
  rejected_with_log mem o ∨ o = not_initialised mem ∨ (∃ c, o = dispatched w mem c) ∨
    (∃ c, o = forwarded w mem c) ∨ (∃ msg class_id, o = not_contiguous mem msg class_id) ∨
    (∃ m1 c group, o = pid_dispatched w m1 c group) ∨ (∃ m1, o = pid_not_built m1)

/-- The call returns; at most one backend operation is in its trace, and the
returned value is what that operation returned. -/
def returns_backend_value (w : World) (o : Option (Int × St)) : Prop :=
  ∃ r st, o = some (r, st) ∧ st.trace.countP Event.is_call ≤ 1 ∧
    ∀ c m, Event.call c m ∈ st.trace → r = (w.backend c m).1

/-- A world for the worked examples: initialised, OS backend selected, backends
that fail with the code 7 and touch nothing. -/
def example_failing_world : World :=
  { m_init_done := true, use_msr := false, no_pid_api := false, backend := fun _ m => (7, m) }

/-- The request is an operation of the allocation dispatcher: association
set/get, assign, release, reset, L3/L2 set/get, bandwidth set/get. -/
def Request.is_alloc : Request → Bool
  | Request.alloc_assoc_set _ _ => true
  | Request.alloc_assoc_get _ _ => true
  | Request.alloc_assign _ _ _ _ => true
  | Request.alloc_release _ _ => true
  | Request.alloc_reset _ => true
  | Request.l3ca_set _ _ _ => true
  | Request.l3ca_get _ _ _ _ => true
  | Request.l2ca_set _ _ _ => true
  | Request.l2ca_get _ _ _ _ => true
  | Request.mba_set _ _ _ _ => true
  | Request.mba_get _ _ _ _ => true
  | _ => false

/-- The request is bandwidth allocation set or get. -/
def Request.is_mba : Request → Bool
  | Request.mba_set _ _ _ _ => true
  | Request.mba_get _ _ _ _ => true
  | _ => false

/-- The call passes the validation of the facade: its arguments are not
rejected before the gate and, for the L3 and L2 setters, every entry of the
table passes the contiguity check. -/
def Request.passes_validation (fuel : Nat) (mem : Mem) (req : Request) : Prop :=
  ¬ req.rejected_before_gate mem ∧
    match req with
    | Request.l3ca_set _ num_cos (some tab) => ∀ i, i < num_cos → l3ca_entry_ok fuel (tab i)
    | Request.l2ca_set _ num_cos (some tab) => ∀ i, i < num_cos → l2ca_entry_ok fuel (tab i)
    | _ => True

/-- The call returns with one backend operation in its trace, an operation of
the collaborator `side`, after `queries` queries of the selector. -/
def dispatches_once (side : Side) (queries : Nat) (o : Option (Int × St)) : Prop :=
  ∃ r st, o = some (r, st) ∧ st.trace.countP Event.is_call = 1 ∧
    st.trace.countP (Event.is_call_of side) = 1 ∧
    st.trace.countP Event.is_use_msr = queries

/-! ## Computations -/

theorem bind_apply {α β : Type} (x : M α) (f : α → M β) (w : World) (st : St) :
    (x >>= f) w st = (x w st).bind (fun r => f r.1 w r.2) := by
  show (match x w st with | none => none | some r => f r.1 w r.2) = _
  cases x w st <;> rfl

theorem pure_apply {α : Type} (a : α) (w : World) (st : St) :
    (pure a : M α) w st = some (a, st) := rfl

theorem ite_apply_M {α : Type} (c : Prop) [Decidable c] (x y : M α) (w : World) (st : St) :
    (if c then x else y) w st = if c then x w st else y w st := by
  split <;> rfl

theorem lock_apply (w : World) (st : St) : _pqos_api_lock w st =
    if st.lock_held then none
    else some ((), { st with lock_held := true, trace := st.trace ++ [Event.lock] }) := rfl

theorem unlock_apply (w : World) (st : St) : _pqos_api_unlock w st =
    some ((), { st with lock_held := false, trace := st.trace ++ [Event.unlock] }) := rfl

theorem check_init_apply (x : Int) (w : World) (st : St) : _pqos_check_init x w st =
    some (if w.m_init_done then PQOS_RETVAL_OK else PQOS_RETVAL_INIT,
        { st with trace := st.trace ++ [Event.check_init x] }) := rfl

theorem use_msr_apply (w : World) (st : St) : pqos_cap_use_msr w st =
    some (w.use_msr, { st with trace := st.trace ++ [Event.use_msr] }) := rfl

theorem no_pid_api_apply (w : World) (st : St) : PQOS_NO_PID_API w st =
    some (w.no_pid_api, st) := rfl

theorem backend_apply (c : Call) (w : World) (st : St) : backend c w st =
    some ((w.backend c st.mem).1,
      { st with trace := st.trace ++ [Event.call c st.mem], mem := (w.backend c st.mem).2 }) :=
  rfl

theorem log_apply (msg : String) (args : List Int) (w : World) (st : St) :
    LOG_ERROR msg args w st =
      some ((), { st with trace := st.trace ++ [Event.log_error msg args] }) := rfl

theorem run_loop_some {α : Type} (a : α) (w : World) (st : St) :
    run_loop (some a) w st = some (a, st) := rfl

theorem deref_some {α : Type} (a : α) (w : World) (st : St) :
    deref (some a) w st = some (a, st) := rfl

theorem load_apply (p : Ptr) (w : World) (st : St) : load p w st = some (st.mem p, st) := rfl

theorem store_apply (p : Ptr) (g : pqos_mon_data) (w : World) (st : St) :
    store p g w st = some ((), { st with mem := st.mem.write p g }) := rfl

theorem Mem.write_same (m : Mem) (p : Ptr) (g : pqos_mon_data) : (m.write p g) p = g := by
  simp [Mem.write]

theorem Mem.write_write (m : Mem) (p : Ptr) (g g2 : pqos_mon_data) :
    (m.write p g).write p g2 = m.write p g2 := by
  funext q
  simp only [Mem.write]
  split <;> rfl

/-! ## The contiguity validator -/

theorem shift_zeros_succ (fuel b : Nat) :
    shift_zeros (fuel + 1) b = if b % 2 = 0 then shift_zeros fuel (b / 2) else some b := by
  simp [shift_zeros, Nat.and_one_is_mod, Nat.shiftRight_one]

theorem shift_ones_succ (fuel b : Nat) :
    shift_ones (fuel + 1) b = if b % 2 = 1 then shift_ones fuel (b / 2) else some b := by
  simp [shift_ones, Nat.and_one_is_mod, Nat.shiftRight_one]

theorem shift_zeros_mono (d : Nat) : ∀ (fuel b r : Nat),
    shift_zeros fuel b = some r → shift_zeros (fuel + d) b = some r := by
  intro fuel
  induction fuel with
  | zero => intro b r h; simp [shift_zeros] at h
  | succ f ih =>
    intro b r h
    rw [Nat.add_right_comm, shift_zeros_succ]
    rw [shift_zeros_succ] at h
    split at h
    · rename_i hb; rw [if_pos hb]; exact ih _ _ h
    · rename_i hb; rw [if_neg hb]; exact h

theorem shift_ones_mono (d : Nat) : ∀ (fuel b r : Nat),
    shift_ones fuel b = some r → shift_ones (fuel + d) b = some r := by
  intro fuel
  induction fuel with
  | zero => intro b r h; simp [shift_ones] at h
  | succ f ih =>
    intro b r h
    rw [Nat.add_right_comm, shift_ones_succ]
    rw [shift_ones_succ] at h
    split at h
    · rename_i hb; rw [if_pos hb]; exact ih _ _ h
    · rename_i hb; rw [if_neg hb]; exact h

theorem shift_zeros_total : ∀ (fuel b : Nat), b ≠ 0 → b < 2 ^ fuel →
    ∃ r, shift_zeros fuel b = some r ∧ r ≤ b := by
  intro fuel
  induction fuel with
  | zero => intro b h0 h; simp at h; omega
  | succ f ih =>
    intro b h0 h
    rw [shift_zeros_succ]
    split
    · rename_i hb
      have h2 : b / 2 < 2 ^ f := by
        rw [pow_succ] at h; omega
      obtain ⟨r, hr, hle⟩ := ih (b / 2) (by omega) h2
      exact ⟨r, hr, by omega⟩
    · exact ⟨b, rfl, le_refl _⟩

theorem shift_ones_total : ∀ (fuel b : Nat), b < 2 ^ fuel →
    ∃ r, shift_ones (fuel + 1) b = some r := by
  intro fuel
  induction fuel with
  | zero =>
    intro b h
    have : b = 0 := by simp at h; omega
    subst this
    exact ⟨0, by simp [shift_ones]⟩
  | succ f ih =>
    intro b h
    rw [shift_ones_succ]
    split
    · have h2 : b / 2 < 2 ^ f := by
        rw [pow_succ] at h; omega
      exact ih _ h2
    · exact ⟨b, rfl⟩

theorem shift_zeros_sound : ∀ (fuel b r : Nat), shift_zeros fuel b = some r →
    ∃ j, b = r * 2 ^ j ∧ r % 2 = 1 := by
  intro fuel
  induction fuel with
  | zero => intro b r h; simp [shift_zeros] at h
  | succ f ih =>
    intro b r h
    rw [shift_zeros_succ] at h
    split at h
    · rename_i hb
      obtain ⟨j, hj, hodd⟩ := ih _ _ h
      refine ⟨j + 1, ?_, hodd⟩
      rw [pow_succ, ← Nat.mul_assoc, ← hj]; omega
    · rename_i hb
      injection h with h; subst h
      exact ⟨0, by simp, by omega⟩

theorem shift_ones_sound : ∀ (fuel b r : Nat), shift_ones fuel b = some r →
    ∃ k, b + 1 = (r + 1) * 2 ^ k := by
  intro fuel
  induction fuel with
  | zero => intro b r h; simp [shift_ones] at h
  | succ f ih =>
    intro b r h
    rw [shift_ones_succ] at h
    split at h
    · rename_i hb
      obtain ⟨k, hk⟩ := ih _ _ h
      refine ⟨k + 1, ?_⟩
      rw [pow_succ, ← Nat.mul_assoc, ← hk]; omega
    · injection h with h; subst h
      exact ⟨0, by simp⟩

theorem shift_zeros_run : ∀ (j fuel k : Nat), 1 ≤ k → j < fuel →
    shift_zeros fuel ((2 ^ k - 1) * 2 ^ j) = some (2 ^ k - 1) := by
  intro j
  induction j with
  | zero =>
    intro fuel k hk hf
    obtain ⟨f, rfl⟩ : ∃ f, fuel = f + 1 := ⟨fuel - 1, by omega⟩
    have hodd : (2 ^ k - 1) % 2 = 1 := by
      obtain ⟨k', rfl⟩ : ∃ k', k = k' + 1 := ⟨k - 1, by omega⟩
      have : 0 < 2 ^ k' := Nat.two_pow_pos _
      rw [pow_succ]; omega
    rw [shift_zeros_succ]; simp [hodd]
  | succ j ih =>
    intro fuel k hk hf
    obtain ⟨f, rfl⟩ : ∃ f, fuel = f + 1 := ⟨fuel - 1, by omega⟩
    rw [shift_zeros_succ]
    have e : (2 ^ k - 1) * 2 ^ (j + 1) = 2 * ((2 ^ k - 1) * 2 ^ j) := by
      rw [pow_succ]; ring
    rw [e]
    have h1 : (2 * ((2 ^ k - 1) * 2 ^ j)) % 2 = 0 := by omega
    have h2 : (2 * ((2 ^ k - 1) * 2 ^ j)) / 2 = (2 ^ k - 1) * 2 ^ j := by omega
    rw [if_pos h1, h2]
    exact ih f k hk (by omega)

theorem shift_ones_run : ∀ (k fuel : Nat), k < fuel →
    shift_ones fuel (2 ^ k - 1) = some 0 := by
  intro k
  induction k with
  | zero =>
    intro fuel hf
    obtain ⟨f, rfl⟩ : ∃ f, fuel = f + 1 := ⟨fuel - 1, by omega⟩
    simp [shift_ones]
  | succ k ih =>
    intro fuel hf
    obtain ⟨f, rfl⟩ : ∃ f, fuel = f + 1 := ⟨fuel - 1, by omega⟩
    rw [shift_ones_succ]
    have : 0 < 2 ^ k := Nat.two_pow_pos _
    have h1 : (2 ^ (k + 1) - 1) % 2 = 1 := by rw [pow_succ]; omega
    have h2 : (2 ^ (k + 1) - 1) / 2 = 2 ^ k - 1 := by rw [pow_succ]; omega
    rw [if_pos h1, h2]
    exact ih f (by omega)

/-- With 65 iterations of fuel for each loop `is_contiguous` returns, and it
returns 0 or 1. -/
theorem is_contiguous_total (fuel m : Nat) (hf : 65 ≤ fuel) :
    is_contiguous fuel m = some 0 ∨ is_contiguous fuel m = some 1 := by
  unfold is_contiguous
  have hm : m % 2 ^ 64 < 2 ^ 64 := Nat.mod_lt _ (by norm_num)
  generalize m % 2 ^ 64 = b at hm
  simp only
  by_cases hb : b = 0
  · simp [hb]
  · rw [if_neg hb]
    have hp : (2:Nat) ^ 64 ≤ 2 ^ (fuel - 1) := Nat.pow_le_pow_right (by norm_num) (by omega)
    obtain ⟨r, hr, hle⟩ := shift_zeros_total (fuel - 1) b hb (by omega)
    have hr2 := shift_zeros_mono 1 _ _ _ hr
    rw [show fuel - 1 + 1 = fuel by omega] at hr2
    obtain ⟨r2, hr3⟩ := shift_ones_total (fuel - 1) r (by omega)
    rw [show fuel - 1 + 1 = fuel by omega] at hr3
    simp only [hr2, hr3]
    by_cases h0 : r2 = 0 <;> simp [h0]

theorem is_contiguous_one_iff (fuel m : Nat) (hf : 65 ≤ fuel) (hm : m < 2 ^ 64) :
    is_contiguous fuel m = some 1 ↔ single_run m := by
  constructor
  · intro h
    unfold is_contiguous at h
    rw [Nat.mod_eq_of_lt hm] at h
    simp only at h
    by_cases hb : m = 0
    · simp [hb] at h
    · rw [if_neg hb] at h
      cases hz : shift_zeros fuel m with
      | none => simp [hz] at h
      | some r =>
        cases ho : shift_ones fuel r with
        | none => simp [hz, ho] at h
        | some r2 =>
          simp only [hz, ho] at h
          have hr2 : r2 = 0 := by
            by_contra hne
            simp [hne] at h
          subst hr2
          obtain ⟨j, hj, hodd⟩ := shift_zeros_sound _ _ _ hz
          obtain ⟨k, hk⟩ := shift_ones_sound _ _ _ ho
          have hr : r = 2 ^ k - 1 := by omega
          have hk1 : 1 ≤ k := by
            rcases Nat.eq_zero_or_pos k with h0 | h0
            · subst h0; simp at hk; omega
            · exact h0
          refine ⟨k, j, hk1, ?_, by rw [hj, hr]⟩
          by_contra hgt
          have hgt2 : 64 ≤ j + (k - 1) := by omega
          have h1 : (2:Nat) ^ 64 ≤ 2 ^ (j + (k - 1)) := Nat.pow_le_pow_right (by norm_num) hgt2
          have h2 : 2 ^ (k - 1) ≤ r := by
            have : 2 ^ k = 2 * 2 ^ (k - 1) := by
              conv_lhs => rw [show k = (k - 1) + 1 by omega]
              rw [pow_succ]; ring
            have : 0 < 2 ^ (k - 1) := Nat.two_pow_pos _
            omega
          have h3 : 2 ^ (j + (k - 1)) ≤ m := by
            rw [hj, pow_add, Nat.mul_comm]
            exact Nat.mul_le_mul_right _ h2
          omega
  · rintro ⟨k, j, hk, hjk, rfl⟩
    unfold is_contiguous
    rw [Nat.mod_eq_of_lt hm]
    simp only
    have hpos : (2 ^ k - 1) * 2 ^ j ≠ 0 := by
      have : 0 < 2 ^ j := Nat.two_pow_pos _
      have : 2 ≤ 2 ^ k := by
        calc 2 = 2 ^ 1 := by norm_num
          _ ≤ 2 ^ k := Nat.pow_le_pow_right (by norm_num) hk
      have : 0 < (2 ^ k - 1) * 2 ^ j := Nat.mul_pos (by omega) (by omega)
      omega
    rw [if_neg hpos, shift_zeros_run j fuel k hk (by omega)]
    simp only
    rw [shift_ones_run k fuel (by omega)]
    simp

theorem is_contiguous_mono (d fuel m : Nat) (r : Int)
    (h : is_contiguous fuel m = some r) : is_contiguous (fuel + d) m = some r := by
  unfold is_contiguous at h ⊢
  generalize m % 2 ^ 64 = b0 at h ⊢
  simp only at h ⊢
  split at h
  · rename_i hb; rw [if_pos hb]; exact h
  · rename_i hb
    rw [if_neg hb]
    cases hz : shift_zeros fuel b0 with
    | none => simp [hz] at h
    | some b =>
      cases ho : shift_ones fuel b with
      | none => simp [hz, ho] at h
      | some b2 =>
        simp only [hz, ho] at h
        simp only [shift_zeros_mono d _ _ _ hz, shift_ones_mono d _ _ _ ho]
        exact h

theorem testBit_run (k j i : Nat) :
    ((2 ^ k - 1) * 2 ^ j).testBit i = true ↔ j ≤ i ∧ i < j + k := by
  rw [← Nat.shiftLeft_eq, Nat.testBit_shiftLeft, Nat.testBit_two_pow_sub_one]
  simp
  omega

theorem single_run_iff_bits (m : Nat) : single_run m ↔ one_run_of_bits m := by
  constructor
  · rintro ⟨k, j, hk, hjk, rfl⟩
    exact ⟨k, j, hk, hjk, fun i => testBit_run k j i⟩
  · rintro ⟨k, j, hk, hjk, h⟩
    refine ⟨k, j, hk, hjk, ?_⟩
    apply Nat.eq_of_testBit_eq
    intro i
    have h1 := h i
    have h2 := testBit_run k j i
    rw [Bool.eq_iff_iff, h1, h2]

/-- C1: for every 64-bit mask `m` (and enough fuel for the two loops),
`is_contiguous` returns 1 exactly when `m ≠ 0` and `m = (2^k - 1) * 2^j` for
some `k ≥ 1` with `j + k ≤ 64`, which is to say that the set bits of `m` are one
run of consecutive positions; otherwise it returns 0.  In particular `0b0110`
and `0xFFFFFFFF` give 1, and `0b1010` and `0` give 0. -/
theorem is_contiguous_spec (fuel m : Nat) (hf : 65 ≤ fuel) (hm : m < 2 ^ 64) :
    (is_contiguous fuel m = some 1 ↔ m ≠ 0 ∧ single_run m) ∧
    (is_contiguous fuel m = some 0 ↔ ¬ (m ≠ 0 ∧ single_run m)) ∧
    (single_run m ↔ one_run_of_bits m) ∧
    is_contiguous fuel 0b0110 = some 1 ∧ is_contiguous fuel 0xFFFFFFFF = some 1 ∧
    is_contiguous fuel 0b1010 = some 0 ∧ is_contiguous fuel 0 = some 0 := by
  have hone : is_contiguous fuel m = some 1 ↔ m ≠ 0 ∧ single_run m := by
    rw [is_contiguous_one_iff fuel m hf hm]
    constructor
    · intro h
      refine ⟨?_, h⟩
      obtain ⟨k, j, hk, _, rfl⟩ := h
      have h1 : 0 < 2 ^ j := Nat.two_pow_pos _
      have h2 : 2 ^ 1 ≤ 2 ^ k := Nat.pow_le_pow_right (by norm_num) hk
      exact Nat.ne_of_gt (Nat.mul_pos (by omega) h1)
    · exact fun h => h.2
  have hfuel : fuel = 65 + (fuel - 65) := by omega
  refine ⟨hone, ?_, single_run_iff_bits m, ?_, ?_, ?_, ?_⟩
  · rw [← hone]
    rcases is_contiguous_total fuel m hf with h | h <;> simp [h]
  · rw [hfuel]; exact is_contiguous_mono _ 65 _ _ (by decide)
  · rw [hfuel]; exact is_contiguous_mono _ 65 _ _ (by decide)
  · rw [hfuel]; exact is_contiguous_mono _ 65 _ _ (by decide)
  · rw [hfuel]; exact is_contiguous_mono _ 65 _ _ (by decide)

/-- Instance of C1 at the mask `0b0110` with 65 iterations of fuel. -/
theorem is_contiguous_spec_witness :
    65 ≤ 65 ∧ 6 < 2 ^ 64 ∧ is_contiguous 65 6 = some 1 :=
  ⟨by decide, by decide,
    (is_contiguous_spec 65 6 (by decide) (by decide)).1.2
      ⟨by decide, 2, 1, by decide, by decide, by decide⟩⟩

/-! ## Outcome of each operation -/

theorem pqos_alloc_assoc_set_eval (w : World) (mem : Mem) (lcore class_id : Nat) :
    run (pqos_alloc_assoc_set lcore class_id) w mem =
      if w.m_init_done = false then not_initialised mem
      else if w.use_msr = true then dispatched w mem (Call.hw_alloc_assoc_set lcore class_id)
      else dispatched w mem (Call.os_alloc_assoc_set lcore class_id) := by
  simp only [run, pqos_alloc_assoc_set, bind_apply, pure_apply, ite_apply_M, lock_apply,
    unlock_apply, check_init_apply, use_msr_apply, backend_apply, Option.some_bind]
  cases w.m_init_done <;> cases w.use_msr <;> rfl

theorem pqos_alloc_assoc_get_eval (w : World) (mem : Mem) (lcore : Nat) (class_id : Ptr) :
    run (pqos_alloc_assoc_get lcore class_id) w mem =
      if w.m_init_done = false then not_initialised mem
      else if w.use_msr = true then dispatched w mem (Call.hw_alloc_assoc_get lcore class_id)
      else dispatched w mem (Call.os_alloc_assoc_get lcore class_id) := by
  simp only [run, pqos_alloc_assoc_get, bind_apply, pure_apply, ite_apply_M, lock_apply,
    unlock_apply, check_init_apply, use_msr_apply, backend_apply, Option.some_bind]
  cases w.m_init_done <;> cases w.use_msr <;> rfl

theorem pqos_alloc_assign_eval (w : World) (mem : Mem) (technology : Nat) (core_array : Ptr)
    (core_num : Nat) (class_id : Ptr) :
    run (pqos_alloc_assign technology core_array core_num class_id) w mem =
      if core_num = 0 ∨ core_array = NULL ∨ class_id = NULL ∨ technology = 0 then rejected mem
      else if w.m_init_done = false then not_initialised mem
      else if w.use_msr = true then
        dispatched w mem (Call.hw_alloc_assign technology core_array core_num class_id)
      else dispatched w mem (Call.os_alloc_assign technology core_array core_num class_id) := by
  simp only [run, pqos_alloc_assign, bind_apply, pure_apply, ite_apply_M, lock_apply,
    unlock_apply, check_init_apply, use_msr_apply, backend_apply, Option.some_bind]
  split
  · rfl
  · cases w.m_init_done <;> cases w.use_msr <;> rfl

theorem pqos_alloc_release_eval (w : World) (mem : Mem) (core_array : Ptr) (core_num : Nat) :
    run (pqos_alloc_release core_array core_num) w mem =
      if core_num = 0 ∨ core_array = NULL then rejected mem
      else if w.m_init_done = false then not_initialised mem
      else if w.use_msr = true then dispatched w mem (Call.hw_alloc_release core_array core_num)
      else dispatched w mem (Call.os_alloc_release core_array core_num) := by
  simp only [run, pqos_alloc_release, bind_apply, pure_apply, ite_apply_M, lock_apply,
    unlock_apply, check_init_apply, use_msr_apply, backend_apply, Option.some_bind]
  split
  · rfl
  · cases w.m_init_done <;> cases w.use_msr <;> rfl

theorem pqos_alloc_reset_eval (w : World) (mem : Mem) (l3_cdp_cfg : Int) :
    run (pqos_alloc_reset l3_cdp_cfg) w mem =
      if l3_cdp_cfg ≠ PQOS_REQUIRE_CDP_ON ∧ l3_cdp_cfg ≠ PQOS_REQUIRE_CDP_OFF ∧
          l3_cdp_cfg ≠ PQOS_REQUIRE_CDP_ANY then
        some (PQOS_RETVAL_PARAM,
          { lock_held := false,
            trace := [Event.log_error "Unrecognized L3 CDP configuration setting %d!\n"
              [l3_cdp_cfg]],
            mem := mem })
      else if w.m_init_done = false then not_initialised mem
      else if w.use_msr = true then dispatched w mem (Call.hw_alloc_reset l3_cdp_cfg)
      else dispatched w mem (Call.os_alloc_reset l3_cdp_cfg) := by
  simp only [run, pqos_alloc_reset, bind_apply, pure_apply, ite_apply_M, lock_apply,
    unlock_apply, check_init_apply, use_msr_apply, backend_apply, log_apply, Option.some_bind]
  split
  · rfl
  · cases w.m_init_done <;> cases w.use_msr <;> rfl

theorem pqos_l3ca_get_eval (w : World) (mem : Mem) (socket max_num_ca : Nat) (num_ca ca : Ptr) :
    run (pqos_l3ca_get socket max_num_ca num_ca ca) w mem =
      if num_ca = NULL ∨ ca = NULL ∨ max_num_ca = 0 then rejected mem
      else if w.m_init_done = false then not_initialised mem
      else if w.use_msr = true then
        dispatched w mem (Call.hw_l3ca_get socket max_num_ca num_ca ca)
      else dispatched w mem (Call.os_l3ca_get socket max_num_ca num_ca ca) := by
  simp only [run, pqos_l3ca_get, bind_apply, pure_apply, ite_apply_M, lock_apply,
    unlock_apply, check_init_apply, use_msr_apply, backend_apply, Option.some_bind]
  split
  · rfl
  · cases w.m_init_done <;> cases w.use_msr <;> rfl

theorem pqos_l2ca_get_eval (w : World) (mem : Mem) (l2id max_num_ca : Nat) (num_ca ca : Ptr) :
    run (pqos_l2ca_get l2id max_num_ca num_ca ca) w mem =
      if num_ca = NULL ∨ ca = NULL ∨ max_num_ca = 0 then rejected mem
      else if w.m_init_done = false then not_initialised mem
      else if w.use_msr = true then
        dispatched w mem (Call.hw_l2ca_get l2id max_num_ca num_ca ca)
      else dispatched w mem (Call.os_l2ca_get l2id max_num_ca num_ca ca) := by
  simp only [run, pqos_l2ca_get, bind_apply, pure_apply, ite_apply_M, lock_apply,
    unlock_apply, check_init_apply, use_msr_apply, backend_apply, Option.some_bind]
  split
  · rfl
  · cases w.m_init_done <;> cases w.use_msr <;> rfl

theorem pqos_mba_set_eval (w : World) (mem : Mem) (socket num_cos : Nat)
    (requested actual : Ptr) :
    run (pqos_mba_set socket num_cos requested actual) w mem =
      if w.m_init_done = false then not_initialised mem
      else forwarded w mem (Call.hw_mba_set socket num_cos requested actual) := by
  simp only [run, pqos_mba_set, bind_apply, pure_apply, ite_apply_M, lock_apply,
    unlock_apply, check_init_apply, backend_apply, Option.some_bind]
  cases w.m_init_done <;> rfl

theorem pqos_mba_get_eval (w : World) (mem : Mem) (socket max_num_cos : Nat)
    (num_cos mba_tab : Ptr) :
    run (pqos_mba_get socket max_num_cos num_cos mba_tab) w mem =
      if w.m_init_done = false then not_initialised mem
      else forwarded w mem (Call.hw_mba_get socket max_num_cos num_cos mba_tab) := by
  simp only [run, pqos_mba_get, bind_apply, pure_apply, ite_apply_M, lock_apply,
    unlock_apply, check_init_apply, backend_apply, Option.some_bind]
  cases w.m_init_done <;> rfl

theorem pqos_mon_reset_eval (w : World) (mem : Mem) :
    run pqos_mon_reset w mem =
      if w.m_init_done = false then not_initialised mem
      else forwarded w mem Call.hw_mon_reset := by
  simp only [run, pqos_mon_reset, bind_apply, pure_apply, ite_apply_M, lock_apply,
    unlock_apply, check_init_apply, backend_apply, Option.some_bind]
  cases w.m_init_done <;> rfl

theorem pqos_mon_assoc_get_eval (w : World) (mem : Mem) (lcore : Nat) (rmid : Ptr) :
    run (pqos_mon_assoc_get lcore rmid) w mem =
      if w.m_init_done = false then not_initialised mem
      else forwarded w mem (Call.hw_mon_assoc_get lcore rmid) := by
  simp only [run, pqos_mon_assoc_get, bind_apply, pure_apply, ite_apply_M, lock_apply,
    unlock_apply, check_init_apply, backend_apply, Option.some_bind]
  cases w.m_init_done <;> rfl

theorem mon_event_ite {α : Type} (event : Nat) (a b : α) :
    (if event &&& lnot32 (PQOS_MON_EVENT_L3_OCCUP ||| PQOS_MON_EVENT_LMEM_BW |||
          PQOS_MON_EVENT_TMEM_BW ||| PQOS_MON_EVENT_RMEM_BW |||
          PQOS_PERF_EVENT_IPC ||| PQOS_PERF_EVENT_LLC_MISS) ≠ 0 then a
     else if event &&& (PQOS_MON_EVENT_L3_OCCUP ||| PQOS_MON_EVENT_LMEM_BW |||
          PQOS_MON_EVENT_TMEM_BW ||| PQOS_MON_EVENT_RMEM_BW) = 0 ∧
          event &&& (PQOS_PERF_EVENT_IPC ||| PQOS_PERF_EVENT_LLC_MISS) ≠ 0 then a
     else b) = if mon_event_invalid event then a else b := by
  unfold mon_event_invalid
  split
  · rename_i h; rw [if_pos (Or.inl h)]
  · rename_i h
    split
    · rename_i h2; rw [if_pos (Or.inr h2)]
    · rename_i h2
      rw [if_neg]
      rintro (h3 | h3)
      · exact h h3
      · exact h2 h3

theorem pqos_mon_start_eval (w : World) (mem : Mem) (num_cores : Nat) (cores : Ptr)
    (event : Nat) (context group : Ptr) :
    run (pqos_mon_start num_cores cores event context group) w mem =
      if group = NULL ∨ cores = NULL ∨ num_cores = 0 ∨ event = 0 then rejected mem
      else if (mem group).valid = GROUP_VALID_MARKER then rejected mem
      else if mon_event_invalid event then rejected mem
      else if w.m_init_done = false then not_initialised mem
      else if w.use_msr = true then
        dispatched w mem (Call.hw_mon_start num_cores cores event context group)
      else dispatched w mem (Call.os_mon_start num_cores cores event context group) := by
  simp only [run, pqos_mon_start, bind_apply, pure_apply, ite_apply_M, lock_apply,
    unlock_apply, check_init_apply, use_msr_apply, backend_apply, load_apply, Option.some_bind]
  rw [mon_event_ite]
  split
  · rfl
  · split
    · rfl
    · split
      · rfl
      · cases w.m_init_done <;> cases w.use_msr <;> rfl

theorem pqos_mon_stop_eval (w : World) (mem : Mem) (group : Ptr) :
    run (pqos_mon_stop group) w mem =
      if group = NULL then rejected mem
      else if (mem group).valid ≠ GROUP_VALID_MARKER then rejected mem
      else if w.m_init_done = false then not_initialised mem
      else if w.use_msr = true then dispatched w mem (Call.hw_mon_stop group)
      else dispatched w mem (Call.os_mon_stop group) := by
  simp only [run, pqos_mon_stop, bind_apply, pure_apply, ite_apply_M, lock_apply,
    unlock_apply, check_init_apply, use_msr_apply, backend_apply, load_apply, Option.some_bind]
  split
  · rfl
  · split
    · rfl
    · cases w.m_init_done <;> cases w.use_msr <;> rfl

theorem pqos_mon_start_pid_eval (w : World) (mem : Mem) (pid : Int) (event : Nat)
    (context group : Ptr) :
    run (pqos_mon_start_pid pid event context group) w mem =
      if group = NULL ∨ event = 0 ∨ pid < 0 then rejected mem
      else if (mem group).valid = GROUP_VALID_MARKER then rejected mem
      else if mon_event_invalid event then rejected mem
      else if w.m_init_done = false then not_initialised mem
      else if w.use_msr = true then
        if w.no_pid_api = true then pid_not_built (pid_prepared mem pid event context group)
        else pid_dispatched w (pid_prepared mem pid event context group)
          (Call.pqos_pid_start group) group
      else pid_dispatched w (pid_prepared mem pid event context group)
        (Call.os_mon_start_pid group) group := by
  simp only [run, pqos_mon_start_pid, bind_apply, pure_apply, ite_apply_M, lock_apply,
    unlock_apply, check_init_apply, use_msr_apply, backend_apply, load_apply, store_apply,
    no_pid_api_apply, log_apply, Option.some_bind, Mem.write_write, Mem.write_same]
  rw [mon_event_ite]
  split
  · rfl
  · split
    · rfl
    · split
      · rfl
      · cases w.m_init_done <;> cases w.use_msr <;> cases w.no_pid_api <;> rfl

/-! ## The validation loops -/

theorem pqos_l3ca_set_loop_succ (fuel : Nat) (hf : 65 ≤ fuel) (tab : Nat → pqos_l3ca)
    (n i : Nat) (w : World) (st : St) :
    pqos_l3ca_set_loop fuel tab (n + 1) i w st =
      if l3ca_entry_ok fuel (tab i) then pqos_l3ca_set_loop fuel tab n (i + 1) w st
      else some (some PQOS_RETVAL_PARAM,
        { st with lock_held := false,
                  trace := st.trace ++ [Event.log_error "L3 COS%u bit mask is not contiguous!\n"
                    [((tab i).class_id : Int)], Event.unlock] }) := by
  unfold l3ca_entry_ok
  rw [pqos_l3ca_set_loop]
  by_cases hc : (tab i).cdp = 0
  · rcases is_contiguous_total fuel (tab i).u.ways_mask hf with h | h <;>
      simp [hc, h, bind_apply, pure_apply, ite_apply_M, run_loop_some, log_apply, unlock_apply]
  · rcases is_contiguous_total fuel (tab i).u.s.data_mask hf with h | h <;>
    rcases is_contiguous_total fuel (tab i).u.s.code_mask hf with h' | h' <;>
      simp [hc, h, h', bind_apply, pure_apply, ite_apply_M, run_loop_some, log_apply, unlock_apply]

theorem pqos_l3ca_set_loop_pass (fuel : Nat) (hf : 65 ≤ fuel) (tab : Nat → pqos_l3ca)
    (w : World) (st : St) : ∀ (n i : Nat), (∀ k, k < n → l3ca_entry_ok fuel (tab (i + k))) →
      pqos_l3ca_set_loop fuel tab n i w st = some (none, st) := by
  intro n
  induction n with
  | zero => intro i _; rfl
  | succ n ih =>
    intro i h
    have h0 : l3ca_entry_ok fuel (tab i) := h 0 (by omega)
    rw [pqos_l3ca_set_loop_succ fuel hf, if_pos h0]
    apply ih
    intro k hk
    have := h (k + 1) (by omega)
    rwa [show i + (k + 1) = i + 1 + k by omega] at this

theorem pqos_l3ca_set_loop_fail (fuel : Nat) (hf : 65 ≤ fuel) (tab : Nat → pqos_l3ca)
    (w : World) (st : St) : ∀ (n i : Nat), (∃ k, k < n ∧ ¬ l3ca_entry_ok fuel (tab (i + k))) →
      ∃ j, j < n ∧ ¬ l3ca_entry_ok fuel (tab (i + j)) ∧
        (∀ k, k < j → l3ca_entry_ok fuel (tab (i + k))) ∧
        pqos_l3ca_set_loop fuel tab n i w st = some (some PQOS_RETVAL_PARAM,
          { st with lock_held := false,
                    trace := st.trace ++ [Event.log_error "L3 COS%u bit mask is not contiguous!\n"
                      [((tab (i + j)).class_id : Int)], Event.unlock] }) := by
  intro n
  induction n with
  | zero => intro i ⟨k, hk, _⟩; omega
  | succ n ih =>
    intro i ⟨k, hk, hbad⟩
    rw [pqos_l3ca_set_loop_succ fuel hf]
    by_cases h0 : l3ca_entry_ok fuel (tab i)
    · rw [if_pos h0]
      have hk0 : k ≠ 0 := by
        rintro rfl
        exact hbad h0
      obtain ⟨j, hj, hjbad, hjpre, hres⟩ := ih (i + 1) ⟨k - 1, by omega, by
        rwa [show i + 1 + (k - 1) = i + k by omega]⟩
      refine ⟨j + 1, by omega, ?_, ?_, ?_⟩
      · rwa [show i + (j + 1) = i + 1 + j by omega]
      · intro k' hk'
        rcases Nat.eq_zero_or_pos k' with h | h
        · subst h; exact h0
        · have := hjpre (k' - 1) (by omega)
          rwa [show i + 1 + (k' - 1) = i + k' by omega] at this
      · rw [hres, show i + (j + 1) = i + 1 + j by omega]
    · rw [if_neg h0]
      exact ⟨0, by omega, h0, fun k hk => by omega, rfl⟩

theorem pqos_l2ca_set_loop_succ (fuel : Nat) (hf : 65 ≤ fuel) (tab : Nat → pqos_l2ca)
    (n i : Nat) (w : World) (st : St) :
    pqos_l2ca_set_loop fuel tab (n + 1) i w st =
      if l2ca_entry_ok fuel (tab i) then pqos_l2ca_set_loop fuel tab n (i + 1) w st
      else some (some PQOS_RETVAL_PARAM,
        { st with lock_held := false,
                  trace := st.trace ++ [Event.log_error "L2 COS%u bit mask is not contiguous!\n"
                    [((tab i).class_id : Int)], Event.unlock] }) := by
  unfold l2ca_entry_ok
  rw [pqos_l2ca_set_loop]
  rcases is_contiguous_total fuel (tab i).ways_mask hf with h | h <;>
    simp [h, bind_apply, pure_apply, ite_apply_M, run_loop_some, log_apply, unlock_apply]

theorem pqos_l2ca_set_loop_pass (fuel : Nat) (hf : 65 ≤ fuel) (tab : Nat → pqos_l2ca)
    (w : World) (st : St) : ∀ (n i : Nat), (∀ k, k < n → l2ca_entry_ok fuel (tab (i + k))) →
      pqos_l2ca_set_loop fuel tab n i w st = some (none, st) := by
  intro n
  induction n with
  | zero => intro i _; rfl
  | succ n ih =>
    intro i h
    have h0 : l2ca_entry_ok fuel (tab i) := h 0 (by omega)
    rw [pqos_l2ca_set_loop_succ fuel hf, if_pos h0]
    apply ih
    intro k hk
    have := h (k + 1) (by omega)
    rwa [show i + (k + 1) = i + 1 + k by omega] at this

theorem pqos_l2ca_set_loop_fail (fuel : Nat) (hf : 65 ≤ fuel) (tab : Nat → pqos_l2ca)
    (w : World) (st : St) : ∀ (n i : Nat), (∃ k, k < n ∧ ¬ l2ca_entry_ok fuel (tab (i + k))) →
      ∃ j, j < n ∧ ¬ l2ca_entry_ok fuel (tab (i + j)) ∧
        (∀ k, k < j → l2ca_entry_ok fuel (tab (i + k))) ∧
        pqos_l2ca_set_loop fuel tab n i w st = some (some PQOS_RETVAL_PARAM,
          { st with lock_held := false,
                    trace := st.trace ++ [Event.log_error "L2 COS%u bit mask is not contiguous!\n"
                      [((tab (i + j)).class_id : Int)], Event.unlock] }) := by
  intro n
  induction n with
  | zero => intro i ⟨k, hk, _⟩; omega
  | succ n ih =>
    intro i ⟨k, hk, hbad⟩
    rw [pqos_l2ca_set_loop_succ fuel hf]
    by_cases h0 : l2ca_entry_ok fuel (tab i)
    · rw [if_pos h0]
      have hk0 : k ≠ 0 := by
        rintro rfl
        exact hbad h0
      obtain ⟨j, hj, hjbad, hjpre, hres⟩ := ih (i + 1) ⟨k - 1, by omega, by
        rwa [show i + 1 + (k - 1) = i + k by omega]⟩
      refine ⟨j + 1, by omega, ?_, ?_, ?_⟩
      · rwa [show i + (j + 1) = i + 1 + j by omega]
      · intro k' hk'
        rcases Nat.eq_zero_or_pos k' with h | h
        · subst h; exact h0
        · have := hjpre (k' - 1) (by omega)
          rwa [show i + 1 + (k' - 1) = i + k' by omega] at this
      · rw [hres, show i + (j + 1) = i + 1 + j by omega]
    · rw [if_neg h0]
      exact ⟨0, by omega, h0, fun k hk => by omega, rfl⟩

theorem pqos_mon_poll_loop_pass (tab : Nat → Ptr) (w : World) (st : St) :
    ∀ (n i : Nat), (∀ k, k < n → tab (i + k) ≠ NULL ∧ (st.mem (tab (i + k))).valid = GROUP_VALID_MARKER) →
      pqos_mon_poll_loop tab n i w st = some (none, st) := by
  intro n
  induction n with
  | zero => intro i _; rfl
  | succ n ih =>
    intro i h
    have h0 := h 0 (by omega)
    simp only [Nat.add_zero] at h0
    simp only [pqos_mon_poll_loop, bind_apply, ite_apply_M, pure_apply, load, h0.1, h0.2,
      Option.bind, if_false, ne_eq, not_true_eq_false]
    apply ih
    intro k hk
    have := h (k + 1) (by omega)
    rwa [show i + (k + 1) = i + 1 + k by omega] at this

theorem pqos_mon_poll_loop_fail (tab : Nat → Ptr) (w : World) (st : St) :
    ∀ (n i : Nat), (∃ k, k < n ∧ (tab (i + k) = NULL ∨ (st.mem (tab (i + k))).valid ≠ GROUP_VALID_MARKER)) →
      pqos_mon_poll_loop tab n i w st = some (some PQOS_RETVAL_PARAM, st) := by
  intro n
  induction n with
  | zero => intro i ⟨k, hk, _⟩; omega
  | succ n ih =>
    intro i ⟨k, hk, hbad⟩
    simp only [pqos_mon_poll_loop, bind_apply, ite_apply_M, pure_apply, load, Option.bind]
    by_cases h1 : tab i = NULL
    · simp [h1]
    · rw [if_neg h1]
      by_cases h2 : (st.mem (tab i)).valid = GROUP_VALID_MARKER
      · simp only [h2, ne_eq, not_true_eq_false, if_false]
        apply ih
        rcases Nat.eq_zero_or_pos k with hk0 | hk0
        · subst hk0; simp only [Nat.add_zero] at hbad
          rcases hbad with hb | hb
          · exact absurd hb h1
          · exact absurd h2 hb
        · refine ⟨k - 1, by omega, ?_⟩
          rwa [show i + 1 + (k - 1) = i + k by omega]
      · simp [h2]


theorem pqos_l3ca_set_rejected (fuel : Nat) (w : World) (mem : Mem) (socket num_cos : Nat)
    (ca : Option (Nat → pqos_l3ca)) (h : ca = none ∨ num_cos = 0) :
    run (pqos_l3ca_set fuel socket num_cos ca) w mem = rejected mem := by
  have h2 : ca.isNone = true ∨ num_cos = 0 := by
    rcases h with h | h
    · left; simp [h]
    · right; exact h
  simp only [run, pqos_l3ca_set, ite_apply_M, if_pos h2]
  rfl

theorem pqos_l3ca_set_not_init (fuel : Nat) (w : World) (mem : Mem) (socket num_cos : Nat)
    (tab : Nat → pqos_l3ca) (hn : num_cos ≠ 0) (hinit : w.m_init_done = false) :
    run (pqos_l3ca_set fuel socket num_cos (some tab)) w mem = not_initialised mem := by
  simp only [run, pqos_l3ca_set, bind_apply, pure_apply, ite_apply_M, lock_apply,
    unlock_apply, check_init_apply, Option.some_bind, hinit, hn, Option.isNone_some]
  rfl

theorem pqos_l3ca_set_pass (fuel : Nat) (hf : 65 ≤ fuel) (w : World) (mem : Mem)
    (socket num_cos : Nat) (tab : Nat → pqos_l3ca) (hn : num_cos ≠ 0)
    (hinit : w.m_init_done = true) (hok : ∀ i, i < num_cos → l3ca_entry_ok fuel (tab i)) :
    run (pqos_l3ca_set fuel socket num_cos (some tab)) w mem =
      if w.use_msr = true then dispatched w mem (Call.hw_l3ca_set socket num_cos (some tab))
      else dispatched w mem (Call.os_l3ca_set socket num_cos (some tab)) := by
  have hloop := fun st => pqos_l3ca_set_loop_pass fuel hf tab w st num_cos 0
    (fun k hk => by rw [Nat.zero_add]; exact hok k hk)
  simp only [run, pqos_l3ca_set, bind_apply, pure_apply, ite_apply_M, lock_apply,
    unlock_apply, check_init_apply, use_msr_apply, backend_apply, deref_some, Option.some_bind,
    hinit, hn, Option.isNone_some, hloop]
  cases w.use_msr <;> rfl

theorem pqos_l3ca_set_fail (fuel : Nat) (hf : 65 ≤ fuel) (w : World) (mem : Mem)
    (socket num_cos : Nat) (tab : Nat → pqos_l3ca)
    (hinit : w.m_init_done = true)
    (hbad : ∃ i, i < num_cos ∧ ¬ l3ca_entry_ok fuel (tab i)) :
    ∃ j, j < num_cos ∧ ¬ l3ca_entry_ok fuel (tab j) ∧
      (∀ k, k < j → l3ca_entry_ok fuel (tab k)) ∧
      run (pqos_l3ca_set fuel socket num_cos (some tab)) w mem =
        not_contiguous mem "L3 COS%u bit mask is not contiguous!\n" (tab j).class_id := by
  have hn : num_cos ≠ 0 := by
    obtain ⟨i, hi, _⟩ := hbad; omega
  obtain ⟨j, hj, hjbad, hjpre, hres⟩ := pqos_l3ca_set_loop_fail fuel hf tab w
    { lock_held := true, trace := [Event.lock, Event.check_init 1], mem := mem } num_cos 0
    (by obtain ⟨i, hi, hb⟩ := hbad; exact ⟨i, hi, by rwa [Nat.zero_add]⟩)
  simp only [Nat.zero_add] at hjbad hjpre hres
  refine ⟨j, hj, hjbad, hjpre, ?_⟩
  simp only [run, pqos_l3ca_set, bind_apply, pure_apply, ite_apply_M, lock_apply,
    unlock_apply, check_init_apply, deref_some, Option.some_bind,
    hinit, hn, Option.isNone_some]
  simp only [Bool.false_eq_true, if_false, or_self, List.nil_append, List.singleton_append,
    if_true, PQOS_RETVAL_OK, ne_eq, not_true_eq_false, Option.some_bind]
  rw [hres]
  rfl
theorem pqos_l2ca_set_rejected (fuel : Nat) (w : World) (mem : Mem) (l2id num_cos : Nat)
    (ca : Option (Nat → pqos_l2ca)) (h : ca = none ∨ num_cos = 0) :
    run (pqos_l2ca_set fuel l2id num_cos ca) w mem = rejected mem := by
  have h2 : ca.isNone = true ∨ num_cos = 0 := by
    rcases h with h | h
    · left; simp [h]
    · right; exact h
  simp only [run, pqos_l2ca_set, ite_apply_M, if_pos h2]
  rfl

theorem pqos_l2ca_set_not_init (fuel : Nat) (w : World) (mem : Mem) (l2id num_cos : Nat)
    (tab : Nat → pqos_l2ca) (hn : num_cos ≠ 0) (hinit : w.m_init_done = false) :
    run (pqos_l2ca_set fuel l2id num_cos (some tab)) w mem = not_initialised mem := by
  simp only [run, pqos_l2ca_set, bind_apply, pure_apply, ite_apply_M, lock_apply,
    unlock_apply, check_init_apply, Option.some_bind, hinit, hn, Option.isNone_some]
  rfl

theorem pqos_l2ca_set_pass (fuel : Nat) (hf : 65 ≤ fuel) (w : World) (mem : Mem)
    (l2id num_cos : Nat) (tab : Nat → pqos_l2ca) (hn : num_cos ≠ 0)
    (hinit : w.m_init_done = true) (hok : ∀ i, i < num_cos → l2ca_entry_ok fuel (tab i)) :
    run (pqos_l2ca_set fuel l2id num_cos (some tab)) w mem =
      if w.use_msr = true then dispatched w mem (Call.hw_l2ca_set l2id num_cos (some tab))
      else dispatched w mem (Call.os_l2ca_set l2id num_cos (some tab)) := by
  have hloop := fun st => pqos_l2ca_set_loop_pass fuel hf tab w st num_cos 0
    (fun k hk => by rw [Nat.zero_add]; exact hok k hk)
  simp only [run, pqos_l2ca_set, bind_apply, pure_apply, ite_apply_M, lock_apply,
    unlock_apply, check_init_apply, use_msr_apply, backend_apply, deref_some, Option.some_bind,
    hinit, hn, Option.isNone_some, hloop]
  cases w.use_msr <;> rfl

theorem pqos_l2ca_set_fail (fuel : Nat) (hf : 65 ≤ fuel) (w : World) (mem : Mem)
    (l2id num_cos : Nat) (tab : Nat → pqos_l2ca)
    (hinit : w.m_init_done = true)
    (hbad : ∃ i, i < num_cos ∧ ¬ l2ca_entry_ok fuel (tab i)) :
    ∃ j, j < num_cos ∧ ¬ l2ca_entry_ok fuel (tab j) ∧
      (∀ k, k < j → l2ca_entry_ok fuel (tab k)) ∧
      run (pqos_l2ca_set fuel l2id num_cos (some tab)) w mem =
        not_contiguous mem "L2 COS%u bit mask is not contiguous!\n" (tab j).class_id := by
  have hn : num_cos ≠ 0 := by
    obtain ⟨i, hi, _⟩ := hbad; omega
  obtain ⟨j, hj, hjbad, hjpre, hres⟩ := pqos_l2ca_set_loop_fail fuel hf tab w
    { lock_held := true, trace := [Event.lock, Event.check_init 1], mem := mem } num_cos 0
    (by obtain ⟨i, hi, hb⟩ := hbad; exact ⟨i, hi, by rwa [Nat.zero_add]⟩)
  simp only [Nat.zero_add] at hjbad hjpre hres
  refine ⟨j, hj, hjbad, hjpre, ?_⟩
  simp only [run, pqos_l2ca_set, bind_apply, pure_apply, ite_apply_M, lock_apply,
    unlock_apply, check_init_apply, deref_some, Option.some_bind,
    hinit, hn, Option.isNone_some]
  simp only [Bool.false_eq_true, if_false, or_self, List.nil_append, List.singleton_append,
    if_true, PQOS_RETVAL_OK, ne_eq, not_true_eq_false, Option.some_bind]
  rw [hres]
  rfl

theorem pqos_mon_poll_rejected (w : World) (mem : Mem) (groups : Option (Nat → Ptr))
    (num_groups : Nat) (h : groups = none ∨ num_groups = 0) :
    run (pqos_mon_poll groups num_groups) w mem = rejected mem := by
  have h2 : groups.isNone = true ∨ num_groups = 0 := by
    rcases h with h | h
    · left; simp [h]
    · right; exact h
  simp only [run, pqos_mon_poll, ite_apply_M, if_pos h2]
  rfl

theorem pqos_mon_poll_invalid (w : World) (mem : Mem) (tab : Nat → Ptr) (num_groups : Nat)
    (h : ∃ k, k < num_groups ∧ (tab k = NULL ∨ (mem (tab k)).valid ≠ GROUP_VALID_MARKER)) :
    run (pqos_mon_poll (some tab) num_groups) w mem = rejected mem := by
  have hn : num_groups ≠ 0 := by
    obtain ⟨k, hk, _⟩ := h; omega
  have hloop := pqos_mon_poll_loop_fail tab w
    { lock_held := false, trace := [], mem := mem } num_groups 0
    (by obtain ⟨k, hk, hb⟩ := h; exact ⟨k, hk, by rwa [Nat.zero_add]⟩)
  simp only [run, pqos_mon_poll, bind_apply, pure_apply, ite_apply_M, deref_some,
    Option.some_bind, hn, Option.isNone_some, hloop, Bool.false_eq_true, or_self, if_false,
    ite_self]
  rfl

theorem pqos_mon_poll_valid (w : World) (mem : Mem) (tab : Nat → Ptr) (num_groups : Nat)
    (hn : num_groups ≠ 0)
    (h : ∀ k, k < num_groups → tab k ≠ NULL ∧ (mem (tab k)).valid = GROUP_VALID_MARKER) :
    run (pqos_mon_poll (some tab) num_groups) w mem =
      if w.m_init_done = false then not_initialised mem
      else if w.use_msr = true then dispatched w mem (Call.hw_mon_poll (some tab) num_groups)
      else dispatched w mem (Call.os_mon_poll (some tab) num_groups) := by
  have hloop := pqos_mon_poll_loop_pass tab w
    { lock_held := false, trace := [], mem := mem } num_groups 0
    (fun k hk => by rw [Nat.zero_add]; exact h k hk)
  have h0 : tab 0 ≠ NULL := (h 0 (by omega)).1
  simp only [run, pqos_mon_poll, bind_apply, pure_apply, ite_apply_M, deref_some,
    lock_apply, unlock_apply, check_init_apply, use_msr_apply, backend_apply,
    Option.some_bind, hn, h0, Option.isNone_some, hloop]
  cases w.m_init_done <;> cases w.use_msr <;> rfl

/-! ## Event masks -/

theorem and_lnot32_eq_zero (event u : Nat) (he : event < 2 ^ 32) :
    event &&& lnot32 u = 0 ↔ ∀ i, event.testBit i = true → u.testBit i = true := by
  constructor
  · intro h i hi
    have hlt : i < 32 := by
      by_contra hge
      have : event.testBit i = false :=
        Nat.testBit_eq_false_of_lt (lt_of_lt_of_le he (Nat.pow_le_pow_right (by norm_num) (by omega)))
      rw [this] at hi; exact Bool.false_ne_true hi
    have hb : (event &&& lnot32 u).testBit i = false := by rw [h]; exact Nat.zero_testBit i
    rw [Nat.testBit_and, hi, lnot32, Nat.testBit_xor, Nat.testBit_two_pow_sub_one,
      Nat.testBit_mod_two_pow] at hb
    simp [hlt] at hb
    exact hb
  · intro h
    apply Nat.eq_of_testBit_eq
    intro i
    rw [Nat.zero_testBit, Nat.testBit_and, lnot32, Nat.testBit_xor, Nat.testBit_two_pow_sub_one,
      Nat.testBit_mod_two_pow]
    cases hi : event.testBit i
    · simp
    · have := h i hi
      simp [this]

theorem and_or_eq_zero (x a b : Nat) : x &&& (a ||| b) = 0 ↔ x &&& a = 0 ∧ x &&& b = 0 := by
  constructor
  · intro h
    constructor <;> apply Nat.eq_of_testBit_eq <;> intro i <;>
      have hi : (x &&& (a ||| b)).testBit i = false := (by rw [h]; exact Nat.zero_testBit i) <;>
      simp only [Nat.testBit_and, Nat.testBit_or, Nat.zero_testBit] at hi ⊢ <;>
      cases hx : x.testBit i <;> cases ha : a.testBit i <;> cases hb : b.testBit i <;> simp_all
  · rintro ⟨h1, h2⟩
    apply Nat.eq_of_testBit_eq
    intro i
    have hi1 : (x &&& a).testBit i = false := by rw [h1]; exact Nat.zero_testBit i
    have hi2 : (x &&& b).testBit i = false := by rw [h2]; exact Nat.zero_testBit i
    simp only [Nat.testBit_and, Nat.testBit_or, Nat.zero_testBit] at hi1 hi2 ⊢
    cases hx : x.testBit i <;> cases ha : a.testBit i <;> cases hb : b.testBit i <;> simp_all

theorem event_in_universe_iff (event : Nat) (he : event < 2 ^ 32) :
    event_in_universe event ↔
      event &&& lnot32 (PQOS_MON_EVENT_L3_OCCUP ||| PQOS_MON_EVENT_LMEM_BW |||
        PQOS_MON_EVENT_TMEM_BW ||| PQOS_MON_EVENT_RMEM_BW |||
        PQOS_PERF_EVENT_IPC ||| PQOS_PERF_EVENT_LLC_MISS) = 0 := by
  rw [and_lnot32_eq_zero _ _ he]
  unfold event_in_universe
  simp only [List.mem_cons, List.mem_singleton, exists_eq_or_imp, exists_eq_left,
    Nat.testBit_or, Bool.or_eq_true, List.not_mem_nil, false_and, exists_false, or_false]
  constructor <;> intro h i hi <;> have := h i hi <;> tauto

theorem event_has_primary_iff (event : Nat) :
    event_has_primary event ↔
      event &&& (PQOS_MON_EVENT_L3_OCCUP ||| PQOS_MON_EVENT_LMEM_BW |||
        PQOS_MON_EVENT_TMEM_BW ||| PQOS_MON_EVENT_RMEM_BW) ≠ 0 := by
  unfold event_has_primary
  simp only [ne_eq, and_or_eq_zero, List.mem_cons, List.mem_singleton, exists_eq_or_imp,
    exists_eq_left, List.not_mem_nil, false_and, exists_false, or_false]
  tauto

theorem mon_event_valid_iff (event : Nat) (he : event < 2 ^ 32) :
    (event ≠ 0 ∧ ¬ mon_event_invalid event) ↔ (event_in_universe event ∧ event_has_primary event) := by
  rw [event_in_universe_iff event he, event_has_primary_iff]
  unfold mon_event_invalid
  constructor
  · rintro ⟨h0, h⟩
    push_neg at h
    refine ⟨h.1, ?_⟩
    intro hp
    have ha := h.2 hp
    have hu := h.1
    have hall : ∀ i, event.testBit i = true → False := by
      intro i hi
      have h1 := (and_lnot32_eq_zero _ _ he).1 hu i hi
      have h2 : (event &&& (PQOS_MON_EVENT_L3_OCCUP ||| PQOS_MON_EVENT_LMEM_BW |||
        PQOS_MON_EVENT_TMEM_BW ||| PQOS_MON_EVENT_RMEM_BW)).testBit i = false := by
        rw [hp]; exact Nat.zero_testBit i
      have h3 : (event &&& (PQOS_PERF_EVENT_IPC ||| PQOS_PERF_EVENT_LLC_MISS)).testBit i = false := by
        rw [ha]; exact Nat.zero_testBit i
      simp only [Nat.testBit_and, Nat.testBit_or, hi, Bool.true_and, Bool.or_eq_true,
        Bool.or_eq_false_iff] at h1 h2 h3
      rcases h1 with ((((h1 | h1) | h1) | h1) | h1) | h1 <;> simp_all
    apply h0
    apply Nat.eq_of_testBit_eq
    intro i
    rw [Nat.zero_testBit]
    cases hi : event.testBit i
    · rfl
    · exact (hall i hi).elim
  · rintro ⟨hu, hp⟩
    refine ⟨?_, ?_⟩
    · rintro rfl
      simp at hp
    · push_neg
      exact ⟨hu, fun h => absurd h hp⟩

/-! ## Cache allocation tables -/

/-- C2: on an initialised library, with a non-null table of `num_cos` entries
and enough fuel for `is_contiguous`, if any entry `idx < num_cos` fails the
contiguity check, `pqos_l3ca_set` (and likewise `pqos_l2ca_set`) returns PARAM,
its trace holds no backend operation, hardware or OS, and the group memory is
as before: nothing of the table is applied, whatever precedes the offending
entry. -/
theorem set_noncontiguous_rejected (fuel : Nat) (hf : 65 ≤ fuel) (w : World)
    (hinit : w.m_init_done = true) (mem : Mem) :
    (∀ (socket num_cos : Nat) (tab : Nat → pqos_l3ca) (idx : Nat), idx < num_cos →
      ¬ l3ca_entry_ok fuel (tab idx) →
      ∃ st, run (pqos_l3ca_set fuel socket num_cos (some tab)) w mem =
          some (PQOS_RETVAL_PARAM, st) ∧
        st.trace.any Event.is_call = false ∧ st.mem = mem) ∧
    (∀ (l2id num_cos : Nat) (tab : Nat → pqos_l2ca) (idx : Nat), idx < num_cos →
      ¬ l2ca_entry_ok fuel (tab idx) →
      ∃ st, run (pqos_l2ca_set fuel l2id num_cos (some tab)) w mem =
          some (PQOS_RETVAL_PARAM, st) ∧
        st.trace.any Event.is_call = false ∧ st.mem = mem) := by
  constructor
  · intro socket num_cos tab idx hidx hbad
    obtain ⟨j, _, _, _, hres⟩ :=
      pqos_l3ca_set_fail fuel hf w mem socket num_cos tab hinit ⟨idx, hidx, hbad⟩
    exact ⟨_, hres, rfl, rfl⟩
  · intro l2id num_cos tab idx hidx hbad
    obtain ⟨j, _, _, _, hres⟩ :=
      pqos_l2ca_set_fail fuel hf w mem l2id num_cos tab hinit ⟨idx, hidx, hbad⟩
    exact ⟨_, hres, rfl, rfl⟩

/-- Instance of C2: tables of three entries whose entry 1 has the mask `0b1010`. -/
theorem set_noncontiguous_rejected_witness :
    (∃ st, run (pqos_l3ca_set 65 0 3 (some example_l3_table)) example_world example_mem =
        some (PQOS_RETVAL_PARAM, st) ∧
      st.trace.any Event.is_call = false ∧ st.mem = example_mem) ∧
    (∃ st, run (pqos_l2ca_set 65 0 3 (some example_l2_table)) example_world example_mem =
        some (PQOS_RETVAL_PARAM, st) ∧
      st.trace.any Event.is_call = false ∧ st.mem = example_mem) :=
  ⟨(set_noncontiguous_rejected 65 (by decide) example_world rfl example_mem).1
      0 3 example_l3_table 1 (by decide) (by decide),
   (set_noncontiguous_rejected 65 (by decide) example_world rfl example_mem).2
      0 3 example_l2_table 1 (by decide) (by decide)⟩

/-- C3: on an initialised library, with a non-null table of `num_cos ≥ 1`
entries, `pqos_l3ca_set` returns, and a backend operation is in its trace if
and only if every entry passes the contiguity check: with the CDP flag set,
both the code mask and the data mask are contiguous; without it, the ways mask
is contiguous. -/
theorem l3ca_set_backend_iff (fuel : Nat) (hf : 65 ≤ fuel) (w : World)
    (hinit : w.m_init_done = true) (mem : Mem) (socket num_cos : Nat)
    (tab : Nat → pqos_l3ca) (hn : 1 ≤ num_cos) :
    ∃ r st, run (pqos_l3ca_set fuel socket num_cos (some tab)) w mem = some (r, st) ∧
      (st.trace.any Event.is_call = true ↔
        ∀ i, i < num_cos →
          if (tab i).cdp ≠ 0 then
            is_contiguous fuel (tab i).u.s.code_mask = some 1 ∧
              is_contiguous fuel (tab i).u.s.data_mask = some 1
          else is_contiguous fuel (tab i).u.ways_mask = some 1) := by
  by_cases hall : ∀ i, i < num_cos → l3ca_entry_ok fuel (tab i)
  · have hres := pqos_l3ca_set_pass fuel hf w mem socket num_cos tab (by omega) hinit hall
    cases hu : w.use_msr <;> rw [hu] at hres
    · exact ⟨_, _, hres, iff_of_true rfl hall⟩
    · exact ⟨_, _, hres, iff_of_true rfl hall⟩
  · have hbad : ∃ i, i < num_cos ∧ ¬ l3ca_entry_ok fuel (tab i) := by
      push_neg at hall; exact hall
    obtain ⟨j, _, _, _, hres⟩ := pqos_l3ca_set_fail fuel hf w mem socket num_cos tab hinit hbad
    refine ⟨_, _, hres, iff_of_false ?_ hall⟩
    simp [not_contiguous, Event.is_call]

/-- Instance of C3 at a table of one entry. -/
theorem l3ca_set_backend_iff_witness :
    ∃ r st, run (pqos_l3ca_set 65 0 1 (some example_l3_table)) example_world example_mem =
        some (r, st) ∧
      (st.trace.any Event.is_call = true ↔
        ∀ i, i < 1 →
          if (example_l3_table i).cdp ≠ 0 then
            is_contiguous 65 (example_l3_table i).u.s.code_mask = some 1 ∧
              is_contiguous 65 (example_l3_table i).u.s.data_mask = some 1
          else is_contiguous 65 (example_l3_table i).u.ways_mask = some 1) :=
  l3ca_set_backend_iff 65 (by decide) example_world rfl example_mem 0 1 example_l3_table
    (by decide)

/-- C4: for `pqos_mon_start` with a non-null group that is not Active, a
non-null core array and `num_cores ≥ 1`, and a 32-bit event mask: the call goes
on to the gate (lock, initialisation check, dispatch) exactly when the mask has
no bit outside the six known flags and has a primary flag; every other mask is
rejected with PARAM before anything is done.  So LLC-miss alone and the empty
mask are rejected, occupancy alone passes and occupancy with LLC-miss passes. -/
theorem mon_start_event_validation (w : World) (mem : Mem) (num_cores : Nat) (cores : Ptr)
    (event : Nat) (context group : Ptr) (hevent : event < 2 ^ 32) (hgroup : group ≠ NULL)
    (hvalid : (mem group).valid ≠ GROUP_VALID_MARKER) (hcores : cores ≠ NULL)
    (hnum : 1 ≤ num_cores) :
    (event_in_universe event ∧ event_has_primary event →
      run (pqos_mon_start num_cores cores event context group) w mem =
        if w.m_init_done = false then not_initialised mem
        else if w.use_msr = true then
          dispatched w mem (Call.hw_mon_start num_cores cores event context group)
        else dispatched w mem (Call.os_mon_start num_cores cores event context group)) ∧
    (¬ (event_in_universe event ∧ event_has_primary event) →
      run (pqos_mon_start num_cores cores event context group) w mem =
        some (PQOS_RETVAL_PARAM, { lock_held := false, trace := [], mem := mem })) ∧
    run (pqos_mon_start num_cores cores PQOS_PERF_EVENT_LLC_MISS context group) w mem =
      some (PQOS_RETVAL_PARAM, { lock_held := false, trace := [], mem := mem }) ∧
    run (pqos_mon_start num_cores cores 0 context group) w mem =
      some (PQOS_RETVAL_PARAM, { lock_held := false, trace := [], mem := mem }) ∧
    (∃ r st, run (pqos_mon_start num_cores cores PQOS_MON_EVENT_L3_OCCUP context group) w mem =
      some (r, st) ∧ st.trace.head? = some Event.lock) ∧
    (∃ r st, run (pqos_mon_start num_cores cores
        (PQOS_MON_EVENT_L3_OCCUP ||| PQOS_PERF_EVENT_LLC_MISS) context group) w mem =
      some (r, st) ∧ st.trace.head? = some Event.lock) := by
  have hshape : ∀ ev : Nat, ev ≠ 0 →
      ¬ (group = NULL ∨ cores = NULL ∨ num_cores = 0 ∨ ev = 0) := by
    intro ev hev
    rintro (h | h | h | h)
    · exact hgroup h
    · exact hcores h
    · omega
    · exact hev h
  have hgate : ∀ ev : Nat, ev ≠ 0 → ¬ mon_event_invalid ev →
      ∃ r st, run (pqos_mon_start num_cores cores ev context group) w mem = some (r, st) ∧
        st.trace.head? = some Event.lock := by
    intro ev hev hok
    rw [pqos_mon_start_eval, if_neg (hshape ev hev), if_neg hvalid, if_neg hok]
    cases w.m_init_done <;> cases w.use_msr <;> exact ⟨_, _, rfl, rfl⟩
  refine ⟨?_, ?_, ?_, ?_, hgate _ (by decide) (by decide), hgate _ (by decide) (by decide)⟩
  · intro h
    obtain ⟨h0, hok⟩ := (mon_event_valid_iff event hevent).2 h
    rw [pqos_mon_start_eval, if_neg (hshape event h0), if_neg hvalid, if_neg hok]
  · intro h
    rw [← mon_event_valid_iff event hevent] at h
    rw [pqos_mon_start_eval]
    by_cases h0 : event = 0
    · rw [if_pos (Or.inr (Or.inr (Or.inr h0)))]; rfl
    · have hinv : mon_event_invalid event := by
        by_contra hc
        exact h ⟨h0, hc⟩
      rw [if_neg (hshape event h0), if_neg hvalid, if_pos hinv]; rfl
  · rw [pqos_mon_start_eval, if_neg (hshape _ (by decide)), if_neg hvalid,
      if_pos (by decide)]; rfl
  · rw [pqos_mon_start_eval, if_pos (Or.inr (Or.inr (Or.inr rfl)))]; rfl

/-- Instance of C4: occupancy alone, on a group that is not Active. -/
theorem mon_start_event_validation_witness :
    run (pqos_mon_start 1 1 PQOS_MON_EVENT_L3_OCCUP 0 2) example_world example_mem =
      dispatched example_world example_mem
        (Call.hw_mon_start 1 1 PQOS_MON_EVENT_L3_OCCUP 0 2) :=
  (mon_start_event_validation example_world example_mem 1 1 PQOS_MON_EVENT_L3_OCCUP 0 2
    (by decide) (by decide) (by decide) (by decide) (by decide)).1
    ((mon_event_valid_iff PQOS_MON_EVENT_L3_OCCUP (by decide)).1 ⟨by decide, by decide⟩)

/-- C5: for every state of the collaborators (initialised or not, either
selector answer): `pqos_mon_stop` on a group whose marker is not the sentinel,
and `pqos_mon_poll` on a batch with such a group among its `num_groups`
members, return PARAM; `pqos_mon_start` and `pqos_mon_start_pid` on a group
whose marker is the sentinel return PARAM, whatever the other arguments.  In
each case the trace is empty (no lock, no backend) and the memory is as
before. -/
theorem lifecycle_guard (w : World) (mem : Mem) :
    (∀ group : Ptr, (mem group).valid ≠ GROUP_VALID_MARKER →
      run (pqos_mon_stop group) w mem =
        some (PQOS_RETVAL_PARAM, { lock_held := false, trace := [], mem := mem })) ∧
    (∀ (groups : Nat → Ptr) (num_groups k : Nat), k < num_groups →
      (mem (groups k)).valid ≠ GROUP_VALID_MARKER →
      run (pqos_mon_poll (some groups) num_groups) w mem =
        some (PQOS_RETVAL_PARAM, { lock_held := false, trace := [], mem := mem })) ∧
    (∀ (group : Ptr) (num_cores : Nat) (cores : Ptr) (event : Nat) (context : Ptr),
      (mem group).valid = GROUP_VALID_MARKER →
      run (pqos_mon_start num_cores cores event context group) w mem =
        some (PQOS_RETVAL_PARAM, { lock_held := false, trace := [], mem := mem })) ∧
    (∀ (group : Ptr) (pid : Int) (event : Nat) (context : Ptr),
      (mem group).valid = GROUP_VALID_MARKER →
      run (pqos_mon_start_pid pid event context group) w mem =
        some (PQOS_RETVAL_PARAM, { lock_held := false, trace := [], mem := mem })) := by
  refine ⟨?_, ?_, ?_, ?_⟩
  · intro group h
    rw [pqos_mon_stop_eval]
    split <;> rfl
  · intro groups num_groups k hk h
    exact pqos_mon_poll_invalid w mem groups num_groups ⟨k, hk, Or.inr h⟩
  · intro group num_cores cores event context h
    rw [pqos_mon_start_eval]
    split <;> rfl
  · intro group pid event context h
    rw [pqos_mon_start_pid_eval]
    split <;> rfl

/-- Instance of C5 on the example memory, where the group at 2 is not Active
and the group at 1 is. -/
theorem lifecycle_guard_witness :
    run (pqos_mon_stop 2) example_world example_mem =
        some (PQOS_RETVAL_PARAM, { lock_held := false, trace := [], mem := example_mem }) ∧
    run (pqos_mon_poll (some example_batch) 3) example_world example_mem =
        some (PQOS_RETVAL_PARAM, { lock_held := false, trace := [], mem := example_mem }) ∧
    run (pqos_mon_start 1 1 PQOS_MON_EVENT_L3_OCCUP 0 1) example_world example_mem =
        some (PQOS_RETVAL_PARAM, { lock_held := false, trace := [], mem := example_mem }) ∧
    run (pqos_mon_start_pid 7 PQOS_MON_EVENT_L3_OCCUP 0 1) example_world example_mem =
        some (PQOS_RETVAL_PARAM, { lock_held := false, trace := [], mem := example_mem }) :=
  ⟨(lifecycle_guard example_world example_mem).1 2 (by decide),
   (lifecycle_guard example_world example_mem).2.1 example_batch 3 1 (by decide) (by decide),
   (lifecycle_guard example_world example_mem).2.2.1 1 1 1 PQOS_MON_EVENT_L3_OCCUP 0
     (by decide),
   (lifecycle_guard example_world example_mem).2.2.2 1 7 PQOS_MON_EVENT_L3_OCCUP 0
     (by decide)⟩

/-- C6: for a non-null array of `num_groups` group references, if the element
at some index `k < num_groups` is null or refers to a group that is not Active,
`pqos_mon_poll` returns PARAM, its trace holds no backend operation and no
acquisition of the lock, the lock is free and the memory of all groups is as
before. -/
theorem mon_poll_batch_atomic (w : World) (mem : Mem) (groups : Nat → Ptr)
    (num_groups k : Nat) (hk : k < num_groups)
    (hbad : groups k = NULL ∨ (mem (groups k)).valid ≠ GROUP_VALID_MARKER) :
    ∃ st, run (pqos_mon_poll (some groups) num_groups) w mem = some (PQOS_RETVAL_PARAM, st) ∧
      st.trace.any Event.is_call = false ∧ st.trace.any Event.is_lock = false ∧
      st.lock_held = false ∧ st.mem = mem :=
  ⟨_, pqos_mon_poll_invalid w mem groups num_groups ⟨k, hk, hbad⟩, rfl, rfl, rfl, rfl⟩

/-- Instance of C6: a batch of three groups whose second member is not Active. -/
theorem mon_poll_batch_atomic_witness :
    ∃ st, run (pqos_mon_poll (some example_batch) 3) example_world example_mem =
        some (PQOS_RETVAL_PARAM, st) ∧
      st.trace.any Event.is_call = false ∧ st.trace.any Event.is_lock = false ∧
      st.lock_held = false ∧ st.mem = example_mem :=
  mon_poll_batch_atomic example_world example_mem example_batch 3 1 (by decide)
    (Or.inr (by decide))

/-! ## The gate -/

theorem rejected_is_rejected_with_log (mem : Mem) : rejected_with_log mem (rejected mem) :=
  ⟨[], rfl, rfl⟩

theorem exec_rejected (fuel : Nat) (req : Request) (w : World) (mem : Mem)
    (h : req.rejected_before_gate mem) :
    rejected_with_log mem (run (req.exec fuel) w mem) := by
  cases req with
  | alloc_assoc_set a b => exact h.elim
  | alloc_assoc_get a b => exact h.elim
  | alloc_assign a b c d =>
    simp only [Request.exec, pqos_alloc_assign_eval]
    rw [if_pos (by exact h)]; exact rejected_is_rejected_with_log mem
  | alloc_release a b =>
    simp only [Request.exec, pqos_alloc_release_eval]
    rw [if_pos (by exact h)]; exact rejected_is_rejected_with_log mem
  | alloc_reset a =>
    simp only [Request.exec, pqos_alloc_reset_eval]
    rw [if_pos (by exact h)]; exact ⟨[Event.log_error _ _], rfl, rfl⟩
  | l3ca_set a b c =>
    simp only [Request.exec]
    rw [pqos_l3ca_set_rejected fuel w mem a b c h]; exact rejected_is_rejected_with_log mem
  | l3ca_get a b c d =>
    simp only [Request.exec, pqos_l3ca_get_eval]
    rw [if_pos (by exact h)]; exact rejected_is_rejected_with_log mem
  | l2ca_set a b c =>
    simp only [Request.exec]
    rw [pqos_l2ca_set_rejected fuel w mem a b c h]; exact rejected_is_rejected_with_log mem
  | l2ca_get a b c d =>
    simp only [Request.exec, pqos_l2ca_get_eval]
    rw [if_pos (by exact h)]; exact rejected_is_rejected_with_log mem
  | mba_set a b c d => exact h.elim
  | mba_get a b c d => exact h.elim
  | mon_reset => exact h.elim
  | mon_assoc_get a b => exact h.elim
  | mon_start a b c d e =>
    simp only [Request.exec, pqos_mon_start_eval]
    rcases h with h | h | h
    · rw [if_pos h]; exact rejected_is_rejected_with_log mem
    · simp only [if_pos h, ite_self]; exact rejected_is_rejected_with_log mem
    · simp only [if_pos h, ite_self]; exact rejected_is_rejected_with_log mem
  | mon_stop a =>
    simp only [Request.exec, pqos_mon_stop_eval]
    rcases h with h | h
    · rw [if_pos h]; exact rejected_is_rejected_with_log mem
    · simp only [if_pos h, ite_self]; exact rejected_is_rejected_with_log mem
  | mon_poll groups n =>
    simp only [Request.exec]
    cases groups with
    | none =>
      rw [pqos_mon_poll_rejected w mem none n (Or.inl rfl)]
      exact rejected_is_rejected_with_log mem
    | some tab =>
      rcases h with h | h
      · rw [pqos_mon_poll_rejected w mem (some tab) n (Or.inr h)]
        exact rejected_is_rejected_with_log mem
      · rw [pqos_mon_poll_invalid w mem tab n h]
        exact rejected_is_rejected_with_log mem
  | mon_start_pid a b c d =>
    simp only [Request.exec, pqos_mon_start_pid_eval]
    rcases h with h | h | h
    · rw [if_pos h]; exact rejected_is_rejected_with_log mem
    · simp only [if_pos h, ite_self]; exact rejected_is_rejected_with_log mem
    · simp only [if_pos h, ite_self]; exact rejected_is_rejected_with_log mem

theorem exec_not_init (fuel : Nat) (req : Request) (w : World) (mem : Mem)
    (hinit : w.m_init_done = false) (h : ¬ req.rejected_before_gate mem) :
    run (req.exec fuel) w mem = not_initialised mem := by
  cases req with
  | alloc_assoc_set a b => simp only [Request.exec, pqos_alloc_assoc_set_eval, hinit, if_true]
  | alloc_assoc_get a b => simp only [Request.exec, pqos_alloc_assoc_get_eval, hinit, if_true]
  | alloc_assign a b c d =>
    simp only [Request.exec, pqos_alloc_assign_eval, hinit, if_true]
    rw [if_neg (by exact h)]
  | alloc_release a b =>
    simp only [Request.exec, pqos_alloc_release_eval, hinit, if_true]
    rw [if_neg (by exact h)]
  | alloc_reset a =>
    simp only [Request.exec, pqos_alloc_reset_eval, hinit, if_true]
    rw [if_neg (by exact h)]
  | l3ca_set a b c =>
    simp only [Request.exec]
    cases c with
    | none => exact (h (Or.inl rfl)).elim
    | some tab =>
      exact pqos_l3ca_set_not_init fuel w mem a b tab (fun hb => h (Or.inr hb)) hinit
  | l3ca_get a b c d =>
    simp only [Request.exec, pqos_l3ca_get_eval, hinit, if_true]
    rw [if_neg (by exact h)]
  | l2ca_set a b c =>
    simp only [Request.exec]
    cases c with
    | none => exact (h (Or.inl rfl)).elim
    | some tab =>
      exact pqos_l2ca_set_not_init fuel w mem a b tab (fun hb => h (Or.inr hb)) hinit
  | l2ca_get a b c d =>
    simp only [Request.exec, pqos_l2ca_get_eval, hinit, if_true]
    rw [if_neg (by exact h)]
  | mba_set a b c d => simp only [Request.exec, pqos_mba_set_eval, hinit, if_true]
  | mba_get a b c d => simp only [Request.exec, pqos_mba_get_eval, hinit, if_true]
  | mon_reset => simp only [Request.exec, pqos_mon_reset_eval, hinit, if_true]
  | mon_assoc_get a b => simp only [Request.exec, pqos_mon_assoc_get_eval, hinit, if_true]
  | mon_start a b c d e =>
    simp only [Request.exec, pqos_mon_start_eval, hinit, if_true]
    rw [if_neg (fun hb => h (Or.inl hb)), if_neg (fun hb => h (Or.inr (Or.inl hb))),
      if_neg (fun hb => h (Or.inr (Or.inr hb)))]
  | mon_stop a =>
    simp only [Request.exec, pqos_mon_stop_eval, hinit, if_true]
    rw [if_neg (fun hb => h (Or.inl hb)), if_neg (fun hb => h (Or.inr hb))]
  | mon_poll groups n =>
    simp only [Request.exec]
    cases groups with
    | none => exact (h trivial).elim
    | some tab =>
      have hn : n ≠ 0 := fun hb => h (Or.inl hb)
      have hall : ∀ k, k < n → tab k ≠ NULL ∧ (mem (tab k)).valid = GROUP_VALID_MARKER := by
        intro k hk
        by_contra hc
        apply h
        right
        refine ⟨k, hk, ?_⟩
        by_cases h1 : tab k = NULL
        · exact Or.inl h1
        · exact Or.inr (fun h2 => hc ⟨h1, h2⟩)
      rw [pqos_mon_poll_valid w mem tab n hn hall, if_pos hinit]
  | mon_start_pid a b c d =>
    simp only [Request.exec, pqos_mon_start_pid_eval, hinit, if_true]
    rw [if_neg (fun hb => h (Or.inl hb)), if_neg (fun hb => h (Or.inr (Or.inl hb))),
      if_neg (fun hb => h (Or.inr (Or.inr hb)))]

theorem lock_balanced_rejected (mem : Mem) : lock_balanced (rejected mem) :=
  ⟨_, _, rfl, rfl, rfl⟩

theorem lock_balanced_not_initialised (mem : Mem) : lock_balanced (not_initialised mem) :=
  ⟨_, _, rfl, rfl, rfl⟩

theorem lock_balanced_dispatched (w : World) (mem : Mem) (c : Call) :
    lock_balanced (dispatched w mem c) :=
  ⟨_, _, rfl, rfl, rfl⟩

theorem lock_balanced_forwarded (w : World) (mem : Mem) (c : Call) :
    lock_balanced (forwarded w mem c) :=
  ⟨_, _, rfl, rfl, rfl⟩

theorem lock_balanced_not_contiguous (mem : Mem) (msg : String) (class_id : Nat) :
    lock_balanced (not_contiguous mem msg class_id) :=
  ⟨_, _, rfl, rfl, rfl⟩

theorem lock_balanced_pid_dispatched (w : World) (m1 : Mem) (c : Call) (group : Ptr) :
    lock_balanced (pid_dispatched w m1 c group) := by
  unfold pid_dispatched
  split <;> exact ⟨_, _, rfl, rfl, rfl⟩

theorem lock_balanced_select (w : World) (mem : Mem) (c1 c2 : Call) :
    lock_balanced (if w.m_init_done = false then not_initialised mem
      else if w.use_msr = true then dispatched w mem c1 else dispatched w mem c2) := by
  split
  · exact lock_balanced_not_initialised mem
  · split <;> exact lock_balanced_dispatched w mem _

theorem lock_balanced_forward (w : World) (mem : Mem) (c : Call) :
    lock_balanced (if w.m_init_done = false then not_initialised mem
      else forwarded w mem c) := by
  split
  · exact lock_balanced_not_initialised mem
  · exact lock_balanced_forwarded w mem c

theorem lock_balanced_of_rejected (mem : Mem) (o : Option (Int × St))
    (h : rejected_with_log mem o) : lock_balanced o := by
  obtain ⟨t, hlog, rfl⟩ := h
  refine ⟨_, _, rfl, rfl, ?_⟩
  have hzero : ∀ (p : Event → Bool), (∀ e, e.is_log = true → p e = false) →
      t.countP p = 0 := by
    intro p hp
    rw [List.countP_eq_zero]
    intro e he
    rw [List.all_eq_true] at hlog
    rw [hp e (hlog e he)]
    exact Bool.false_ne_true
  show t.countP Event.is_lock = t.countP Event.is_unlock
  rw [hzero _ (fun e he => by cases e <;> first | rfl | exact (Bool.false_ne_true he).elim),
    hzero _ (fun e he => by cases e <;> first | rfl | exact (Bool.false_ne_true he).elim)]

/-- Every call returns with the lock free and as many releases as acquisitions,
unless it is a `pqos_mon_start_pid` on the hardware path of a build that
defines `PQOS_NO_PID_API`. -/
theorem lock_released_unless_pid_not_built (fuel : Nat) (hf : 65 ≤ fuel) (req : Request)
    (w : World) (mem : Mem)
    (h : w.no_pid_api = false ∨ w.use_msr = false ∨
      ∀ pid event context group, req ≠ Request.mon_start_pid pid event context group) :
    lock_balanced (run (req.exec fuel) w mem) := by
  by_cases hrej : req.rejected_before_gate mem
  · exact lock_balanced_of_rejected mem _ (exec_rejected fuel req w mem hrej)
  cases hinit : w.m_init_done
  · rw [exec_not_init fuel req w mem hinit hrej]
    exact lock_balanced_not_initialised mem
  cases req with
  | alloc_assoc_set a b =>
    simp only [Request.exec, pqos_alloc_assoc_set_eval]; exact lock_balanced_select w mem _ _
  | alloc_assoc_get a b =>
    simp only [Request.exec, pqos_alloc_assoc_get_eval]; exact lock_balanced_select w mem _ _
  | alloc_assign a b c d =>
    simp only [Request.exec, pqos_alloc_assign_eval]
    rw [if_neg (by exact hrej)]; exact lock_balanced_select w mem _ _
  | alloc_release a b =>
    simp only [Request.exec, pqos_alloc_release_eval]
    rw [if_neg (by exact hrej)]; exact lock_balanced_select w mem _ _
  | alloc_reset a =>
    simp only [Request.exec, pqos_alloc_reset_eval]
    rw [if_neg (by exact hrej)]; exact lock_balanced_select w mem _ _
  | l3ca_set a b c =>
    simp only [Request.exec]
    cases c with
    | none => exact (hrej (Or.inl rfl)).elim
    | some tab =>
      by_cases hall : ∀ i, i < b → l3ca_entry_ok fuel (tab i)
      · rw [pqos_l3ca_set_pass fuel hf w mem a b tab (fun hb => hrej (Or.inr hb)) hinit hall]
        split <;> exact lock_balanced_dispatched w mem _
      · have hbad : ∃ i, i < b ∧ ¬ l3ca_entry_ok fuel (tab i) := by
          push_neg at hall; exact hall
        obtain ⟨j, _, _, _, hres⟩ := pqos_l3ca_set_fail fuel hf w mem a b tab hinit hbad
        rw [hres]; exact lock_balanced_not_contiguous mem _ _
  | l3ca_get a b c d =>
    simp only [Request.exec, pqos_l3ca_get_eval]
    rw [if_neg (by exact hrej)]; exact lock_balanced_select w mem _ _
  | l2ca_set a b c =>
    simp only [Request.exec]
    cases c with
    | none => exact (hrej (Or.inl rfl)).elim
    | some tab =>
      by_cases hall : ∀ i, i < b → l2ca_entry_ok fuel (tab i)
      · rw [pqos_l2ca_set_pass fuel hf w mem a b tab (fun hb => hrej (Or.inr hb)) hinit hall]
        split <;> exact lock_balanced_dispatched w mem _
      · have hbad : ∃ i, i < b ∧ ¬ l2ca_entry_ok fuel (tab i) := by
          push_neg at hall; exact hall
        obtain ⟨j, _, _, _, hres⟩ := pqos_l2ca_set_fail fuel hf w mem a b tab hinit hbad
        rw [hres]; exact lock_balanced_not_contiguous mem _ _
  | l2ca_get a b c d =>
    simp only [Request.exec, pqos_l2ca_get_eval]
    rw [if_neg (by exact hrej)]; exact lock_balanced_select w mem _ _
  | mba_set a b c d =>
    simp only [Request.exec, pqos_mba_set_eval]; exact lock_balanced_forward w mem _
  | mba_get a b c d =>
    simp only [Request.exec, pqos_mba_get_eval]; exact lock_balanced_forward w mem _
  | mon_reset =>
    simp only [Request.exec, pqos_mon_reset_eval]; exact lock_balanced_forward w mem _
  | mon_assoc_get a b =>
    simp only [Request.exec, pqos_mon_assoc_get_eval]; exact lock_balanced_forward w mem _
  | mon_start a b c d e =>
    simp only [Request.exec, pqos_mon_start_eval]
    rw [if_neg (fun hb => hrej (Or.inl hb)), if_neg (fun hb => hrej (Or.inr (Or.inl hb))),
      if_neg (fun hb => hrej (Or.inr (Or.inr hb)))]
    exact lock_balanced_select w mem _ _
  | mon_stop a =>
    simp only [Request.exec, pqos_mon_stop_eval]
    rw [if_neg (fun hb => hrej (Or.inl hb)), if_neg (fun hb => hrej (Or.inr hb))]
    exact lock_balanced_select w mem _ _
  | mon_poll groups n =>
    simp only [Request.exec]
    cases groups with
    | none => exact (hrej trivial).elim
    | some tab =>
      have hn : n ≠ 0 := fun hb => hrej (Or.inl hb)
      have hall : ∀ k, k < n → tab k ≠ NULL ∧ (mem (tab k)).valid = GROUP_VALID_MARKER := by
        intro k hk
        by_contra hc
        apply hrej
        right
        refine ⟨k, hk, ?_⟩
        by_cases h1 : tab k = NULL
        · exact Or.inl h1
        · exact Or.inr (fun h2 => hc ⟨h1, h2⟩)
      rw [pqos_mon_poll_valid w mem tab n hn hall]
      exact lock_balanced_select w mem _ _
  | mon_start_pid a b c d =>
    simp only [Request.exec, pqos_mon_start_pid_eval]
    rw [if_neg (fun hb => hrej (Or.inl hb)), if_neg (fun hb => hrej (Or.inr (Or.inl hb))),
      if_neg (fun hb => hrej (Or.inr (Or.inr hb))), hinit]
    simp only [Bool.true_eq_false, if_false]
    split
    · rename_i hu
      split
      · rename_i hp
        rcases h with h | h | h
        · rw [h] at hp; exact (Bool.false_ne_true hp).elim
        · rw [h] at hu; exact (Bool.false_ne_true hu).elim
        · exact (h a b c d rfl).elim
      · exact lock_balanced_pid_dispatched w _ _ _
    · exact lock_balanced_pid_dispatched w _ _ _

/-- C7 (evaluation at the failing input): in a build that defines
`PQOS_NO_PID_API`, on an initialised library with the hardware backend
selected, `pqos_mon_start_pid` with valid arguments returns ERROR while the
lock is still held: its trace has the acquisition, the check, the selector
query and the diagnostic, and no release. -/
theorem mon_start_pid_lock_leak :
    run (pqos_mon_start_pid 7 PQOS_MON_EVENT_L3_OCCUP 0 2) example_no_pid_world example_mem =
      some (PQOS_RETVAL_ERROR,
        { lock_held := true,
          trace := [Event.lock, Event.check_init 1, Event.use_msr,
            Event.log_error "PID monitoring API not built\n" []],
          mem := pid_prepared example_mem 7 PQOS_MON_EVENT_L3_OCCUP 0 2 }) ∧
    [Event.lock, Event.check_init 1, Event.use_msr,
      Event.log_error "PID monitoring API not built\n" []].countP Event.is_unlock = 0 := by
  constructor
  · rw [pqos_mon_start_pid_eval]; rfl
  · rfl

/-- C8 fails as stated: on a library that is not initialised,
`pqos_alloc_assign` with a zero technology, a null core array, no cores and a
null class-id slot returns PARAM, which is not the INIT error. -/
theorem not_initialised_param_counterexample :
    example_uninit_world.m_init_done = false ∧
    run ((Request.alloc_assign 0 NULL 0 NULL).exec 65) example_uninit_world example_mem =
      some (PQOS_RETVAL_PARAM, { lock_held := false, trace := [], mem := example_mem }) ∧
    PQOS_RETVAL_PARAM ≠ PQOS_RETVAL_INIT :=
  ⟨rfl, rfl, by decide⟩

/-- C8, amended: on a library that is not initialised, every exported
operation returns the INIT error for every choice of arguments that passes the
operation's own validation before the gate, and PARAM for the arguments that
fail it. -/
theorem not_initialised_returns_init (fuel : Nat) (req : Request) (w : World) (mem : Mem)
    (hinit : w.m_init_done = false) :
    (¬ req.rejected_before_gate mem →
      ∃ st, run (req.exec fuel) w mem = some (PQOS_RETVAL_INIT, st)) ∧
    (req.rejected_before_gate mem →
      ∃ st, run (req.exec fuel) w mem = some (PQOS_RETVAL_PARAM, st)) := by
  constructor
  · intro h
    exact ⟨_, exec_not_init fuel req w mem hinit h⟩
  · intro h
    obtain ⟨t, _, ht⟩ := exec_rejected fuel req w mem h
    exact ⟨_, ht⟩

/-- Instance of amended C8: `pqos_alloc_assign` with valid arguments. -/
theorem not_initialised_returns_init_witness :
    ∃ st, run ((Request.alloc_assign 1 1 1 1).exec 65) example_uninit_world example_mem =
      some (PQOS_RETVAL_INIT, st) :=
  (not_initialised_returns_init 65 (Request.alloc_assign 1 1 1 1) example_uninit_world
    example_mem rfl).1
    (by simp [Request.rejected_before_gate, NULL])

/-- C9: on a library that is not initialised, every exported operation, for
every choice of its arguments, returns with no backend operation (hardware, OS
or process-id) and no query of the selector in its trace and with the group
memory as before; its trace is either lock, initialisation check, unlock, so
that nothing but the release follows the check, or has no initialisation check
at all (the call was rejected before the gate). -/
theorem not_initialised_no_backend (fuel : Nat) (req : Request) (w : World) (mem : Mem)
    (hinit : w.m_init_done = false) :
    ∃ r st, run (req.exec fuel) w mem = some (r, st) ∧
      st.trace.any Event.is_call = false ∧ st.trace.any Event.is_use_msr = false ∧
      st.mem = mem ∧
      (st.trace = [Event.lock, Event.check_init 1, Event.unlock] ∨
        st.trace.any Event.is_check_init = false) := by
  by_cases h : req.rejected_before_gate mem
  · obtain ⟨t, hlog, ht⟩ := exec_rejected fuel req w mem h
    have hnone : ∀ (p : Event → Bool), (∀ e, e.is_log = true → p e = false) →
        t.any p = false := by
      intro p hp
      rw [List.any_eq_false]
      intro e he
      rw [List.all_eq_true] at hlog
      rw [hp e (hlog e he)]
      exact Bool.false_ne_true
    refine ⟨_, _, ht, ?_, ?_, rfl, Or.inr ?_⟩
    · exact hnone _ (fun e he => by cases e <;> first | rfl | exact (Bool.false_ne_true he).elim)
    · exact hnone _ (fun e he => by cases e <;> first | rfl | exact (Bool.false_ne_true he).elim)
    · exact hnone _ (fun e he => by cases e <;> first | rfl | exact (Bool.false_ne_true he).elim)
  · exact ⟨_, _, exec_not_init fuel req w mem hinit h, rfl, rfl, rfl, Or.inl rfl⟩

/-- Instance of C9: `pqos_mon_start_pid` with valid arguments. -/
theorem not_initialised_no_backend_witness :
    ∃ r st, run ((Request.mon_start_pid 7 PQOS_MON_EVENT_L3_OCCUP 0 2).exec 65)
        example_uninit_world example_mem = some (r, st) ∧
      st.trace.any Event.is_call = false ∧ st.trace.any Event.is_use_msr = false ∧
      st.mem = example_mem ∧
      (st.trace = [Event.lock, Event.check_init 1, Event.unlock] ∨
        st.trace.any Event.is_check_init = false) :=
  not_initialised_no_backend 65 (Request.mon_start_pid 7 PQOS_MON_EVENT_L3_OCCUP 0 2)
    example_uninit_world example_mem rfl

/-- C10: on an initialised library, for every argument value and either
answer of the selector, `pqos_mba_set` (and likewise `pqos_mba_get`) returns
what `hw_mba_set` (`hw_mba_get`) returns; its trace is lock, check, that one
hardware operation with the caller's arguments, unlock: one backend operation,
one of the hardware backend, none of the OS backend. -/
theorem mba_routes_to_hw (w : World) (mem : Mem) (hinit : w.m_init_done = true) :
    (∀ (socket num_cos : Nat) (requested actual : Ptr),
      ∃ st, run (pqos_mba_set socket num_cos requested actual) w mem =
          some ((w.backend (Call.hw_mba_set socket num_cos requested actual) mem).1, st) ∧
        st.trace = [Event.lock, Event.check_init 1,
          Event.call (Call.hw_mba_set socket num_cos requested actual) mem, Event.unlock] ∧
        st.trace.countP (Event.is_call_of Side.hw) = 1 ∧
        st.trace.countP (Event.is_call_of Side.os) = 0 ∧
        st.trace.countP Event.is_call = 1) ∧
    (∀ (socket max_num_cos : Nat) (num_cos mba_tab : Ptr),
      ∃ st, run (pqos_mba_get socket max_num_cos num_cos mba_tab) w mem =
          some ((w.backend (Call.hw_mba_get socket max_num_cos num_cos mba_tab) mem).1, st) ∧
        st.trace = [Event.lock, Event.check_init 1,
          Event.call (Call.hw_mba_get socket max_num_cos num_cos mba_tab) mem, Event.unlock] ∧
        st.trace.countP (Event.is_call_of Side.hw) = 1 ∧
        st.trace.countP (Event.is_call_of Side.os) = 0 ∧
        st.trace.countP Event.is_call = 1) := by
  constructor
  · intro socket num_cos requested actual
    rw [pqos_mba_set_eval, hinit]
    exact ⟨_, rfl, rfl, rfl, rfl, rfl⟩
  · intro socket max_num_cos num_cos mba_tab
    rw [pqos_mba_get_eval, hinit]
    exact ⟨_, rfl, rfl, rfl, rfl, rfl⟩

/-- Instance of C10 with the OS backend selected. -/
theorem mba_routes_to_hw_witness :
    ∃ st, run (pqos_mba_set 0 2 5 6) example_os_world example_mem =
        some ((example_os_world.backend (Call.hw_mba_set 0 2 5 6) example_mem).1, st) ∧
      st.trace = [Event.lock, Event.check_init 1,
        Event.call (Call.hw_mba_set 0 2 5 6) example_mem, Event.unlock] ∧
      st.trace.countP (Event.is_call_of Side.hw) = 1 ∧
      st.trace.countP (Event.is_call_of Side.os) = 0 ∧
      st.trace.countP Event.is_call = 1 :=
  (mba_routes_to_hw example_os_world example_mem rfl).1 0 2 5 6

/-! ## Return values and dispatch -/

theorem facade_outcome_select (w : World) (mem : Mem) (c1 c2 : Call) :
    facade_outcome w mem (if w.m_init_done = false then not_initialised mem
      else if w.use_msr = true then dispatched w mem c1 else dispatched w mem c2) := by
  split
  · exact Or.inr (Or.inl rfl)
  · split
    · exact Or.inr (Or.inr (Or.inl ⟨_, rfl⟩))
    · exact Or.inr (Or.inr (Or.inl ⟨_, rfl⟩))

theorem facade_outcome_forward (w : World) (mem : Mem) (c : Call) :
    facade_outcome w mem (if w.m_init_done = false then not_initialised mem
      else forwarded w mem c) := by
  split
  · exact Or.inr (Or.inl rfl)
  · exact Or.inr (Or.inr (Or.inr (Or.inl ⟨_, rfl⟩)))

theorem exec_outcome (fuel : Nat) (hf : 65 ≤ fuel) (req : Request) (w : World) (mem : Mem) :
    facade_outcome w mem (run (req.exec fuel) w mem) := by
  by_cases hrej : req.rejected_before_gate mem
  · exact Or.inl (exec_rejected fuel req w mem hrej)
  cases hinit : w.m_init_done
  · rw [exec_not_init fuel req w mem hinit hrej]
    exact Or.inr (Or.inl rfl)
  cases req with
  | alloc_assoc_set a b =>
    simp only [Request.exec, pqos_alloc_assoc_set_eval]; exact facade_outcome_select w mem _ _
  | alloc_assoc_get a b =>
    simp only [Request.exec, pqos_alloc_assoc_get_eval]; exact facade_outcome_select w mem _ _
  | alloc_assign a b c d =>
    simp only [Request.exec, pqos_alloc_assign_eval]
    rw [if_neg (by exact hrej)]; exact facade_outcome_select w mem _ _
  | alloc_release a b =>
    simp only [Request.exec, pqos_alloc_release_eval]
    rw [if_neg (by exact hrej)]; exact facade_outcome_select w mem _ _
  | alloc_reset a =>
    simp only [Request.exec, pqos_alloc_reset_eval]
    rw [if_neg (by exact hrej)]; exact facade_outcome_select w mem _ _
  | l3ca_set a b c =>
    simp only [Request.exec]
    cases c with
    | none => exact (hrej (Or.inl rfl)).elim
    | some tab =>
      by_cases hall : ∀ i, i < b → l3ca_entry_ok fuel (tab i)
      · rw [pqos_l3ca_set_pass fuel hf w mem a b tab (fun hb => hrej (Or.inr hb)) hinit hall]
        split <;> exact Or.inr (Or.inr (Or.inl ⟨_, rfl⟩))
      · have hbad : ∃ i, i < b ∧ ¬ l3ca_entry_ok fuel (tab i) := by
          push_neg at hall; exact hall
        obtain ⟨j, _, _, _, hres⟩ := pqos_l3ca_set_fail fuel hf w mem a b tab hinit hbad
        rw [hres]; exact Or.inr (Or.inr (Or.inr (Or.inr (Or.inl ⟨_, _, rfl⟩))))
  | l3ca_get a b c d =>
    simp only [Request.exec, pqos_l3ca_get_eval]
    rw [if_neg (by exact hrej)]; exact facade_outcome_select w mem _ _
  | l2ca_set a b c =>
    simp only [Request.exec]
    cases c with
    | none => exact (hrej (Or.inl rfl)).elim
    | some tab =>
      by_cases hall : ∀ i, i < b → l2ca_entry_ok fuel (tab i)
      · rw [pqos_l2ca_set_pass fuel hf w mem a b tab (fun hb => hrej (Or.inr hb)) hinit hall]
        split <;> exact Or.inr (Or.inr (Or.inl ⟨_, rfl⟩))
      · have hbad : ∃ i, i < b ∧ ¬ l2ca_entry_ok fuel (tab i) := by
          push_neg at hall; exact hall
        obtain ⟨j, _, _, _, hres⟩ := pqos_l2ca_set_fail fuel hf w mem a b tab hinit hbad
        rw [hres]; exact Or.inr (Or.inr (Or.inr (Or.inr (Or.inl ⟨_, _, rfl⟩))))
  | l2ca_get a b c d =>
    simp only [Request.exec, pqos_l2ca_get_eval]
    rw [if_neg (by exact hrej)]; exact facade_outcome_select w mem _ _
  | mba_set a b c d =>
    simp only [Request.exec, pqos_mba_set_eval]; exact facade_outcome_forward w mem _
  | mba_get a b c d =>
    simp only [Request.exec, pqos_mba_get_eval]; exact facade_outcome_forward w mem _
  | mon_reset =>
    simp only [Request.exec, pqos_mon_reset_eval]; exact facade_outcome_forward w mem _
  | mon_assoc_get a b =>
    simp only [Request.exec, pqos_mon_assoc_get_eval]; exact facade_outcome_forward w mem _
  | mon_start a b c d e =>
    simp only [Request.exec, pqos_mon_start_eval]
    rw [if_neg (fun hb => hrej (Or.inl hb)), if_neg (fun hb => hrej (Or.inr (Or.inl hb))),
      if_neg (fun hb => hrej (Or.inr (Or.inr hb)))]
    exact facade_outcome_select w mem _ _
  | mon_stop a =>
    simp only [Request.exec, pqos_mon_stop_eval]
    rw [if_neg (fun hb => hrej (Or.inl hb)), if_neg (fun hb => hrej (Or.inr hb))]
    exact facade_outcome_select w mem _ _
  | mon_poll groups n =>
    simp only [Request.exec]
    cases groups with
    | none => exact (hrej trivial).elim
    | some tab =>
      have hn : n ≠ 0 := fun hb => hrej (Or.inl hb)
      have hall : ∀ k, k < n → tab k ≠ NULL ∧ (mem (tab k)).valid = GROUP_VALID_MARKER := by
        intro k hk
        by_contra hc
        apply hrej
        right
        refine ⟨k, hk, ?_⟩
        by_cases h1 : tab k = NULL
        · exact Or.inl h1
        · exact Or.inr (fun h2 => hc ⟨h1, h2⟩)
      rw [pqos_mon_poll_valid w mem tab n hn hall]
      exact facade_outcome_select w mem _ _
  | mon_start_pid a b c d =>
    simp only [Request.exec, pqos_mon_start_pid_eval]
    rw [if_neg (fun hb => hrej (Or.inl hb)), if_neg (fun hb => hrej (Or.inr (Or.inl hb))),
      if_neg (fun hb => hrej (Or.inr (Or.inr hb))), hinit]
    simp only [Bool.true_eq_false, if_false]
    split
    · split
      · exact Or.inr (Or.inr (Or.inr (Or.inr (Or.inr (Or.inr ⟨_, rfl⟩)))))
      · exact Or.inr (Or.inr (Or.inr (Or.inr (Or.inr (Or.inl ⟨_, _, _, rfl⟩)))))
    · exact Or.inr (Or.inr (Or.inr (Or.inr (Or.inr (Or.inl ⟨_, _, _, rfl⟩)))))

theorem no_call_of_logs (t : List Event) (h : t.all Event.is_log = true) (c : Call) (m : Mem) :
    Event.call c m ∉ t := by
  intro hc
  rw [List.all_eq_true] at h
  exact Bool.false_ne_true (h _ hc)

theorem countP_call_of_logs (t : List Event) (h : t.all Event.is_log = true) :
    t.countP Event.is_call = 0 := by
  rw [List.countP_eq_zero]
  intro e he
  rw [List.all_eq_true] at h
  have := h e he
  cases e <;> first | exact Bool.false_ne_true | exact (Bool.false_ne_true this).elim

theorem returns_backend_value_of_outcome (w : World) (mem : Mem) (o : Option (Int × St))
    (h : facade_outcome w mem o) : returns_backend_value w o := by
  rcases h with h | h | ⟨c, h⟩ | ⟨c, h⟩ | ⟨msg, id, h⟩ | ⟨m1, c, g, h⟩ | ⟨m1, h⟩
  · obtain ⟨t, hlog, rfl⟩ := h
    refine ⟨_, _, rfl, ?_, ?_⟩
    · show t.countP Event.is_call ≤ 1
      rw [countP_call_of_logs t hlog]; exact Nat.zero_le 1
    · intro c m hc
      exact (no_call_of_logs t hlog c m hc).elim
  · subst h
    refine ⟨_, _, rfl, Nat.zero_le 1, ?_⟩
    intro c m hc
    simp [not_initialised] at hc
  · subst h
    refine ⟨_, _, rfl, Nat.le_refl 1, ?_⟩
    intro c' m hc
    simp only [List.mem_cons, List.mem_singleton, Event.call.injEq, List.not_mem_nil,
      or_false, false_or, reduceCtorEq] at hc
    obtain ⟨rfl, rfl⟩ := hc
    rfl
  · subst h
    refine ⟨_, _, rfl, Nat.le_refl 1, ?_⟩
    intro c' m hc
    simp only [List.mem_cons, List.mem_singleton, Event.call.injEq, List.not_mem_nil,
      or_false, false_or, reduceCtorEq] at hc
    obtain ⟨rfl, rfl⟩ := hc
    rfl
  · subst h
    refine ⟨_, _, rfl, Nat.zero_le 1, ?_⟩
    intro c m hc
    simp [not_contiguous] at hc
  · subst h
    unfold pid_dispatched
    split
    · refine ⟨_, _, rfl, Nat.le_refl 1, ?_⟩
      intro c' m hc
      simp only [List.mem_cons, List.mem_singleton, Event.call.injEq, List.not_mem_nil,
        or_false, false_or, reduceCtorEq] at hc
      obtain ⟨rfl, rfl⟩ := hc
      rfl
    · refine ⟨_, _, rfl, Nat.le_refl 1, ?_⟩
      intro c' m hc
      simp only [List.mem_cons, List.mem_singleton, Event.call.injEq, List.not_mem_nil,
        or_false, false_or, reduceCtorEq] at hc
      obtain ⟨rfl, rfl⟩ := hc
      rfl
  · subst h
    refine ⟨_, _, rfl, Nat.zero_le 1, ?_⟩
    intro c m hc
    simp [pid_not_built] at hc

/-- C11: every exported operation, for every choice of arguments and every
state of the collaborators, returns; its trace holds at most one backend
operation, and whenever a backend operation is in the trace the value the
facade returns is the value that operation returned. -/
theorem backend_result_verbatim (fuel : Nat) (hf : 65 ≤ fuel) (req : Request) (w : World)
    (mem : Mem) :
    ∃ r st, run (req.exec fuel) w mem = some (r, st) ∧
      st.trace.countP Event.is_call ≤ 1 ∧
      ∀ c m, Event.call c m ∈ st.trace → r = (w.backend c m).1 :=
  returns_backend_value_of_outcome w mem _ (exec_outcome fuel hf req w mem)

/-- Instance of C11: `pqos_mon_start_pid` on a backend that fails. -/
theorem backend_result_verbatim_witness :
    ∃ r st, run ((Request.mon_start_pid 7 PQOS_MON_EVENT_L3_OCCUP 0 2).exec 65)
        example_failing_world example_mem = some (r, st) ∧
      st.trace.countP Event.is_call ≤ 1 ∧
      ∀ c m, Event.call c m ∈ st.trace → r = (example_failing_world.backend c m).1 :=
  backend_result_verbatim 65 (by decide) (Request.mon_start_pid 7 PQOS_MON_EVENT_L3_OCCUP 0 2)
    example_failing_world example_mem

theorem dispatches_once_select (w : World) (mem : Mem) (c1 c2 : Call)
    (hinit : w.m_init_done = true) (h1 : c1.side = Side.hw) (h2 : c2.side = Side.os) :
    dispatches_once (if w.use_msr = true then Side.hw else Side.os) 1
      (if w.m_init_done = false then not_initialised mem
       else if w.use_msr = true then dispatched w mem c1 else dispatched w mem c2) := by
  rw [hinit]
  simp only [Bool.true_eq_false, if_false]
  split
  · refine ⟨_, _, rfl, rfl, ?_, rfl⟩
    simp [List.countP_cons, Event.is_call_of, h1]
  · refine ⟨_, _, rfl, rfl, ?_, rfl⟩
    simp [List.countP_cons, Event.is_call_of, h2]

theorem dispatches_once_forward (w : World) (mem : Mem) (c : Call)
    (hinit : w.m_init_done = true) (h1 : c.side = Side.hw) :
    dispatches_once Side.hw 0
      (if w.m_init_done = false then not_initialised mem else forwarded w mem c) := by
  rw [hinit]
  simp only [Bool.true_eq_false, if_false]
  refine ⟨_, _, rfl, rfl, ?_, rfl⟩
  simp [List.countP_cons, Event.is_call_of, h1]

/-- C12 fails as stated for bandwidth allocation: on an initialised library
whose selector answers OS mode, `pqos_mba_set` passes validation, never queries
the selector and invokes the hardware operation `hw_mba_set`, not an OS one. -/
theorem mba_selector_counterexample :
    example_os_world.m_init_done = true ∧ example_os_world.use_msr = false ∧
    run (pqos_mba_set 0 2 5 6) example_os_world example_mem =
      some (0, { lock_held := false,
                 trace := [Event.lock, Event.check_init 1,
                   Event.call (Call.hw_mba_set 0 2 5 6) example_mem, Event.unlock],
                 mem := example_mem }) ∧
    [Event.lock, Event.check_init 1, Event.call (Call.hw_mba_set 0 2 5 6) example_mem,
      Event.unlock].countP Event.is_use_msr = 0 ∧
    [Event.lock, Event.check_init 1, Event.call (Call.hw_mba_set 0 2 5 6) example_mem,
      Event.unlock].countP (Event.is_call_of Side.os) = 0 ∧
    [Event.lock, Event.check_init 1, Event.call (Call.hw_mba_set 0 2 5 6) example_mem,
      Event.unlock].countP (Event.is_call_of Side.hw) = 1 :=
  ⟨rfl, rfl, rfl, rfl, rfl, rfl⟩

/-- C12, amended: on an initialised library, each call of an allocation
dispatcher operation that passes validation invokes exactly one backend
operation.  For association set/get, assign, release, reset and L3/L2 set/get
it queries the selector exactly once and the operation is the hardware one
when the selector answers true, the OS one when it answers false.  For
bandwidth set/get it does not query the selector and the operation is the
hardware one. -/
theorem alloc_dispatch_once (fuel : Nat) (hf : 65 ≤ fuel) (req : Request) (w : World)
    (mem : Mem) (hinit : w.m_init_done = true) (halloc : req.is_alloc = true)
    (hval : req.passes_validation fuel mem) :
    (req.is_mba = false →
      ∃ r st, run (req.exec fuel) w mem = some (r, st) ∧
        st.trace.countP Event.is_call = 1 ∧
        st.trace.countP (Event.is_call_of (if w.use_msr = true then Side.hw else Side.os)) = 1 ∧
        st.trace.countP Event.is_use_msr = 1) ∧
    (req.is_mba = true →
      ∃ r st, run (req.exec fuel) w mem = some (r, st) ∧
        st.trace.countP Event.is_call = 1 ∧
        st.trace.countP (Event.is_call_of Side.hw) = 1 ∧
        st.trace.countP Event.is_use_msr = 0) := by
  obtain ⟨hrej, hcontig⟩ := hval
  cases req with
  | alloc_assoc_set a b =>
    refine ⟨fun _ => ?_, fun h => (Bool.false_ne_true h).elim⟩
    simp only [Request.exec, pqos_alloc_assoc_set_eval]
    exact dispatches_once_select w mem _ _ hinit rfl rfl
  | alloc_assoc_get a b =>
    refine ⟨fun _ => ?_, fun h => (Bool.false_ne_true h).elim⟩
    simp only [Request.exec, pqos_alloc_assoc_get_eval]
    exact dispatches_once_select w mem _ _ hinit rfl rfl
  | alloc_assign a b c d =>
    refine ⟨fun _ => ?_, fun h => (Bool.false_ne_true h).elim⟩
    simp only [Request.exec, pqos_alloc_assign_eval]
    rw [if_neg (by exact hrej)]
    exact dispatches_once_select w mem _ _ hinit rfl rfl
  | alloc_release a b =>
    refine ⟨fun _ => ?_, fun h => (Bool.false_ne_true h).elim⟩
    simp only [Request.exec, pqos_alloc_release_eval]
    rw [if_neg (by exact hrej)]
    exact dispatches_once_select w mem _ _ hinit rfl rfl
  | alloc_reset a =>
    refine ⟨fun _ => ?_, fun h => (Bool.false_ne_true h).elim⟩
    simp only [Request.exec, pqos_alloc_reset_eval]
    rw [if_neg (by exact hrej)]
    exact dispatches_once_select w mem _ _ hinit rfl rfl
  | l3ca_set a b c =>
    refine ⟨fun _ => ?_, fun h => (Bool.false_ne_true h).elim⟩
    cases c with
    | none => exact (hrej (Or.inl rfl)).elim
    | some tab =>
      simp only [Request.exec]
      rw [pqos_l3ca_set_pass fuel hf w mem a b tab (fun hb => hrej (Or.inr hb)) hinit hcontig]
      have := dispatches_once_select w mem (Call.hw_l3ca_set a b (some tab))
        (Call.os_l3ca_set a b (some tab)) hinit rfl rfl
      rw [hinit] at this
      simpa using this
  | l3ca_get a b c d =>
    refine ⟨fun _ => ?_, fun h => (Bool.false_ne_true h).elim⟩
    simp only [Request.exec, pqos_l3ca_get_eval]
    rw [if_neg (by exact hrej)]
    exact dispatches_once_select w mem _ _ hinit rfl rfl
  | l2ca_set a b c =>
    refine ⟨fun _ => ?_, fun h => (Bool.false_ne_true h).elim⟩
    cases c with
    | none => exact (hrej (Or.inl rfl)).elim
    | some tab =>
      simp only [Request.exec]
      rw [pqos_l2ca_set_pass fuel hf w mem a b tab (fun hb => hrej (Or.inr hb)) hinit hcontig]
      have := dispatches_once_select w mem (Call.hw_l2ca_set a b (some tab))
        (Call.os_l2ca_set a b (some tab)) hinit rfl rfl
      rw [hinit] at this
      simpa using this
  | l2ca_get a b c d =>
    refine ⟨fun _ => ?_, fun h => (Bool.false_ne_true h).elim⟩
    simp only [Request.exec, pqos_l2ca_get_eval]
    rw [if_neg (by exact hrej)]
    exact dispatches_once_select w mem _ _ hinit rfl rfl
  | mba_set a b c d =>
    refine ⟨fun h => (Bool.false_ne_true h.symm).elim, fun _ => ?_⟩
    simp only [Request.exec, pqos_mba_set_eval]
    exact dispatches_once_forward w mem _ hinit rfl
  | mba_get a b c d =>
    refine ⟨fun h => (Bool.false_ne_true h.symm).elim, fun _ => ?_⟩
    simp only [Request.exec, pqos_mba_get_eval]
    exact dispatches_once_forward w mem _ hinit rfl
  | mon_reset => exact (Bool.false_ne_true halloc).elim
  | mon_assoc_get a b => exact (Bool.false_ne_true halloc).elim
  | mon_start a b c d e => exact (Bool.false_ne_true halloc).elim
  | mon_stop a => exact (Bool.false_ne_true halloc).elim
  | mon_poll groups n => exact (Bool.false_ne_true halloc).elim
  | mon_start_pid a b c d => exact (Bool.false_ne_true halloc).elim

/-- Instance of amended C12: `pqos_l3ca_set` with the OS backend selected. -/
theorem alloc_dispatch_once_witness :
    ∃ r st, run ((Request.l3ca_set 0 1 (some example_l3_table)).exec 65) example_os_world
        example_mem = some (r, st) ∧
      st.trace.countP Event.is_call = 1 ∧
      st.trace.countP (Event.is_call_of
        (if example_os_world.use_msr = true then Side.hw else Side.os)) = 1 ∧
      st.trace.countP Event.is_use_msr = 1 :=
  (alloc_dispatch_once 65 (by decide) (Request.l3ca_set 0 1 (some example_l3_table))
    example_os_world example_mem rfl rfl
    ⟨by simp [Request.rejected_before_gate],
      fun i hi => by
        have hi0 : i = 0 := by omega
        subst hi0
        decide⟩).1 rfl

/-! ## Argument validation before the gate -/

/-- C13: `pqos_alloc_reset` returns, and it returns PARAM with no acquisition of
the lock, no initialisation check and no backend operation in its trace if and
only if its argument is none of ON, OFF, ANY.  For each of the three
recognised values on an initialised library its trace is lock, check, selector
query, the one backend reset (hardware or OS, as the selector answers) with
that same value, unlock. -/
theorem alloc_reset_validation (w : World) (mem : Mem) (l3_cdp_cfg : Int) :
    ∃ r st, run (pqos_alloc_reset l3_cdp_cfg) w mem = some (r, st) ∧
      ((r = PQOS_RETVAL_PARAM ∧ st.trace.any Event.is_lock = false ∧
          st.trace.any Event.is_check_init = false ∧ st.trace.any Event.is_call = false) ↔
        (l3_cdp_cfg ≠ PQOS_REQUIRE_CDP_ON ∧ l3_cdp_cfg ≠ PQOS_REQUIRE_CDP_OFF ∧
          l3_cdp_cfg ≠ PQOS_REQUIRE_CDP_ANY)) ∧
      (w.m_init_done = true →
        (l3_cdp_cfg = PQOS_REQUIRE_CDP_ON ∨ l3_cdp_cfg = PQOS_REQUIRE_CDP_OFF ∨
          l3_cdp_cfg = PQOS_REQUIRE_CDP_ANY) →
        st.trace = [Event.lock, Event.check_init 1, Event.use_msr,
          Event.call (if w.use_msr = true then Call.hw_alloc_reset l3_cdp_cfg
            else Call.os_alloc_reset l3_cdp_cfg) mem, Event.unlock] ∧
        st.trace.countP Event.is_call = 1) := by
  rw [pqos_alloc_reset_eval]
  by_cases h : l3_cdp_cfg ≠ PQOS_REQUIRE_CDP_ON ∧ l3_cdp_cfg ≠ PQOS_REQUIRE_CDP_OFF ∧
      l3_cdp_cfg ≠ PQOS_REQUIRE_CDP_ANY
  · rw [if_pos h]
    refine ⟨_, _, rfl, iff_of_true ⟨rfl, rfl, rfl, rfl⟩ h, ?_⟩
    intro _ hrec
    rcases hrec with h1 | h1 | h1
    · exact absurd h1 h.1
    · exact absurd h1 h.2.1
    · exact absurd h1 h.2.2
  · rw [if_neg h]
    cases hi : w.m_init_done
    · refine ⟨_, _, rfl, iff_of_false ?_ h, ?_⟩
      · rintro ⟨_, hl, _⟩
        exact Bool.noConfusion hl
      · intro hc; exact Bool.noConfusion hc
    · cases hu : w.use_msr
      · refine ⟨_, _, rfl, iff_of_false ?_ h, fun _ _ => ⟨rfl, rfl⟩⟩
        rintro ⟨_, hl, _⟩
        exact Bool.noConfusion hl
      · refine ⟨_, _, rfl, iff_of_false ?_ h, fun _ _ => ⟨rfl, rfl⟩⟩
        rintro ⟨_, hl, _⟩
        exact Bool.noConfusion hl

/-- Instance of C13: the requirement ON on an initialised library. -/
theorem alloc_reset_validation_witness :
    ∃ r st, run (pqos_alloc_reset PQOS_REQUIRE_CDP_ON) example_world example_mem =
        some (r, st) ∧
      st.trace = [Event.lock, Event.check_init 1, Event.use_msr,
        Event.call (Call.hw_alloc_reset PQOS_REQUIRE_CDP_ON) example_mem, Event.unlock] ∧
      st.trace.countP Event.is_call = 1 := by
  obtain ⟨r, st, hrun, _, h⟩ :=
    alloc_reset_validation example_world example_mem PQOS_REQUIRE_CDP_ON
  exact ⟨r, st, hrun, h rfl (Or.inl rfl)⟩

/-- C14: for every state of the collaborators (initialised or not),
`pqos_alloc_assign` with a null core array, no cores, a null class-id slot or a
zero technology, `pqos_alloc_release` with a null core array or no cores, and
`pqos_l3ca_get` / `pqos_l2ca_get` with a zero capacity or a null output pointer
return PARAM with an empty trace (no lock, no backend); with any other
arguments the same operations go on to the gate, where the outcome is the INIT
error or what the selected backend returns, so they reject nothing else
themselves. -/
theorem argument_shape_rejections (w : World) (mem : Mem) :
    (∀ (technology : Nat) (core_array : Ptr) (core_num : Nat) (class_id : Ptr),
      (core_array = NULL ∨ core_num = 0 ∨ class_id = NULL ∨ technology = 0 →
        run (pqos_alloc_assign technology core_array core_num class_id) w mem =
          some (PQOS_RETVAL_PARAM, { lock_held := false, trace := [], mem := mem })) ∧
      (¬ (core_array = NULL ∨ core_num = 0 ∨ class_id = NULL ∨ technology = 0) →
        run (pqos_alloc_assign technology core_array core_num class_id) w mem =
          if w.m_init_done = false then not_initialised mem
          else if w.use_msr = true then
            dispatched w mem (Call.hw_alloc_assign technology core_array core_num class_id)
          else dispatched w mem (Call.os_alloc_assign technology core_array core_num class_id))) ∧
    (∀ (core_array : Ptr) (core_num : Nat),
      (core_array = NULL ∨ core_num = 0 →
        run (pqos_alloc_release core_array core_num) w mem =
          some (PQOS_RETVAL_PARAM, { lock_held := false, trace := [], mem := mem })) ∧
      (¬ (core_array = NULL ∨ core_num = 0) →
        run (pqos_alloc_release core_array core_num) w mem =
          if w.m_init_done = false then not_initialised mem
          else if w.use_msr = true then
            dispatched w mem (Call.hw_alloc_release core_array core_num)
          else dispatched w mem (Call.os_alloc_release core_array core_num))) ∧
    (∀ (socket max_num_ca : Nat) (num_ca ca : Ptr),
      (max_num_ca = 0 ∨ num_ca = NULL ∨ ca = NULL →
        run (pqos_l3ca_get socket max_num_ca num_ca ca) w mem =
          some (PQOS_RETVAL_PARAM, { lock_held := false, trace := [], mem := mem })) ∧
      (¬ (max_num_ca = 0 ∨ num_ca = NULL ∨ ca = NULL) →
        run (pqos_l3ca_get socket max_num_ca num_ca ca) w mem =
          if w.m_init_done = false then not_initialised mem
          else if w.use_msr = true then
            dispatched w mem (Call.hw_l3ca_get socket max_num_ca num_ca ca)
          else dispatched w mem (Call.os_l3ca_get socket max_num_ca num_ca ca))) ∧
    (∀ (l2id max_num_ca : Nat) (num_ca ca : Ptr),
      (max_num_ca = 0 ∨ num_ca = NULL ∨ ca = NULL →
        run (pqos_l2ca_get l2id max_num_ca num_ca ca) w mem =
          some (PQOS_RETVAL_PARAM, { lock_held := false, trace := [], mem := mem })) ∧
      (¬ (max_num_ca = 0 ∨ num_ca = NULL ∨ ca = NULL) →
        run (pqos_l2ca_get l2id max_num_ca num_ca ca) w mem =
          if w.m_init_done = false then not_initialised mem
          else if w.use_msr = true then
            dispatched w mem (Call.hw_l2ca_get l2id max_num_ca num_ca ca)
          else dispatched w mem (Call.os_l2ca_get l2id max_num_ca num_ca ca))) := by
  refine ⟨?_, ?_, ?_, ?_⟩
  · intro technology core_array core_num class_id
    rw [pqos_alloc_assign_eval]
    constructor
    · intro h
      rw [if_pos (by tauto)]; rfl
    · intro h
      rw [if_neg (by tauto)]
  · intro core_array core_num
    rw [pqos_alloc_release_eval]
    constructor
    · intro h
      rw [if_pos (by tauto)]; rfl
    · intro h
      rw [if_neg (by tauto)]
  · intro socket max_num_ca num_ca ca
    rw [pqos_l3ca_get_eval]
    constructor
    · intro h
      rw [if_pos (by tauto)]; rfl
    · intro h
      rw [if_neg (by tauto)]
  · intro l2id max_num_ca num_ca ca
    rw [pqos_l2ca_get_eval]
    constructor
    · intro h
      rw [if_pos (by tauto)]; rfl
    · intro h
      rw [if_neg (by tauto)]

/-- Instance of C14: one rejected and one accepted argument shape, on a
library that is not initialised and on one that is. -/
theorem argument_shape_rejections_witness :
    run (pqos_alloc_assign 1 1 0 1) example_uninit_world example_mem =
        some (PQOS_RETVAL_PARAM, { lock_held := false, trace := [], mem := example_mem }) ∧
    run (pqos_alloc_release 1 1) example_uninit_world example_mem =
        not_initialised example_mem ∧
    run (pqos_l3ca_get 0 4 0 1) example_world example_mem =
        some (PQOS_RETVAL_PARAM, { lock_held := false, trace := [], mem := example_mem }) ∧
    run (pqos_l2ca_get 0 4 1 1) example_world example_mem =
        dispatched example_world example_mem (Call.hw_l2ca_get 0 4 1 1) :=
  ⟨((argument_shape_rejections example_uninit_world example_mem).1 1 1 0 1).1
      (Or.inr (Or.inl rfl)),
   ((argument_shape_rejections example_uninit_world example_mem).2.1 1 1).2 (by decide),
   ((argument_shape_rejections example_world example_mem).2.2.1 0 4 0 1).1
      (Or.inr (Or.inl rfl)),
   ((argument_shape_rejections example_world example_mem).2.2.2 0 4 1 1).2 (by decide)⟩

/-! ## Start of monitoring by process id -/

/-- Outcome of `pqos_mon_start_pid` with valid arguments on an initialised
library. -/
theorem pqos_mon_start_pid_gated (w : World) (mem : Mem) (pid : Int) (event : Nat)
    (context group : Ptr) (hinit : w.m_init_done = true) (hgroup : group ≠ NULL)
    (hevent : event ≠ 0) (hpid : 0 ≤ pid) (hvalid : (mem group).valid ≠ GROUP_VALID_MARKER)
    (hmask : ¬ mon_event_invalid event) :
    run (pqos_mon_start_pid pid event context group) w mem =
      if w.use_msr = true then
        if w.no_pid_api = true then pid_not_built (pid_prepared mem pid event context group)
        else pid_dispatched w (pid_prepared mem pid event context group)
          (Call.pqos_pid_start group) group
      else pid_dispatched w (pid_prepared mem pid event context group)
        (Call.os_mon_start_pid group) group := by
  have hshape : ¬ (group = NULL ∨ event = 0 ∨ pid < 0) := by
    rintro (h | h | h)
    · exact hgroup h
    · exact hevent h
    · omega
  rw [pqos_mon_start_pid_eval, if_neg hshape, if_neg hvalid, if_neg hmask, hinit]
  simp only [Bool.true_eq_false, if_false]

theorem pid_prepared_group (mem : Mem) (pid : Int) (event : Nat) (context group : Ptr) :
    pid_prepared mem pid event context group group =
      { valid := 0, event := event, context := context, values := 0, pid := pid,
        cores := NULL, num_cores := 0, priv := 0 } := by
  simp [pid_prepared, Mem.write, pqos_mon_data.zero]

theorem pid_prepared_other (mem : Mem) (pid : Int) (event : Nat) (context group q : Ptr)
    (h : q ≠ group) : pid_prepared mem pid event context group q = mem q := by
  simp [pid_prepared, Mem.write, h]

/-- C15: for a `pqos_mon_start_pid` call with valid arguments on an initialised
library that reaches a backend start operation `c` (the process-id hardware
path when the selector answers true and that path is built, the OS one when
it answers false): the call returns what `c` returned.  When that is OK, the
memory at return is what the backend left with the sentinel written into the
group's marker, so the group is Active.  When it is any other code, the memory
at return is exactly what the backend left (the facade writes nothing), so if
the backend left the marker as it received it, the group is not Active. -/
theorem mon_start_pid_marker (w : World) (mem : Mem) (pid : Int) (event : Nat)
    (context group : Ptr) (c : Call) (hinit : w.m_init_done = true) (hgroup : group ≠ NULL)
    (hevent : event ≠ 0) (hpid : 0 ≤ pid) (hvalid : (mem group).valid ≠ GROUP_VALID_MARKER)
    (hmask : ¬ mon_event_invalid event) (hbuilt : w.use_msr = true → w.no_pid_api = false)
    (hc : c = if w.use_msr = true then Call.pqos_pid_start group
      else Call.os_mon_start_pid group) :
    ∃ st, run (pqos_mon_start_pid pid event context group) w mem =
        some ((w.backend c (pid_prepared mem pid event context group)).1, st) ∧
      st.trace = [Event.lock, Event.check_init 1, Event.use_msr,
        Event.call c (pid_prepared mem pid event context group), Event.unlock] ∧
      ((w.backend c (pid_prepared mem pid event context group)).1 = PQOS_RETVAL_OK →
        (st.mem group).valid = GROUP_VALID_MARKER ∧
        st.mem = (w.backend c (pid_prepared mem pid event context group)).2.write group
          { (w.backend c (pid_prepared mem pid event context group)).2 group with
            valid := GROUP_VALID_MARKER }) ∧
      ((w.backend c (pid_prepared mem pid event context group)).1 ≠ PQOS_RETVAL_OK →
        st.mem = (w.backend c (pid_prepared mem pid event context group)).2 ∧
        (((w.backend c (pid_prepared mem pid event context group)).2 group).valid =
            (pid_prepared mem pid event context group group).valid →
          (st.mem group).valid ≠ GROUP_VALID_MARKER)) := by
  have hrun := pqos_mon_start_pid_gated w mem pid event context group hinit hgroup hevent hpid
    hvalid hmask
  have hdisp : run (pqos_mon_start_pid pid event context group) w mem =
      pid_dispatched w (pid_prepared mem pid event context group) c group := by
    rw [hrun, hc]
    cases hu : w.use_msr
    · rfl
    · rw [hbuilt hu]; rfl
  rw [hdisp]
  unfold pid_dispatched
  by_cases hok : (w.backend c (pid_prepared mem pid event context group)).1 = PQOS_RETVAL_OK
  · rw [if_pos hok]
    refine ⟨_, rfl, rfl, fun _ => ⟨?_, rfl⟩, fun h => absurd hok h⟩
    simp [Mem.write]
  · rw [if_neg hok]
    refine ⟨_, rfl, rfl, fun h => absurd h hok, fun _ => ⟨rfl, ?_⟩⟩
    intro hsame
    show ((w.backend c (pid_prepared mem pid event context group)).2 group).valid ≠ _
    rw [hsame, pid_prepared_group]
    show (0 : Int) ≠ GROUP_VALID_MARKER
    decide

/-- Instance of C15: a backend that returns OK. -/
theorem mon_start_pid_marker_witness :
    ∃ st, run (pqos_mon_start_pid 7 PQOS_MON_EVENT_L3_OCCUP 0 2) example_world example_mem =
        some ((example_world.backend (Call.pqos_pid_start 2)
          (pid_prepared example_mem 7 PQOS_MON_EVENT_L3_OCCUP 0 2)).1, st) ∧
      (st.mem 2).valid = GROUP_VALID_MARKER := by
  obtain ⟨st, hrun, _, hok, _⟩ :=
    mon_start_pid_marker example_world example_mem 7 PQOS_MON_EVENT_L3_OCCUP 0 2
      (Call.pqos_pid_start 2) rfl (by decide) (by decide) (by decide) (by decide) (by decide)
      (fun _ => rfl) rfl
  exact ⟨st, hrun, (hok rfl).1⟩

/-- C17: in a build that defines `PQOS_NO_PID_API`, with the selector
answering hardware mode, every `pqos_mon_start_pid` call with valid arguments on
an initialised library returns ERROR, has no backend operation in its trace,
and leaves the group's marker at zero, which is not the sentinel. -/
theorem mon_start_pid_not_built (w : World) (mem : Mem) (pid : Int) (event : Nat)
    (context group : Ptr) (hinit : w.m_init_done = true) (hmsr : w.use_msr = true)
    (hnopid : w.no_pid_api = true) (hgroup : group ≠ NULL)
    (hevent : event ≠ 0) (hpid : 0 ≤ pid) (hvalid : (mem group).valid ≠ GROUP_VALID_MARKER)
    (hmask : ¬ mon_event_invalid event) :
    ∃ st, run (pqos_mon_start_pid pid event context group) w mem =
        some (PQOS_RETVAL_ERROR, st) ∧
      st.trace.any Event.is_call = false ∧
      (st.mem group).valid = 0 ∧ (st.mem group).valid ≠ GROUP_VALID_MARKER := by
  rw [pqos_mon_start_pid_gated w mem pid event context group hinit hgroup hevent hpid hvalid
    hmask, hmsr, hnopid]
  refine ⟨_, rfl, rfl, ?_, ?_⟩
  · show (pid_prepared mem pid event context group group).valid = 0
    rw [pid_prepared_group]
  · show (pid_prepared mem pid event context group group).valid ≠ GROUP_VALID_MARKER
    rw [pid_prepared_group]
    show (0 : Int) ≠ GROUP_VALID_MARKER
    decide

/-- Instance of C17 on the example memory. -/
theorem mon_start_pid_not_built_witness :
    ∃ st, run (pqos_mon_start_pid 7 PQOS_MON_EVENT_L3_OCCUP 0 2) example_no_pid_world
        example_mem = some (PQOS_RETVAL_ERROR, st) ∧
      st.trace.any Event.is_call = false ∧
      (st.mem 2).valid = 0 ∧ (st.mem 2).valid ≠ GROUP_VALID_MARKER :=
  mon_start_pid_not_built example_no_pid_world example_mem 7 PQOS_MON_EVENT_L3_OCCUP 0 2
    rfl rfl rfl (by decide) (by decide) (by decide) (by decide) (by decide)

/-- C18: for every `pqos_mon_start_pid` call with valid arguments on an
initialised library, the group every backend operation of the trace is handed
has all fields zero except event, pid and context, which are the call's
arguments (nothing of the prior content survives, the marker is clear); if
the call then fails and the backend left the group as it received it, that is
also the group left to the caller.  A backend operation is in the trace unless
the hardware path is selected and not built. -/
theorem mon_start_pid_prepared_group (w : World) (mem : Mem) (pid : Int) (event : Nat)
    (context group : Ptr) (hinit : w.m_init_done = true) (hgroup : group ≠ NULL)
    (hevent : event ≠ 0) (hpid : 0 ≤ pid) (hvalid : (mem group).valid ≠ GROUP_VALID_MARKER)
    (hmask : ¬ mon_event_invalid event) :
    ∃ r st, run (pqos_mon_start_pid pid event context group) w mem = some (r, st) ∧
      (∀ c m, Event.call c m ∈ st.trace →
        m group = { valid := 0, event := event, context := context, values := 0, pid := pid,
                    cores := NULL, num_cores := 0, priv := 0 } ∧
        (r ≠ PQOS_RETVAL_OK → (w.backend c m).2 group = m group →
          st.mem group = { valid := 0, event := event, context := context, values := 0,
                           pid := pid, cores := NULL, num_cores := 0, priv := 0 })) ∧
      ((w.use_msr = true → w.no_pid_api = false) →
        ∃ c m, Event.call c m ∈ st.trace) := by
  rw [pqos_mon_start_pid_gated w mem pid event context group hinit hgroup hevent hpid hvalid
    hmask]
  have hdisp : ∀ c0 : Call, ∃ r st,
      pid_dispatched w (pid_prepared mem pid event context group) c0 group = some (r, st) ∧
      (∀ c m, Event.call c m ∈ st.trace →
        m group = { valid := 0, event := event, context := context, values := 0, pid := pid,
                    cores := NULL, num_cores := 0, priv := 0 } ∧
        (r ≠ PQOS_RETVAL_OK → (w.backend c m).2 group = m group →
          st.mem group = { valid := 0, event := event, context := context, values := 0,
                           pid := pid, cores := NULL, num_cores := 0, priv := 0 })) ∧
      ∃ c m, Event.call c m ∈ st.trace := by
    intro c0
    unfold pid_dispatched
    by_cases hok : (w.backend c0 (pid_prepared mem pid event context group)).1 = PQOS_RETVAL_OK
    · rw [if_pos hok]
      refine ⟨_, _, rfl, ?_, ⟨c0, pid_prepared mem pid event context group, by simp⟩⟩
      intro c m hc
      simp only [List.mem_cons, List.mem_singleton, Event.call.injEq, List.not_mem_nil,
        or_false, false_or, reduceCtorEq] at hc
      obtain ⟨rfl, rfl⟩ := hc
      exact ⟨pid_prepared_group mem pid event context group, fun h => absurd hok h⟩
    · rw [if_neg hok]
      refine ⟨_, _, rfl, ?_, ⟨c0, pid_prepared mem pid event context group, by simp⟩⟩
      intro c m hc
      simp only [List.mem_cons, List.mem_singleton, Event.call.injEq, List.not_mem_nil,
        or_false, false_or, reduceCtorEq] at hc
      obtain ⟨rfl, rfl⟩ := hc
      refine ⟨pid_prepared_group mem pid event context group, fun _ hsame => ?_⟩
      show (w.backend c (pid_prepared mem pid event context group)).2 group = _
      rw [hsame, pid_prepared_group]
  by_cases hu : w.use_msr = true
  · rw [if_pos hu]
    by_cases hn : w.no_pid_api = true
    · rw [if_pos hn]
      refine ⟨_, _, rfl, ?_, ?_⟩
      · intro c m hc
        simp [pid_not_built] at hc
      · intro hb
        rw [hb hu] at hn
        exact Bool.noConfusion hn
    · rw [if_neg hn]
      obtain ⟨r, st, h1, h2, h3⟩ := hdisp (Call.pqos_pid_start group)
      exact ⟨r, st, h1, h2, fun _ => h3⟩
  · rw [if_neg hu]
    obtain ⟨r, st, h1, h2, h3⟩ := hdisp (Call.os_mon_start_pid group)
    exact ⟨r, st, h1, h2, fun _ => h3⟩

/-- Instance of C18: a backend that fails and touches nothing. -/
theorem mon_start_pid_prepared_group_witness :
    ∃ r st, run (pqos_mon_start_pid 7 PQOS_MON_EVENT_L3_OCCUP 5 2) example_failing_world
        example_mem = some (r, st) ∧
      (∀ c m, Event.call c m ∈ st.trace →
        m 2 = { valid := 0, event := PQOS_MON_EVENT_L3_OCCUP, context := 5, values := 0,
                pid := 7, cores := NULL, num_cores := 0, priv := 0 } ∧
        (r ≠ PQOS_RETVAL_OK → (example_failing_world.backend c m).2 2 = m 2 →
          st.mem 2 = { valid := 0, event := PQOS_MON_EVENT_L3_OCCUP, context := 5, values := 0,
                       pid := 7, cores := NULL, num_cores := 0, priv := 0 })) ∧
      ((example_failing_world.use_msr = true → example_failing_world.no_pid_api = false) →
        ∃ c m, Event.call c m ∈ st.trace) :=
  mon_start_pid_prepared_group example_failing_world example_mem 7 PQOS_MON_EVENT_L3_OCCUP 5 2
    rfl (by decide) (by decide) (by decide) (by decide) (by decide)

/-- C20: `pqos_mon_start_pid` returns for every choice of arguments; whenever
its own argument validation fails (null group, zero event, negative pid, group
already Active, invalid event mask) or the library is not initialised, the
whole group memory at return is the memory before the call.  A call that
changes the memory has passed the lock, the initialisation check and reached
the query of the selector, where dispatch begins. -/
theorem mon_start_pid_frame (w : World) (mem : Mem) (pid : Int) (event : Nat)
    (context group : Ptr) :
    ∃ r st, run (pqos_mon_start_pid pid event context group) w mem = some (r, st) ∧
      ((group = NULL ∨ event = 0 ∨ pid < 0 ∨ (mem group).valid = GROUP_VALID_MARKER ∨
          mon_event_invalid event ∨ w.m_init_done = false) → st.mem = mem) ∧
      (st.mem ≠ mem →
        st.trace.take 3 = [Event.lock, Event.check_init 1, Event.use_msr]) := by
  rw [pqos_mon_start_pid_eval]
  by_cases h1 : group = NULL ∨ event = 0 ∨ pid < 0
  · rw [if_pos h1]
    exact ⟨_, _, rfl, fun _ => rfl, fun h => absurd rfl h⟩
  rw [if_neg h1]
  by_cases h2 : (mem group).valid = GROUP_VALID_MARKER
  · rw [if_pos h2]
    exact ⟨_, _, rfl, fun _ => rfl, fun h => absurd rfl h⟩
  rw [if_neg h2]
  by_cases h3 : mon_event_invalid event
  · rw [if_pos h3]
    exact ⟨_, _, rfl, fun _ => rfl, fun h => absurd rfl h⟩
  rw [if_neg h3]
  by_cases h4 : w.m_init_done = false
  · rw [if_pos h4]
    exact ⟨_, _, rfl, fun _ => rfl, fun h => absurd rfl h⟩
  rw [if_neg h4]
  have hno : ¬ (group = NULL ∨ event = 0 ∨ pid < 0 ∨ (mem group).valid = GROUP_VALID_MARKER ∨
      mon_event_invalid event ∨ w.m_init_done = false) := by
    rintro (h | h | h | h | h | h)
    · exact h1 (Or.inl h)
    · exact h1 (Or.inr (Or.inl h))
    · exact h1 (Or.inr (Or.inr h))
    · exact h2 h
    · exact h3 h
    · exact h4 h
  have hdisp : ∀ c0 : Call, ∃ r st,
      pid_dispatched w (pid_prepared mem pid event context group) c0 group = some (r, st) ∧
      ((group = NULL ∨ event = 0 ∨ pid < 0 ∨ (mem group).valid = GROUP_VALID_MARKER ∨
        mon_event_invalid event ∨ w.m_init_done = false) → st.mem = mem) ∧
      (st.mem ≠ mem →
        st.trace.take 3 = [Event.lock, Event.check_init 1, Event.use_msr]) := by
    intro c0
    unfold pid_dispatched
    split
    · exact ⟨_, _, rfl, fun h => absurd h hno, fun _ => rfl⟩
    · exact ⟨_, _, rfl, fun h => absurd h hno, fun _ => rfl⟩
  split
  · split
    · exact ⟨_, _, rfl, fun h => absurd h hno, fun _ => rfl⟩
    · exact hdisp _
  · exact hdisp _

/-- Instance of C20: a negative process id. -/
theorem mon_start_pid_frame_witness :
    ∃ r st, run (pqos_mon_start_pid (-1) PQOS_MON_EVENT_L3_OCCUP 5 2) example_world
        example_mem = some (r, st) ∧ st.mem = example_mem := by
  obtain ⟨r, st, hrun, h, _⟩ :=
    mon_start_pid_frame example_world example_mem (-1) PQOS_MON_EVENT_L3_OCCUP 5 2
  exact ⟨r, st, hrun, h (Or.inr (Or.inr (Or.inl (by decide))))⟩

/-! ## Event-mask validation of the two start operations -/

theorem select_ne_rejected (w : World) (mem : Mem) (c1 c2 : Call) :
    (if w.m_init_done = false then not_initialised mem
      else if w.use_msr = true then dispatched w mem c1 else dispatched w mem c2) ≠
      rejected mem := by
  intro h
  split at h
  · simp [not_initialised, rejected] at h
  · split at h <;> simp [dispatched, rejected] at h

theorem pid_select_ne_rejected (w : World) (mem m1 : Mem) (c1 c2 : Call) (group : Ptr) :
    (if w.m_init_done = false then not_initialised mem
      else if w.use_msr = true then
        if w.no_pid_api = true then pid_not_built m1 else pid_dispatched w m1 c1 group
      else pid_dispatched w m1 c2 group) ≠ rejected mem := by
  have hd : ∀ c, pid_dispatched w m1 c group ≠ rejected mem := by
    intro c h
    unfold pid_dispatched at h
    split at h <;> simp [rejected] at h
  intro h
  split at h
  · simp [not_initialised, rejected] at h
  · split at h
    · split at h
      · simp [pid_not_built, rejected] at h
      · exact hd _ h
    · exact hd _ h

theorem pqos_mon_start_rejected_iff (w : World) (mem : Mem) (num_cores : Nat) (cores : Ptr)
    (event : Nat) (context group : Ptr) (hgroup : group ≠ NULL) (hcores : cores ≠ NULL)
    (hnum : 1 ≤ num_cores) (hvalid : (mem group).valid ≠ GROUP_VALID_MARKER) :
    run (pqos_mon_start num_cores cores event context group) w mem = rejected mem ↔
      (event = 0 ∨ mon_event_invalid event) := by
  rw [pqos_mon_start_eval]
  constructor
  · intro h
    by_contra hc
    push_neg at hc
    have hshape : ¬ (group = NULL ∨ cores = NULL ∨ num_cores = 0 ∨ event = 0) := by
      rintro (h1 | h1 | h1 | h1)
      · exact hgroup h1
      · exact hcores h1
      · omega
      · exact hc.1 h1
    rw [if_neg hshape, if_neg hvalid, if_neg hc.2] at h
    exact select_ne_rejected w mem _ _ h
  · rintro (h | h)
    · rw [if_pos (Or.inr (Or.inr (Or.inr h)))]
    · split <;> rfl

theorem pqos_mon_start_pid_rejected_iff (w : World) (mem : Mem) (pid : Int) (event : Nat)
    (context group : Ptr) (hgroup : group ≠ NULL) (hpid : 0 ≤ pid)
    (hvalid : (mem group).valid ≠ GROUP_VALID_MARKER) :
    run (pqos_mon_start_pid pid event context group) w mem = rejected mem ↔
      (event = 0 ∨ mon_event_invalid event) := by
  rw [pqos_mon_start_pid_eval]
  constructor
  · intro h
    by_contra hc
    push_neg at hc
    have hshape : ¬ (group = NULL ∨ event = 0 ∨ pid < 0) := by
      rintro (h1 | h1 | h1)
      · exact hgroup h1
      · exact hc.1 h1
      · omega
    rw [if_neg hshape, if_neg hvalid, if_neg hc.2] at h
    exact pid_select_ne_rejected w mem _ _ _ _ h
  · rintro (h | h)
    · rw [if_pos (Or.inr (Or.inl h))]
    · split <;> rfl

/-- C16: with otherwise valid arguments (for `pqos_mon_start` a non-null group
that is not Active, non-null cores, `num_cores ≥ 1`; for `pqos_mon_start_pid` a
non-null group that is not Active and `pid ≥ 0`), for every event mask
`pqos_mon_start` rejects the call with PARAM before the gate if and only if
`pqos_mon_start_pid` does; both do so exactly for the zero mask and the masks
that fail the mask tests, which for 32-bit masks are the masks with a bit
outside the six known flags or without a primary flag. -/
theorem mon_start_same_event_validation (w : World) (mem : Mem) (event : Nat)
    (num_cores : Nat) (cores context group : Ptr) (pid : Int) (context2 group2 : Ptr)
    (hgroup : group ≠ NULL) (hcores : cores ≠ NULL) (hnum : 1 ≤ num_cores)
    (hvalid : (mem group).valid ≠ GROUP_VALID_MARKER)
    (hgroup2 : group2 ≠ NULL) (hpid : 0 ≤ pid)
    (hvalid2 : (mem group2).valid ≠ GROUP_VALID_MARKER) :
    (run (pqos_mon_start num_cores cores event context group) w mem =
        some (PQOS_RETVAL_PARAM, { lock_held := false, trace := [], mem := mem }) ↔
      run (pqos_mon_start_pid pid event context2 group2) w mem =
        some (PQOS_RETVAL_PARAM, { lock_held := false, trace := [], mem := mem })) ∧
    (run (pqos_mon_start num_cores cores event context group) w mem =
        some (PQOS_RETVAL_PARAM, { lock_held := false, trace := [], mem := mem }) ↔
      (event = 0 ∨ mon_event_invalid event)) ∧
    (event < 2 ^ 32 →
      (run (pqos_mon_start_pid pid event context2 group2) w mem =
          some (PQOS_RETVAL_PARAM, { lock_held := false, trace := [], mem := mem }) ↔
        ¬ (event_in_universe event ∧ event_has_primary event))) := by
  have h1 := pqos_mon_start_rejected_iff w mem num_cores cores event context group hgroup
    hcores hnum hvalid
  have h2 := pqos_mon_start_pid_rejected_iff w mem pid event context2 group2 hgroup2 hpid
    hvalid2
  refine ⟨h1.trans h2.symm, h1, fun he => h2.trans ?_⟩
  rw [← mon_event_valid_iff event he]
  tauto

/-- Instance of C16: the mask IPC alone, which both operations reject. -/
theorem mon_start_same_event_validation_witness :
    run (pqos_mon_start 1 1 PQOS_PERF_EVENT_IPC 0 2) example_world example_mem =
        some (PQOS_RETVAL_PARAM, { lock_held := false, trace := [], mem := example_mem }) ↔
      run (pqos_mon_start_pid 7 PQOS_PERF_EVENT_IPC 0 4) example_world example_mem =
        some (PQOS_RETVAL_PARAM, { lock_held := false, trace := [], mem := example_mem }) :=
  (mon_start_same_event_validation example_world example_mem PQOS_PERF_EVENT_IPC 1 1 0 2 7 0 4
    (by decide) (by decide) (by decide) (by decide) (by decide) (by decide) (by decide)).1

/-! ## Termination of the contiguity validator -/

/-- The first loop of `is_contiguous` never ends on the zero mask. -/
theorem shift_zeros_zero : ∀ fuel : Nat, shift_zeros fuel 0 = none := by
  intro fuel
  induction fuel with
  | zero => rfl
  | succ f ih => rw [shift_zeros_succ]; simpa using ih

/-- C19: `is_contiguous` returns for every 64-bit mask once each loop has 65
iterations of fuel.  The zero mask returns at once, with any fuel, before the
first loop, which on the zero mask would never end; on a non-zero mask the
first loop ends with a non-zero value below `2^64` and the second loop ends on
that value.  The masks `2^63` (only bit 63 set) and `2^64 - 1` (all ones)
return 1. -/
theorem is_contiguous_terminates (fuel m : Nat) (hf : 65 ≤ fuel) (hm : m < 2 ^ 64) :
    (∃ r, is_contiguous fuel m = some r) ∧
    (m ≠ 0 → ∃ b, shift_zeros fuel m = some b ∧ b ≠ 0 ∧ b < 2 ^ 64 ∧
      ∃ b2, shift_ones fuel b = some b2) ∧
    (∀ f, is_contiguous f 0 = some 0) ∧
    (∀ f, shift_zeros f 0 = none) ∧
    is_contiguous fuel (2 ^ 63) = some 1 ∧
    is_contiguous fuel (2 ^ 64 - 1) = some 1 := by
  have hfuel : fuel = 65 + (fuel - 65) := by omega
  refine ⟨?_, ?_, ?_, shift_zeros_zero, ?_, ?_⟩
  · rcases is_contiguous_total fuel m hf with h | h
    · exact ⟨0, h⟩
    · exact ⟨1, h⟩
  · intro h0
    have hp : (2:Nat) ^ 64 ≤ 2 ^ (fuel - 1) := Nat.pow_le_pow_right (by norm_num) (by omega)
    obtain ⟨b, hb, hle⟩ := shift_zeros_total (fuel - 1) m h0 (by omega)
    have hb2 := shift_zeros_mono 1 _ _ _ hb
    rw [show fuel - 1 + 1 = fuel by omega] at hb2
    obtain ⟨j, _, hodd⟩ := shift_zeros_sound _ _ _ hb2
    obtain ⟨b2, hb3⟩ := shift_ones_total (fuel - 1) b (by omega)
    rw [show fuel - 1 + 1 = fuel by omega] at hb3
    exact ⟨b, hb2, by omega, by omega, b2, hb3⟩
  · intro f
    simp [is_contiguous]
  · rw [hfuel]; exact is_contiguous_mono _ 65 _ _ (by decide)
  · rw [hfuel]; exact is_contiguous_mono _ 65 _ _ (by decide)

/-- Instance of C19: the mask with bits 63 and 0 set. -/
theorem is_contiguous_terminates_witness :
    65 ≤ 65 ∧ 2 ^ 63 + 1 < 2 ^ 64 ∧ ∃ r, is_contiguous 65 (2 ^ 63 + 1) = some r :=
  ⟨by decide, by decide, (is_contiguous_terminates 65 (2 ^ 63 + 1) (by decide) (by decide)).1⟩

end Pqos
